import Mathlib

/-!
CPML cubic Bézier curves (`src/src/cpml/cpml-curve.c`).

A shallow embedding of the curve primitive of the Cairo Path Manipulation
Library: point and slope at a given time, and the offset algorithm.

Modelling conventions:

* A C `double` is an element of a linearly ordered field `K` with exact
  arithmetic (`ℝ` and `ℚ` are instances); rounding, infinities and NaN are
  outside the model.  Every definition is computable as soon as `K` is.
  The one exception is the section on binary64 arithmetic, which rounds every
  operation: whether a divisor is zero depends on the rounding.
* `sqrt` of the C math library is a parameter `sqrt : K → K`; the theorems that
  depend on it assume `IsSqrt sqrt` (it is the non-negative square root), which
  `Real.sqrt` satisfies.
* In-place updates through pointers are modelled by returning the new value.
-/

namespace Cpml

variable {K : Type} [LinearOrderedField K]

/-! ## Data model -/

/-- The type `CpmlPair` (also `CpmlVector`): two `double` coordinates.  The point payload
of a `cairo_path_data_t` has the same two fields and is represented by the same
type. -/
@[ext]
structure CpmlPair (K : Type) where
  x : K
  y : K
deriving DecidableEq, Repr

/-- The type `CpmlPrimitive` restricted to the fields a curve uses: `org` is the start
point (`curve->org`) and `data1`, `data2`, `data3` are the points stored at
`curve->data[1]`, `curve->data[2]`, `curve->data[3]` (`data[0]` is the cairo
header carrying the type code and the length). -/
@[ext]
structure CpmlPrimitive (K : Type) where
  org : CpmlPair K
  data1 : CpmlPair K
  data2 : CpmlPair K
  data3 : CpmlPair K
deriving DecidableEq, Repr

/-- Modelled from the spec: `cpml_primitive_get_point` (cpml-primitive.c is not
among the sources).  Point 0 is the origin of the primitive, points 1 to 3 are
the two control points and the end point of the curve. -/
def cpml_primitive_get_point (curve : CpmlPrimitive K) (npoint : Fin 4) : CpmlPair K :=
  match npoint with
  | 0 => curve.org
  | 1 => curve.data1
  | 2 => curve.data2
  | 3 => curve.data3

/-- Modelled from the spec: `cpml_pair_from_cairo` (cpml-pair.c is not among the
sources) copies the two coordinates of a cairo point into a pair. -/
def cpml_pair_from_cairo (path_data : CpmlPair K) : CpmlPair K :=
  ⟨path_data.x, path_data.y⟩

/-- Modelled from the spec: `cpml_pair_to_cairo` (cpml-pair.c is not among the
sources) copies the two coordinates of a pair into a cairo point. -/
def cpml_pair_to_cairo (pair : CpmlPair K) : CpmlPair K :=
  ⟨pair.x, pair.y⟩

/-- Modelled from the spec: `cpml_pair_copy` (cpml-pair.c is not among the
sources) copies a pair. -/
def cpml_pair_copy (src : CpmlPair K) : CpmlPair K :=
  ⟨src.x, src.y⟩

/-- Modelled from the spec: `cpml_vector_normal` (cpml-pair.c is not among the
sources), the rotation by +90 degrees `(x, y) ↦ (-y, x)`. -/
def cpml_vector_normal (vector : CpmlPair K) : CpmlPair K :=
  ⟨-vector.y, vector.x⟩

/-- Modelled from the spec: `cpml_vector_set_length` (cpml-pair.c is not among
the sources) scales `vector` to magnitude `length` keeping its direction, that
is, multiplies both coordinates by `length / |vector|`.  The spec calls the
zero-length input degenerate and does not fix a result for it; here the result
is then the zero vector (a division by zero yields zero in a Lean field). -/
def cpml_vector_set_length (sqrt : K → K) (vector : CpmlPair K) (length : K) : CpmlPair K :=
  let divisor := length / sqrt (vector.x * vector.x + vector.y * vector.y)
  ⟨vector.x * divisor, vector.y * divisor⟩

/-- The contract of the C library `sqrt` on non-negative arguments, in exact
arithmetic. -/
def IsSqrt (sqrt : K → K) : Prop :=
  ∀ a : K, 0 ≤ a → 0 ≤ sqrt a ∧ sqrt a * sqrt a = a

/-! ## Evaluation of the curve -/

/-- Function `cpml_curve_put_pair_at_time` (cpml-curve.c, lines 242-264): the value
stored in `pair`. -/
def cpml_curve_put_pair_at_time (curve : CpmlPrimitive K) (t : K) : CpmlPair K :=
  let p1 := cpml_primitive_get_point curve 0
  let p2 := cpml_primitive_get_point curve 1
  let p3 := cpml_primitive_get_point curve 2
  let p4 := cpml_primitive_get_point curve 3
  let t_2 := t * t
  let t_3 := t_2 * t
  let t1 := 1 - t
  let t1_2 := t1 * t1
  let t1_3 := t1_2 * t1
  ⟨t1_3 * p1.x + 3 * t1_2 * t * p2.x + 3 * t1 * t_2 * p3.x + t_3 * p4.x,
   t1_3 * p1.y + 3 * t1_2 * t * p2.y + 3 * t1 * t_2 * p3.y + t_3 * p4.y⟩

/-- Function `cpml_curve_put_vector_at_time` (cpml-curve.c, lines 277-303): the value
stored in `vector`. -/
def cpml_curve_put_vector_at_time (curve : CpmlPrimitive K) (t : K) : CpmlPair K :=
  let p1 := cpml_primitive_get_point curve 0
  let p2 := cpml_primitive_get_point curve 1
  let p3 := cpml_primitive_get_point curve 2
  let p4 := cpml_primitive_get_point curve 3
  let p21 : CpmlPair K := ⟨p2.x - p1.x, p2.y - p1.y⟩
  let p32 : CpmlPair K := ⟨p3.x - p2.x, p3.y - p2.y⟩
  let p43 : CpmlPair K := ⟨p4.x - p3.x, p4.y - p3.y⟩
  let t1 := 1 - t
  let t1_2 := t1 * t1
  let t_2 := t * t
  ⟨3 * t1_2 * p21.x + 6 * t1 * t * p32.x + 3 * t_2 * p43.x,
   3 * t1_2 * p21.y + 6 * t1 * t * p32.y + 3 * t_2 * p43.y⟩

/-! ## The offset algorithm

`offset` (cpml-curve.c, lines 324-403) is embedded in stages, one definition
for each block of the C function, so that the theorems can name the local
variables `v0`, `v3`, `vm`, `pm`, `p0`, `p3`, `pk`, `k0` and `k3`. -/

/-- Local `m` of `offset` (line 331, `m = 0.5`): the time of the reference
point. -/
def offset_m : K := 1 / 2

/-- Local `mm` of `offset` (line 332, `mm = 1-m`). -/
def offset_mm : K := 1 - offset_m

/-- Local `v0` of `offset` (lines 336-343): `v0 = p1-p0` on the points of the
original curve. -/
def offset_v0 (curve : CpmlPrimitive K) : CpmlPair K :=
  let p0 := cpml_pair_from_cairo curve.org
  let p1 := cpml_pair_from_cairo curve.data1
  ⟨p1.x - p0.x, p1.y - p0.y⟩

/-- Local `v3` of `offset` (lines 338-347): `v3 = p3-p2` on the points of the
original curve. -/
def offset_v3 (curve : CpmlPrimitive K) : CpmlPair K :=
  let p2 := cpml_pair_from_cairo curve.data2
  let p3 := cpml_pair_from_cairo curve.data3
  ⟨p3.x - p2.x, p3.y - p2.y⟩

/-- Local `vm` of `offset` after lines 350-352: the slope at time `m`, brought
to length `offset`, then rotated by `cpml_vector_normal`. -/
def offset_vm (sqrt : K → K) (curve : CpmlPrimitive K) (offset : K) : CpmlPair K :=
  let vm := cpml_curve_put_vector_at_time curve offset_m
  let vm := cpml_vector_set_length sqrt vm offset
  cpml_vector_normal vm

/-- Local `pm` of `offset` after lines 353-355: the point at time `m` of the
original curve, moved by `vm`. -/
def offset_pm (sqrt : K → K) (curve : CpmlPrimitive K) (offset : K) : CpmlPair K :=
  let vm := offset_vm sqrt curve offset
  let pm := cpml_curve_put_pair_at_time curve offset_m
  ⟨pm.x + vm.x, pm.y + vm.y⟩

/-- Local `p0` of `offset` after lines 357-362: the start point moved by the
normal of `v0` of magnitude `offset`. -/
def offset_p0 (sqrt : K → K) (curve : CpmlPrimitive K) (offset : K) : CpmlPair K :=
  let p0 := cpml_pair_from_cairo curve.org
  let vtmp := cpml_pair_copy (offset_v0 curve)
  let vtmp := cpml_vector_set_length sqrt vtmp offset
  let vtmp := cpml_vector_normal vtmp
  ⟨p0.x + vtmp.x, p0.y + vtmp.y⟩

/-- Local `p3` of `offset` after lines 364-369: the end point moved by the
normal of `v3` of magnitude `offset`. -/
def offset_p3 (sqrt : K → K) (curve : CpmlPrimitive K) (offset : K) : CpmlPair K :=
  let p3 := cpml_pair_from_cairo curve.data3
  let vtmp := cpml_pair_copy (offset_v3 curve)
  let vtmp := cpml_vector_set_length sqrt vtmp offset
  let vtmp := cpml_vector_normal vtmp
  ⟨p3.x + vtmp.x, p3.y + vtmp.y⟩

/-- Local `pk` of `offset` (lines 381-382), from the values of `pm`, `p0` and
`p3` at that place. -/
def offset_pk (pm p0 p3 : CpmlPair K) : CpmlPair K :=
  let m : K := offset_m
  let mm : K := offset_mm
  ⟨(pm.x - mm*mm*(1+m+m)*p0.x - m*m*(1+mm+mm)*p3.x) / (3*m*(1-m)),
   (pm.y - mm*mm*(1+m+m)*p0.y - m*m*(1+mm+mm)*p3.y) / (3*m*(1-m))⟩

/-- Locals `(k0, k3)` of `offset` (lines 384-390): the two substitution
branches, chosen by `v0.x != 0`. -/
def offset_k (pk v0 v3 : CpmlPair K) : K × K :=
  let m : K := offset_m
  let mm : K := offset_mm
  if v0.x ≠ 0 then
    let k3 := (pk.y - pk.x*v0.y / v0.x) / (m*(v3.y - v3.x*v0.y / v0.x))
    let k0 := (pk.x - m*k3*v3.x) / (mm*v0.x)
    (k0, k3)
  else
    let k0 := (pk.y - pk.x*v3.y / v3.x) / (mm*(v0.y - v0.x*v3.y / v3.x))
    let k3 := (pk.x - mm*k0*v0.x) / (m*v3.x)
    (k0, k3)

/-- Function `offset` (cpml-curve.c, lines 324-403): the curve written back
into the original array. -/
def offset (sqrt : K → K) (curve : CpmlPrimitive K) (offset : K) : CpmlPrimitive K :=
  let v0 := offset_v0 curve
  let v3 := offset_v3 curve
  let vm := offset_vm sqrt curve offset
  let pm := offset_pm sqrt curve offset
  let p0 := offset_p0 sqrt curve offset
  let p3 := offset_p3 sqrt curve offset
  if v0.x*v3.y = v3.x*v0.y then
    let p1 : CpmlPair K := ⟨p0.x + v0.x + vm.x * 4/3, p0.y + v0.y + vm.y * 4/3⟩
    let p2 : CpmlPair K := ⟨p3.x - v3.x + vm.x * 4/3, p3.y - v3.y + vm.y * 4/3⟩
    ⟨cpml_pair_to_cairo p0, cpml_pair_to_cairo p1, cpml_pair_to_cairo p2,
      cpml_pair_to_cairo p3⟩
  else
    let pk := offset_pk pm p0 p3
    let k0 := (offset_k pk v0 v3).1
    let k3 := (offset_k pk v0 v3).2
    let p1 : CpmlPair K := ⟨p0.x + k0*v0.x, p0.y + k0*v0.y⟩
    let p2 : CpmlPair K := ⟨p3.x + k3*v3.x, p3.y + k3*v3.y⟩
    ⟨cpml_pair_to_cairo p0, cpml_pair_to_cairo p1, cpml_pair_to_cairo p2,
      cpml_pair_to_cairo p3⟩

/-- Function `offset` (cpml-curve.c, lines 324-403) with the helper
`cpml_vector_set_length`, whose source is absent, taken as the parameter
`set_length`: the curve written back into the original array.  The definition
`offset` above is this one at `set_length = cpml_vector_set_length sqrt`. -/
def offset_with (set_length : CpmlPair K → K → CpmlPair K) (curve : CpmlPrimitive K)
    (offset : K) : CpmlPrimitive K :=
  let m : K := offset_m
  let p0 := cpml_pair_from_cairo curve.org
  let p3 := cpml_pair_from_cairo curve.data3
  let v0 := offset_v0 curve
  let v3 := offset_v3 curve
  let vm := cpml_curve_put_vector_at_time curve m
  let vm := set_length vm offset
  let vm := cpml_vector_normal vm
  let pm := cpml_curve_put_pair_at_time curve m
  let pm : CpmlPair K := ⟨pm.x + vm.x, pm.y + vm.y⟩
  let vtmp := cpml_pair_copy v0
  let vtmp := set_length vtmp offset
  let vtmp := cpml_vector_normal vtmp
  let p0 : CpmlPair K := ⟨p0.x + vtmp.x, p0.y + vtmp.y⟩
  let vtmp := cpml_pair_copy v3
  let vtmp := set_length vtmp offset
  let vtmp := cpml_vector_normal vtmp
  let p3 : CpmlPair K := ⟨p3.x + vtmp.x, p3.y + vtmp.y⟩
  if v0.x*v3.y = v3.x*v0.y then
    let p1 : CpmlPair K := ⟨p0.x + v0.x + vm.x * 4/3, p0.y + v0.y + vm.y * 4/3⟩
    let p2 : CpmlPair K := ⟨p3.x - v3.x + vm.x * 4/3, p3.y - v3.y + vm.y * 4/3⟩
    ⟨cpml_pair_to_cairo p0, cpml_pair_to_cairo p1, cpml_pair_to_cairo p2,
      cpml_pair_to_cairo p3⟩
  else
    let pk := offset_pk pm p0 p3
    let k0 := (offset_k pk v0 v3).1
    let k3 := (offset_k pk v0 v3).2
    let p1 : CpmlPair K := ⟨p0.x + k0*v0.x, p0.y + k0*v0.y⟩
    let p2 : CpmlPair K := ⟨p3.x + k3*v3.x, p3.y + k3*v3.y⟩
    ⟨cpml_pair_to_cairo p0, cpml_pair_to_cairo p1, cpml_pair_to_cairo p2,
      cpml_pair_to_cairo p3⟩

/-- A stand-in for `cpml_vector_set_length` that leaves the pair `junk` in a
zero-length vector and scales every other vector as the spec says. -/
def set_length_or (junk : CpmlPair K) (sqrt : K → K) (vector : CpmlPair K) (length : K) :
    CpmlPair K :=
  if vector.x = 0 ∧ vector.y = 0 then junk else cpml_vector_set_length sqrt vector length

/-! ## The guard and the divisor of `offset` in binary64 arithmetic

A C `double` is an IEEE 754 binary64 number.  Here a finite `double` is the
rational number it stands for, and every arithmetic operation of the C source
is the exact operation followed by rounding to the nearest binary64 number,
ties to even, as when every intermediate result is held in a `double`.
Results too large for a `double` (infinities) and NaN are not represented. -/

/-- The power `2 ^ e` of an integer exponent, as a rational number. -/
def double_pow2 (e : ℤ) : ℚ :=
  if 0 ≤ e then (2 : ℚ) ^ e.toNat else 1 / (2 : ℚ) ^ (-e).toNat

/-- The position of the leading binary digit of `n`: the number of times `n`
can be halved before it drops below 2.  The first argument bounds the number
of halvings. -/
def leading_bit : ℕ → ℕ → ℕ
  | 0, _ => 0
  | fuel + 1, n => if n < 2 then 0 else leading_bit fuel (n / 2) + 1

/-- The binary exponent used to round the positive rational `q`: the greatest
`e` with `2 ^ e ≤ q`, and no less than `-1022`, the exponent of the smallest
normal number (below it the spacing of the binary64 numbers stays that of the
subnormal numbers).  The difference of the leading bits of the numerator and of
the denominator is that `e` or exceeds it by one. -/
def double_exponent (q : ℚ) : ℤ :=
  let e : ℤ := (leading_bit q.num.natAbs q.num.natAbs : ℤ) - (leading_bit q.den q.den : ℤ)
  let e := if double_pow2 e ≤ q then e else e - 1
  max e (-1022)

/-- Rounding of a non-negative rational to the nearest integer, ties to the
even one. -/
def round_half_even (q : ℚ) : ℤ :=
  let f : ℤ := ⌊q⌋
  if q - f < 1 / 2 then f
  else if 1 / 2 < q - f then f + 1
  else if f % 2 = 0 then f else f + 1

/-- Rounding of a rational to the nearest binary64 number, ties to even (the
default rounding mode): the magnitude is rounded to a multiple of the spacing
`2 ^ (e - 52)` of the binary64 numbers around it, a significand of 53 bits. -/
def round_to_double (q : ℚ) : ℚ :=
  let ulp := double_pow2 (double_exponent |q| - 52)
  if q < 0 then -((round_half_even (|q| / ulp) : ℚ) * ulp)
  else (round_half_even (|q| / ulp) : ℚ) * ulp

/-- The C operator `-` on two finite `double`s. -/
def double_sub (a b : ℚ) : ℚ := round_to_double (a - b)

/-- The C operator `*` on two finite `double`s. -/
def double_mul (a b : ℚ) : ℚ := round_to_double (a * b)

/-- The C operator `/` on two finite `double`s, for a non-zero divisor `b`. -/
def double_div (a b : ℚ) : ℚ := round_to_double (a / b)

/-- Local `v0` of `offset` (lines 336-343) in binary64 arithmetic. -/
def offset_v0_double (curve : CpmlPrimitive ℚ) : CpmlPair ℚ :=
  let p0 := cpml_pair_from_cairo curve.org
  let p1 := cpml_pair_from_cairo curve.data1
  ⟨double_sub p1.x p0.x, double_sub p1.y p0.y⟩

/-- Local `v3` of `offset` (lines 338-347) in binary64 arithmetic. -/
def offset_v3_double (curve : CpmlPrimitive ℚ) : CpmlPair ℚ :=
  let p2 := cpml_pair_from_cairo curve.data2
  let p3 := cpml_pair_from_cairo curve.data3
  ⟨double_sub p3.x p2.x, double_sub p3.y p2.y⟩

/-- The condition `v0.x*v3.y == v3.x*v0.y` of line 371 of `offset` in binary64
arithmetic: `true` selects the alternative approach, `false` the linear
system of lines 377-396. -/
def offset_inconsistent_double (v0 v3 : CpmlPair ℚ) : Bool :=
  decide (double_mul v0.x v3.y = double_mul v3.x v0.y)

/-- The divisor `m*(v3.y - v3.x*v0.y / v0.x)` of `k3` on line 385 of `offset`
in binary64 arithmetic, for `v0.x != 0`. -/
def offset_k3_divisor_double (v0 v3 : CpmlPair ℚ) : ℚ :=
  let m : ℚ := round_to_double (1 / 2)
  double_mul m (double_sub v3.y (double_div (double_mul v3.x v0.y) v0.x))

/-! ## Extents of the curve -/

/-- The type `CpmlExtents`: the flag `is_defined` (an `int` used as a boolean in
C), the origin `org` and the `size` of an axis-aligned box. -/
@[ext]
structure CpmlExtents (K : Type) where
  is_defined : Bool
  org : CpmlPair K
  size : CpmlPair K
deriving DecidableEq, Repr

/-- Modelled from the spec: `cpml_extents_pair_add` (cpml-extents.c is not among
the sources).  Undefined extents become the single point `src` (a box of size
zero); defined extents grow, separately in `x` and in `y`, to the smallest box
that covers the old box and `src`, and are left alone when `src` is already
inside. -/
def cpml_extents_pair_add (extents : CpmlExtents K) (src : CpmlPair K) : CpmlExtents K :=
  if extents.is_defined = false then
    ⟨true, cpml_pair_copy src, ⟨0, 0⟩⟩
  else
    let x : K × K :=
      if src.x < extents.org.x then
        (src.x, extents.size.x + (extents.org.x - src.x))
      else if extents.org.x + extents.size.x < src.x then
        (extents.org.x, src.x - extents.org.x)
      else
        (extents.org.x, extents.size.x)
    let y : K × K :=
      if src.y < extents.org.y then
        (src.y, extents.size.y + (extents.org.y - src.y))
      else if extents.org.y + extents.size.y < src.y then
        (extents.org.y, src.y - extents.org.y)
      else
        (extents.org.y, extents.size.y)
    ⟨true, ⟨x.1, y.1⟩, ⟨x.2, y.2⟩⟩

/-- Function `put_extents` (cpml-curve.c, lines 306-322): the new content of
`extents`, from the curve and from what `extents` held before the call. -/
def put_extents (curve : CpmlPrimitive K) (extents : CpmlExtents K) : CpmlExtents K :=
  let extents : CpmlExtents K := { extents with is_defined := false }
  let p1 := cpml_pair_from_cairo (cpml_primitive_get_point curve 0)
  let p2 := cpml_pair_from_cairo (cpml_primitive_get_point curve 1)
  let p3 := cpml_pair_from_cairo (cpml_primitive_get_point curve 2)
  let p4 := cpml_pair_from_cairo (cpml_primitive_get_point curve 3)
  let extents := cpml_extents_pair_add extents p1
  let extents := cpml_extents_pair_add extents p2
  let extents := cpml_extents_pair_add extents p3
  cpml_extents_pair_add extents p4

/-! ## Sample inputs -/

/-- The curve of concrete scenario 4 of the specification: four aligned control
points, hence parallel end tangents. -/
def scenario4_curve : CpmlPrimitive K :=
  ⟨⟨0, 0⟩, ⟨1, 0⟩, ⟨9, 0⟩, ⟨10, 0⟩⟩

/-- A curve with end tangents `v0 = (3, 4)` and `v3 = (0, -4)`, which are not
parallel, used to instantiate the theorems. -/
def sample_curve : CpmlPrimitive K :=
  ⟨⟨0, 0⟩, ⟨3, 4⟩, ⟨8, 4⟩, ⟨8, 0⟩⟩

/-- A curve whose first control point coincides with its start point, so that
`v0` has zero length. -/
def degenerate_curve : CpmlPrimitive K :=
  ⟨⟨0, 0⟩, ⟨0, 0⟩, ⟨9, 0⟩, ⟨10, 0⟩⟩

/-- A curve whose second control point coincides with its end point, so that
`v3` has zero length. -/
def degenerate_end_curve : CpmlPrimitive K :=
  ⟨⟨0, 0⟩, ⟨1, 0⟩, ⟨10, 0⟩, ⟨10, 0⟩⟩

/-- A curve with `v0 = (2, 0)` and `v3 = (0, 2)`, not parallel, whose slope at
`t = 0.5` is the zero vector. -/
def cusp_curve : CpmlPrimitive K :=
  ⟨⟨0, 0⟩, ⟨2, 0⟩, ⟨1, -1⟩, ⟨1, 1⟩⟩

/-- The curve `P0 = (7.9, 3.6)`, `P1 = (-6.1, -2.0)`, `P2 = (-3.2, 2.8)`,
`P3 = (7.3, 7.0)` as a C program holds it: each coordinate is the binary64
number nearest to the decimal literal. -/
def rounding_curve : CpmlPrimitive ℚ :=
  ⟨⟨round_to_double (79 / 10), round_to_double (36 / 10)⟩,
   ⟨round_to_double (-61 / 10), round_to_double (-2)⟩,
   ⟨round_to_double (-32 / 10), round_to_double (28 / 10)⟩,
   ⟨round_to_double (73 / 10), round_to_double 7⟩⟩

end Cpml

/-!
ADG canvas, widgets and toy text.

A shallow embedding of the property accessors, the layout and the event
handlers of `src/src/adg/adg-canvas.c`, `src/src/adg-gtk/adg-widget.c`,
`src/src/adg-gtk/adg-gtk-area.c` and `src/adg/adg-toy-text.c`.

Modelling conventions:

* A GObject instance is the record of the private fields the embedded code
  reads or writes; a function that mutates its object returns the new record.
  A widget holds the canvas it shows as a field.
* Signals, notifications, reference counts and redraw requests do not change
  these records and are left out.
* GLib and cairo are external libraries: `g_return_if_fail`, `g_object_set` and
  the `cairo_matrix_*` functions are modelled by their documented behaviour.
-/

namespace Adg

open Cpml

variable {K : Type} [LinearOrderedField K]

/-! ## GLib -/

/-- The constant `G_MINDOUBLE` of GLib, the C constant `DBL_MIN`: the smallest
positive normalized `double`, `2^-1022`. -/
def G_MINDOUBLE : K := 1 / 2 ^ 1022

/-- The constant `G_MAXDOUBLE` of GLib, the C constant `DBL_MAX`: the largest
finite `double`, `(2 - 2^-52) * 2^1023`. -/
def G_MAXDOUBLE : K := (2 - 1 / 2 ^ 52) * 2 ^ 1023

/-- The type `AdgDress`, a `gint` in C. -/
abbrev AdgDress := Int

/-- The content of a `GValue` of the types used by the canvas properties. -/
inductive GValue (K : Type) where
  | int (v_int : Int)
  | double (v_double : K)
  | boolean (v_boolean : Bool)
deriving DecidableEq, Repr

/-- GLib's `g_value_get_int`: the integer held, `0` when the value holds
another type. -/
def g_value_get_int : GValue K → Int
  | .int v => v
  | _ => 0

/-- GLib's `g_value_get_double`: the double held, `0` when the value holds
another type. -/
def g_value_get_double : GValue K → K
  | .double v => v
  | _ => 0

/-- GLib's `g_value_get_boolean`: the boolean held, `FALSE` when the value
holds another type. -/
def g_value_get_boolean : GValue K → Bool
  | .boolean v => v
  | _ => false

/-- The param specs installed by the canvas class: a dress with its default,
a double with its minimum, maximum and default, a boolean with its default. -/
inductive GParamSpec (K : Type) where
  | dress (default_value : AdgDress)
  | double (minimum maximum default_value : K)
  | boolean (default_value : Bool)
deriving DecidableEq, Repr

/-- The definitions of adg-dress.c and adg-dress-builtins.h the canvas uses,
which are not among the sources: the two builtin dresses and the validation of
a dress param spec (`dress_valid d v` tells whether the value `v` is accepted
by a spec whose default is `d`). -/
structure AdgDressBuiltins where
  ADG_DRESS_COLOR_BACKGROUND : AdgDress
  ADG_DRESS_LINE_FRAME : AdgDress
  dress_valid : AdgDress → AdgDress → Bool

/-- GLib's check of a value against a param spec in `g_object_set`
(`g_param_value_validate`): a double is accepted when it lies in
`[minimum, maximum]`, a value of the wrong type is refused. -/
def g_param_value_valid (env : AdgDressBuiltins) : GParamSpec K → GValue K → Bool
  | .dress d, .int v => env.dress_valid d v
  | .double minimum maximum _, .double v => decide (minimum ≤ v ∧ v ≤ maximum)
  | .boolean _, .boolean _ => true
  | _, _ => false

/-! ## cairo matrices -/

/-- The type `AdgMatrix`, a `cairo_matrix_t`: the affine map
`(x, y) ↦ (xx*x + xy*y + x0, yx*x + yy*y + y0)`. -/
@[ext]
structure AdgMatrix (K : Type) where
  xx : K
  yx : K
  xy : K
  yy : K
  x0 : K
  y0 : K
deriving DecidableEq, Repr

/-- Cairo's `cairo_matrix_multiply (result, a, b)`: the map that applies `a`
first and `b` second. -/
def cairo_matrix_multiply (a b : AdgMatrix K) : AdgMatrix K :=
  ⟨a.xx * b.xx + a.yx * b.xy,
   a.xx * b.yx + a.yx * b.yy,
   a.xy * b.xx + a.yy * b.xy,
   a.xy * b.yx + a.yy * b.yy,
   a.x0 * b.xx + a.y0 * b.xy + b.x0,
   a.x0 * b.yx + a.y0 * b.yy + b.y0⟩

/-- Cairo's `cairo_matrix_scale`: the new map scales by `(sx, sy)` first and
applies the old `matrix` second. -/
def cairo_matrix_scale (matrix : AdgMatrix K) (sx sy : K) : AdgMatrix K :=
  cairo_matrix_multiply ⟨sx, 0, 0, sy, 0, 0⟩ matrix

/-- Cairo's `cairo_matrix_translate`: the new map translates by `(tx, ty)`
first and applies the old `matrix` second. -/
def cairo_matrix_translate (matrix : AdgMatrix K) (tx ty : K) : AdgMatrix K :=
  cairo_matrix_multiply ⟨1, 0, 0, 1, tx, ty⟩ matrix

/-- Cairo's `cairo_matrix_invert`: `none` stands for
`CAIRO_STATUS_INVALID_MATRIX` (zero determinant), otherwise the adjoint
multiplied by the inverse of the determinant. -/
def cairo_matrix_invert (matrix : AdgMatrix K) : Option (AdgMatrix K) :=
  let det := matrix.xx * matrix.yy - matrix.yx * matrix.xy
  if det = 0 then none
  else
    some ⟨matrix.yy * (1 / det), -matrix.yx * (1 / det), -matrix.xy * (1 / det),
      matrix.xx * (1 / det),
      (matrix.xy * matrix.y0 - matrix.yy * matrix.x0) * (1 / det),
      (matrix.yx * matrix.x0 - matrix.xx * matrix.y0) * (1 / det)⟩

/-- Cairo's `cairo_matrix_transform_point`: the image of `(x, y)`. -/
def cairo_matrix_transform_point (matrix : AdgMatrix K) (x y : K) : K × K :=
  (matrix.xx * x + matrix.xy * y + matrix.x0, matrix.yx * x + matrix.yy * y + matrix.y0)

/-- Modelled from the spec: `adg_matrix_copy` (adg-matrix.c is not among the
sources) copies the six coefficients of `src`. -/
def adg_matrix_copy (src : AdgMatrix K) : AdgMatrix K :=
  ⟨src.xx, src.yx, src.xy, src.yy, src.x0, src.y0⟩

/-! ## Entities -/

/-- The fields of an `AdgEntity` instance the embedded code reaches through the
entity accessors: the local and the global map, the global matrix and the
extents. -/
@[ext]
structure AdgEntity (K : Type) where
  local_map : AdgMatrix K
  global_map : AdgMatrix K
  global_matrix : AdgMatrix K
  extents : CpmlExtents K
deriving DecidableEq, Repr

/-- Modelled from the spec: `adg_entity_get_local_map` (adg-entity.c is not
among the sources) returns the local map of the entity. -/
def adg_entity_get_local_map (entity : AdgEntity K) : AdgMatrix K :=
  entity.local_map

/-- Modelled from the spec: `adg_entity_set_local_map` (adg-entity.c is not
among the sources) stores `map` as the local map of the entity. -/
def adg_entity_set_local_map (entity : AdgEntity K) (map : AdgMatrix K) : AdgEntity K :=
  { entity with local_map := map }

/-- Modelled from the spec: `adg_entity_get_global_map` (adg-entity.c is not
among the sources) returns the global map of the entity. -/
def adg_entity_get_global_map (entity : AdgEntity K) : AdgMatrix K :=
  entity.global_map

/-- Modelled from the spec: `adg_entity_set_global_map` (adg-entity.c is not
among the sources) stores `map` as the global map of the entity. -/
def adg_entity_set_global_map (entity : AdgEntity K) (map : AdgMatrix K) : AdgEntity K :=
  { entity with global_map := map }

/-- Modelled from the spec: `adg_entity_get_global_matrix` (adg-entity.c is not
among the sources) returns the global matrix of the entity. -/
def adg_entity_get_global_matrix (entity : AdgEntity K) : AdgMatrix K :=
  entity.global_matrix

/-- Modelled from the spec: `adg_entity_get_extents` (adg-entity.c is not among
the sources) returns the extents of the entity. -/
def adg_entity_get_extents (entity : AdgEntity K) : CpmlExtents K :=
  entity.extents

/-- Modelled from the spec: `adg_entity_set_extents` (adg-entity.c is not among
the sources) stores `extents` as the extents of the entity. -/
def adg_entity_set_extents (entity : AdgEntity K) (extents : CpmlExtents K) : AdgEntity K :=
  { entity with extents := extents }

/-- Modelled from the spec: `cpml_extents_copy` (cpml-extents.c is not among the
sources) copies the flag, the origin and the size of `src`. -/
def cpml_extents_copy (src : CpmlExtents K) : CpmlExtents K :=
  ⟨src.is_defined, src.org, src.size⟩

/-! ## Transformation of the entity maps

The functions of this section live in adg-entity.c and adg-matrix.c, which are
not among the sources; only their test (tests/test-entity.c) and a caller
(`_adg_get_map` of adg-gtk-area.c) are. -/

/-- The transformation modes the sources use, members of `AdgTransformMode`. -/
inductive AdgTransformMode where
  | ADG_TRANSFORM_BEFORE
  | ADG_TRANSFORM_AFTER
deriving DecidableEq, Repr

/-- Modelled from the spec: `adg_matrix_identity` (adg-matrix.c is not among the
sources) returns the identity matrix. -/
def adg_matrix_identity : AdgMatrix K :=
  ⟨1, 0, 0, 1, 0, 0⟩

/-- Modelled from the spec: `adg_matrix_equal` (adg-matrix.c is not among the
sources; declared in adg-matrix.h) tells whether the six coefficients of the
two matrices are equal. -/
def adg_matrix_equal (matrix1 matrix2 : AdgMatrix K) : Bool :=
  decide (matrix1.xx = matrix2.xx ∧ matrix1.yx = matrix2.yx ∧ matrix1.xy = matrix2.xy ∧
    matrix1.yy = matrix2.yy ∧ matrix1.x0 = matrix2.x0 ∧ matrix1.y0 = matrix2.y0)

/-- Modelled from the spec: `adg_matrix_transform` (adg-matrix.c is not among
the sources; the spec leaves the entity layer out, so the model follows the
names of the modes, the caller in adg-gtk-area.c and the assertions of
tests/test-entity.c).  With `ADG_TRANSFORM_BEFORE` the transformation is applied
before the matrix, with `ADG_TRANSFORM_AFTER` after it. -/
def adg_matrix_transform (matrix transformation : AdgMatrix K) (mode : AdgTransformMode) :
    AdgMatrix K :=
  match mode with
  | .ADG_TRANSFORM_BEFORE => cairo_matrix_multiply transformation matrix
  | .ADG_TRANSFORM_AFTER => cairo_matrix_multiply matrix transformation

/-- Modelled from the spec: `adg_entity_transform_global_map` (adg-entity.c is
not among the sources): the global map of the entity is replaced by its
transformation by `transformation` in the given mode. -/
def adg_entity_transform_global_map (entity : AdgEntity K) (transformation : AdgMatrix K)
    (mode : AdgTransformMode) : AdgEntity K :=
  let map := adg_matrix_copy (adg_entity_get_global_map entity)
  let map := adg_matrix_transform map transformation mode
  adg_entity_set_global_map entity map

/-- Modelled from the spec: `adg_entity_transform_local_map` (adg-entity.c is
not among the sources): the local map of the entity is replaced by its
transformation by `transformation` in the given mode. -/
def adg_entity_transform_local_map (entity : AdgEntity K) (transformation : AdgMatrix K)
    (mode : AdgTransformMode) : AdgEntity K :=
  let map := adg_matrix_copy (adg_entity_get_local_map entity)
  let map := adg_matrix_transform map transformation mode
  adg_entity_set_local_map entity map

/-! ## The canvas (adg-canvas.c) -/

/-- The property identifiers of the canvas (adg-canvas.c, lines 49-62). -/
inductive CanvasProp where
  | PROP_0
  | PROP_BACKGROUND_DRESS
  | PROP_FRAME_DRESS
  | PROP_TOP_MARGIN
  | PROP_RIGHT_MARGIN
  | PROP_BOTTOM_MARGIN
  | PROP_LEFT_MARGIN
  | PROP_HAS_FRAME
  | PROP_TOP_PADDING
  | PROP_RIGHT_PADDING
  | PROP_BOTTOM_PADDING
  | PROP_LEFT_PADDING
deriving DecidableEq, Repr

/-- The private data of a canvas, `AdgCanvasPrivate`, with the fields that
adg-canvas.c reads and writes. -/
@[ext]
structure AdgCanvasPrivate (K : Type) where
  background_dress : AdgDress
  frame_dress : AdgDress
  top_margin : K
  right_margin : K
  bottom_margin : K
  left_margin : K
  has_frame : Bool
  top_padding : K
  right_padding : K
  bottom_padding : K
  left_padding : K
deriving DecidableEq, Repr

/-- An `AdgCanvas` instance: the part inherited from `AdgEntity` and the private
data. -/
@[ext]
structure AdgCanvas (K : Type) where
  entity : AdgEntity K
  data : AdgCanvasPrivate K
deriving DecidableEq, Repr

/-- The properties installed by `adg_canvas_class_init` (adg-canvas.c, lines
96-171): "background-dress", "frame-dress", the four margins, "has-frame" and
the four paddings, each with the param spec given there. -/
def adg_canvas_class_init (env : AdgDressBuiltins) : CanvasProp → Option (GParamSpec K)
  | .PROP_0 => none
  | .PROP_BACKGROUND_DRESS => some (.dress env.ADG_DRESS_COLOR_BACKGROUND)
  | .PROP_FRAME_DRESS => some (.dress env.ADG_DRESS_LINE_FRAME)
  | .PROP_TOP_MARGIN => some (.double G_MINDOUBLE G_MAXDOUBLE 15)
  | .PROP_RIGHT_MARGIN => some (.double G_MINDOUBLE G_MAXDOUBLE 15)
  | .PROP_BOTTOM_MARGIN => some (.double G_MINDOUBLE G_MAXDOUBLE 15)
  | .PROP_LEFT_MARGIN => some (.double G_MINDOUBLE G_MAXDOUBLE 15)
  | .PROP_HAS_FRAME => some (.boolean true)
  | .PROP_TOP_PADDING => some (.double G_MINDOUBLE G_MAXDOUBLE 15)
  | .PROP_RIGHT_PADDING => some (.double G_MINDOUBLE G_MAXDOUBLE 15)
  | .PROP_BOTTOM_PADDING => some (.double G_MINDOUBLE G_MAXDOUBLE 15)
  | .PROP_LEFT_PADDING => some (.double G_MINDOUBLE G_MAXDOUBLE 15)

/-- Function `adg_canvas_init` (adg-canvas.c, lines 174-194): the private data
of a new canvas; `entity` is the part initialized by the parent classes. -/
def adg_canvas_init (env : AdgDressBuiltins) (entity : AdgEntity K) : AdgCanvas K :=
  { entity := entity
    data :=
      { background_dress := env.ADG_DRESS_COLOR_BACKGROUND
        frame_dress := env.ADG_DRESS_LINE_FRAME
        top_margin := 15
        right_margin := 15
        bottom_margin := 15
        left_margin := 15
        has_frame := true
        top_padding := 15
        right_padding := 15
        bottom_padding := 15
        left_padding := 15 } }

/-- Function `_adg_set_property` (adg-canvas.c, lines 242-290): the private data
after the property `prop_id` has been set from `value`. -/
def _adg_set_property (data : AdgCanvasPrivate K) (prop_id : CanvasProp) (value : GValue K) :
    AdgCanvasPrivate K :=
  match prop_id with
  | .PROP_BACKGROUND_DRESS => { data with background_dress := g_value_get_int value }
  | .PROP_FRAME_DRESS => { data with background_dress := g_value_get_int value }
  | .PROP_TOP_MARGIN => { data with top_margin := g_value_get_double value }
  | .PROP_RIGHT_MARGIN => { data with right_margin := g_value_get_double value }
  | .PROP_BOTTOM_MARGIN => { data with bottom_margin := g_value_get_double value }
  | .PROP_LEFT_MARGIN => { data with left_margin := g_value_get_double value }
  | .PROP_HAS_FRAME => { data with has_frame := g_value_get_boolean value }
  | .PROP_TOP_PADDING => { data with top_padding := g_value_get_double value }
  | .PROP_RIGHT_PADDING => { data with right_padding := g_value_get_double value }
  | .PROP_BOTTOM_PADDING => { data with bottom_padding := g_value_get_double value }
  | .PROP_LEFT_PADDING => { data with left_padding := g_value_get_double value }
  | .PROP_0 => data

/-- GLib's `g_object_set` of one property of a canvas: the value is checked
against the param spec installed for the property; a value the spec refuses is
reported by a warning and the property is left alone, an accepted value is
handed to `_adg_set_property`. -/
def g_object_set (env : AdgDressBuiltins) (canvas : AdgCanvas K) (prop_id : CanvasProp)
    (value : GValue K) : AdgCanvas K :=
  match adg_canvas_class_init env prop_id with
  | none => canvas
  | some pspec =>
    if g_param_value_valid env pspec value then
      { canvas with data := _adg_set_property canvas.data prop_id value }
    else canvas

/-- Function `adg_canvas_set_frame_dress` (adg-canvas.c, lines 349-354). -/
def adg_canvas_set_frame_dress (env : AdgDressBuiltins) (canvas : AdgCanvas K)
    (dress : AdgDress) : AdgCanvas K :=
  g_object_set env canvas .PROP_FRAME_DRESS (.int dress)

/-- Function `adg_canvas_get_frame_dress` (adg-canvas.c, lines 364-373). -/
def adg_canvas_get_frame_dress (canvas : AdgCanvas K) : AdgDress :=
  canvas.data.frame_dress

/-- Function `adg_canvas_get_background_dress` (adg-canvas.c, lines 329-339). -/
def adg_canvas_get_background_dress (canvas : AdgCanvas K) : AdgDress :=
  canvas.data.background_dress

/-- Function `adg_canvas_set_top_margin` (adg-canvas.c, lines 383-388). -/
def adg_canvas_set_top_margin (env : AdgDressBuiltins) (canvas : AdgCanvas K) (value : K) :
    AdgCanvas K :=
  g_object_set env canvas .PROP_TOP_MARGIN (.double value)

/-- Function `adg_canvas_get_top_margin` (adg-canvas.c, lines 398-407). -/
def adg_canvas_get_top_margin (canvas : AdgCanvas K) : K :=
  canvas.data.top_margin

/-- Function `adg_canvas_get_right_margin` of adg-canvas.c. -/
def adg_canvas_get_right_margin (canvas : AdgCanvas K) : K :=
  canvas.data.right_margin

/-- Function `adg_canvas_get_bottom_margin` of adg-canvas.c. -/
def adg_canvas_get_bottom_margin (canvas : AdgCanvas K) : K :=
  canvas.data.bottom_margin

/-- Function `adg_canvas_get_left_margin` of adg-canvas.c. -/
def adg_canvas_get_left_margin (canvas : AdgCanvas K) : K :=
  canvas.data.left_margin

/-- Lines 738-739 of `_adg_arrange`: the `arrange` method of the parent class is
run on the entity when the class has one (`some arrange`) and skipped when the
method is `NULL` (`none`). -/
def parent_class_arrange (parent_arrange : Option (AdgEntity K → AdgEntity K))
    (entity : AdgEntity K) : AdgEntity K :=
  match parent_arrange with
  | some arrange => arrange entity
  | none => entity

/-- Function `_adg_arrange` (adg-canvas.c, lines 733-755).  The `arrange` method
of the parent class, when there is one, is `parent_arrange`; it works on the
entity part of the canvas. -/
def _adg_arrange (parent_arrange : Option (AdgEntity K → AdgEntity K)) (canvas : AdgCanvas K) :
    AdgCanvas K :=
  let entity := parent_class_arrange parent_arrange canvas.entity
  let extents := cpml_extents_copy (adg_entity_get_extents entity)
  if extents.is_defined then
    let data := canvas.data
    let org_x := extents.org.x - (data.left_margin + data.left_padding)
    let org_y := extents.org.y - (data.top_margin + data.top_padding)
    let size_x := extents.size.x + (data.left_margin + data.left_padding)
    let size_x := size_x + (data.right_margin + data.right_padding)
    let size_y := extents.size.y + (data.top_margin + data.top_padding)
    let size_y := size_y + (data.bottom_margin + data.bottom_padding)
    let extents : CpmlExtents K := ⟨extents.is_defined, ⟨org_x, org_y⟩, ⟨size_x, size_y⟩⟩
    { entity := adg_entity_set_extents entity extents, data := data }
  else
    { entity := entity, data := canvas.data }

/-- The calls a render method issues on the cairo context, in order. -/
inductive CairoCall (K : Type) where
  | cairo_save
  | cairo_identity_matrix
  | cairo_rectangle (x y width height : K)
  | adg_entity_apply_dress (dress : AdgDress)
  | cairo_fill
  | cairo_set_matrix (matrix : AdgMatrix K)
  | cairo_stroke
  | cairo_restore
deriving DecidableEq, Repr

/-- Function `_adg_render` (adg-canvas.c, lines 757-796): the calls issued on
the cairo context; `parent_render` is what the `render` method of the parent
class issues (nothing when there is no such method). -/
def _adg_render (parent_render : List (CairoCall K)) (canvas : AdgCanvas K) :
    List (CairoCall K) :=
  let data := canvas.data
  let extents := adg_entity_get_extents canvas.entity
  let background : List (CairoCall K) :=
    [.cairo_save, .cairo_identity_matrix,
     .cairo_rectangle extents.org.x extents.org.y extents.size.x extents.size.y,
     .adg_entity_apply_dress data.background_dress, .cairo_fill]
  let frame_line : List (CairoCall K) :=
    if data.has_frame then
      let frame := cpml_extents_copy extents
      let frame_org_x := frame.org.x + data.left_margin
      let frame_org_y := frame.org.y + data.top_margin
      let frame_size_x := frame.size.x - (data.left_margin + data.right_margin)
      let frame_size_y := frame.size.y - (data.top_margin + data.bottom_margin)
      [.cairo_rectangle frame_org_x frame_org_y frame_size_x frame_size_y,
       .cairo_set_matrix (adg_entity_get_global_matrix canvas.entity),
       .adg_entity_apply_dress data.frame_dress, .cairo_stroke]
    else []
  background ++ frame_line ++ [.cairo_restore] ++ parent_render

/-! ## The widget (adg-gtk/adg-widget.c) -/

/-- The private data of a widget, `AdgWidgetPrivate`: the canvas shown (`none`
for `NULL`), the zoom factor and the position of the last button press. -/
@[ext]
structure AdgWidgetPrivate (K : Type) where
  canvas : Option (AdgCanvas K)
  factor : K
  x_event : K
  y_event : K
deriving DecidableEq, Repr

/-- Function `adg_widget_init` (adg-widget.c, lines 146-165): the private data
of a new widget, with the factor `1.05`. -/
def adg_widget_init : AdgWidgetPrivate K :=
  { canvas := none, factor := 105 / 100, x_event := 0, y_event := 0 }

/-- Function `set_factor` (adg-widget.c, lines 351-366): the returned boolean
and the widget after the call.  The `g_return_val_if_fail (factor >= 1, FALSE)`
guard returns `FALSE` at once when its condition fails. -/
def set_factor (widget : AdgWidgetPrivate K) (factor : K) : Bool × AdgWidgetPrivate K :=
  if ¬ (factor ≥ 1) then (false, widget)
  else if widget.factor = factor then (false, widget)
  else (true, { widget with factor := factor })

/-- Function `adg_widget_set_factor` (adg-widget.c, lines 295-302): the widget
after the call. -/
def adg_widget_set_factor (widget : AdgWidgetPrivate K) (factor : K) : AdgWidgetPrivate K :=
  (set_factor widget factor).2

/-- Function `adg_widget_get_factor` (adg-widget.c, lines 315-325). -/
def adg_widget_get_factor (widget : AdgWidgetPrivate K) : K :=
  widget.factor

/-- The directions of a scroll event, `GdkScrollDirection` of GDK. -/
inductive GdkScrollDirection where
  | GDK_SCROLL_UP
  | GDK_SCROLL_DOWN
  | GDK_SCROLL_LEFT
  | GDK_SCROLL_RIGHT
deriving DecidableEq, Repr

/-- The fields of a `GdkEventScroll` read by `scroll_event`. -/
structure GdkEventScroll (K : Type) where
  direction : GdkScrollDirection
  x : K
  y : K
deriving DecidableEq, Repr

/-- Function `get_local_map` (adg-widget.c, lines 474-489): `none` when it
returns `FALSE` (no canvas, or a local map that cairo cannot invert), otherwise
the pair `(map, inverted)`. -/
def get_local_map (widget : AdgWidgetPrivate K) : Option (AdgMatrix K × AdgMatrix K) :=
  match widget.canvas with
  | none => none
  | some canvas =>
    let map := adg_matrix_copy (adg_entity_get_local_map canvas.entity)
    let inverted := adg_matrix_copy map
    match cairo_matrix_invert inverted with
    | none => none
    | some inverted => some (map, inverted)

/-- Function `set_local_map` (adg-widget.c, lines 491-502): the widget after
the call. -/
def set_local_map (widget : AdgWidgetPrivate K) (map : AdgMatrix K) : AdgWidgetPrivate K :=
  match widget.canvas with
  | some canvas =>
    { widget with canvas := some { canvas with entity := adg_entity_set_local_map canvas.entity map } }
  | none => widget

/-- Function `scroll_event` (adg-widget.c, lines 389-425): the widget after the
event has been handled. -/
def scroll_event (widget : AdgWidgetPrivate K) (event : GdkEventScroll K) : AdgWidgetPrivate K :=
  let data := widget
  if event.direction = .GDK_SCROLL_UP ∨ event.direction = .GDK_SCROLL_DOWN then
    match get_local_map widget with
    | some (map, inverted) =>
      let factor := if event.direction = .GDK_SCROLL_UP then data.factor else 1 / data.factor
      let x := event.x
      let y := event.y
      let p := cairo_matrix_transform_point inverted x y
      let x := p.1
      let y := p.2
      let map := cairo_matrix_scale map factor factor
      let map := cairo_matrix_translate map (x / factor - x) (y / factor - y)
      set_local_map widget map
    | none => widget
  else widget

/-! ## The toy text (adg/adg-toy-text.c) -/

/-- The type `cairo_text_extents_t` of cairo. -/
structure CairoTextExtents (K : Type) where
  x_bearing : K
  y_bearing : K
  width : K
  height : K
  x_advance : K
  y_advance : K
deriving DecidableEq, Repr

/-- The private data of a toy text, `AdgToyTextPrivate`, with the fields that
the label accessors reach: the label (`none` for `NULL`), the flag of the
origin cache, the glyphs (`none` for `NULL`), their number and their extents. -/
structure AdgToyTextPrivate (K : Type) where
  label : Option String
  origin_cached : Bool
  glyphs : Option (List (CpmlPair K))
  num_glyphs : Int
  extents : CairoTextExtents K
deriving DecidableEq, Repr

/-- The check `ADG_IS_TOY_TEXT (label)` of line 320, applied to the
`const gchar *` argument `label`: the instance check of GObject is false on
`NULL` and on anything that is not an `AdgToyText` instance, and a string is
not one. -/
def ADG_IS_TOY_TEXT_label (_label : Option String) : Bool :=
  false

/-- Function `clear_label_cache` (adg-toy-text.c, lines 471-483). -/
def clear_label_cache (data : AdgToyTextPrivate K) : AdgToyTextPrivate K :=
  { data with glyphs := none, num_glyphs := 0, extents := ⟨0, 0, 0, 0, 0, 0⟩ }

/-- Function `adg_toy_text_set_label` (adg-toy-text.c, lines 315-328): the toy
text after the call. -/
def adg_toy_text_set_label (toy_text : AdgToyTextPrivate K) (label : Option String) :
    AdgToyTextPrivate K :=
  if ¬ ADG_IS_TOY_TEXT_label label then toy_text
  else
    let data := toy_text
    let data := { data with label := label }
    clear_label_cache data

/-- Function `adg_toy_text_get_label` (adg-toy-text.c, lines 296-306). -/
def adg_toy_text_get_label (toy_text : AdgToyTextPrivate K) : Option String :=
  toy_text.label

/-- Function `adg_toy_text_init` (adg-toy-text.c, lines 186-200): the private
data of a new toy text. -/
def adg_toy_text_init : AdgToyTextPrivate K :=
  { label := none, origin_cached := false, glyphs := none, num_glyphs := 0,
    extents := ⟨0, 0, 0, 0, 0, 0⟩ }

/-! ## The drawing area (adg-gtk/adg-gtk-area.c) -/

/-- The type `GtkAllocation` of GTK+: four `gint` fields. -/
structure GtkAllocation where
  x : Int
  y : Int
  width : Int
  height : Int
deriving DecidableEq, Repr

/-- The private data of a drawing area, `AdgGtkAreaPrivate`: the canvas shown
(`none` for `NULL`), the zoom factor, the autozoom flag, the position of the
last button press, the allocation and the factor of the first allocation, and
the extents computed by `_adg_get_extents`. -/
structure AdgGtkAreaPrivate (K : Type) where
  canvas : Option (AdgCanvas K)
  factor : K
  autozoom : Bool
  x_event : K
  y_event : K
  src_allocation : GtkAllocation
  src_factor : K
  extents : CpmlExtents K
deriving DecidableEq, Repr

/-- The macro `MIN` of GLib: `((a) < (b)) ? (a) : (b)`. -/
def MIN (a b : K) : K :=
  if a < b then a else b

/-- The C conversion of a `double` to a `gint`: truncation toward zero. -/
def double_to_gint [FloorRing K] (v : K) : Int :=
  if 0 ≤ v then ⌊v⌋ else ⌈v⌉

/-- Function `_adg_get_extents` (adg-gtk-area.c, lines 744-786): the area after
the call; the pointer it returns is the field `extents` of that area.  The
function `adg_entity_arrange` of adg-entity.c, which is not among the sources,
is a parameter acting on the canvas. -/
def _adg_get_extents (adg_entity_arrange : AdgCanvas K → AdgCanvas K)
    (area : AdgGtkAreaPrivate K) : AdgGtkAreaPrivate K :=
  let data : AdgGtkAreaPrivate K :=
    { area with extents := { area.extents with is_defined := false } }
  match data.canvas with
  | some canvas =>
    let canvas := adg_entity_arrange canvas
    let data : AdgGtkAreaPrivate K := { data with canvas := some canvas }
    let extents := adg_entity_get_extents canvas.entity
    if extents.is_defined then
      let top := adg_canvas_get_top_margin canvas
      let right := adg_canvas_get_right_margin canvas
      let bottom := adg_canvas_get_bottom_margin canvas
      let left := adg_canvas_get_left_margin canvas
      let org_x := extents.org.x - left
      let org_y := extents.org.y - top
      let size_x := extents.size.x + (left + right)
      let size_y := extents.size.y + (top + bottom)
      { data with extents := ⟨true, ⟨org_x, org_y⟩, ⟨size_x, size_y⟩⟩ }
    else data
  | none => data

/-- Function `_adg_size_allocate` (adg-gtk-area.c, lines 512-589): the area
after the call.  The handler of the parent class only records the allocation
in the GTK+ widget. -/
def _adg_size_allocate [FloorRing K] (adg_entity_arrange : AdgCanvas K → AdgCanvas K)
    (area : AdgGtkAreaPrivate K) (allocation : GtkAllocation) : AdgGtkAreaPrivate K :=
  let data := area
  if ¬ data.autozoom then area
  else
    match data.canvas with
    | none => area
    | some canvas =>
      if ¬ (allocation.width > 0 ∧ allocation.height > 0) then area
      else
        let map := adg_matrix_copy (adg_entity_get_global_map canvas.entity)
        if data.src_factor ≤ 0 then
          let data := _adg_get_extents adg_entity_arrange area
          let extents := data.extents
          if ¬ extents.is_defined then data
          else if extents.size.x ≤ 0 ∨ extents.size.y ≤ 0 then data
          else
            let ratio_x := (allocation.width : K) / extents.size.x
            let ratio_y := (allocation.height : K) / extents.size.y
            let factor := MIN ratio_x ratio_y
            let x0 := (allocation.width : K) - extents.size.x * factor
            let y0 := (allocation.height : K) - extents.size.y * factor
            let x0 := x0 / 2
            let y0 := y0 / 2
            let x0 := x0 - extents.org.x
            let y0 := y0 - extents.org.y
            let src_allocation : GtkAllocation :=
              { allocation with x := double_to_gint x0, y := double_to_gint y0 }
            let map : AdgMatrix K := { map with x0 := x0, y0 := y0, xx := factor, yy := factor }
            { data with
              src_allocation := src_allocation
              src_factor := factor
              canvas := data.canvas.map fun canvas =>
                { canvas with entity := adg_entity_set_global_map canvas.entity map } }
        else
          let src_allocation := data.src_allocation
          let ratio_x := data.src_factor * (allocation.width : K) / (src_allocation.width : K)
          let ratio_y := data.src_factor * (allocation.height : K) / (src_allocation.height : K)
          let factor := MIN ratio_x ratio_y
          let x0 := (src_allocation.x : K) * factor
            + ((allocation.width : K) - (src_allocation.width : K) * factor) / 2
          let y0 := (src_allocation.y : K) * factor
            + ((allocation.height : K) - (src_allocation.height : K) * factor) / 2
          let map : AdgMatrix K := { map with x0 := x0, y0 := y0, xx := factor, yy := factor }
          { data with
            canvas := some { canvas with entity := adg_entity_set_global_map canvas.entity map } }

/-! ## Auxiliary definitions and sample inputs -/

/-- Used to state the effect of `scroll_event`: the matrix `map` zoomed by `factor` around the point `(ex, ey)` of the
target space. -/
def zoomed (map : AdgMatrix K) (factor ex ey : K) : AdgMatrix K :=
  ⟨factor * map.xx, factor * map.yx, factor * map.xy, factor * map.yy,
   factor * map.x0 + (1 - factor) * ex, factor * map.y0 + (1 - factor) * ey⟩

/-- Sample builtins: background dress `1`, frame dress `2`, every dress
accepted by the dress param specs. -/
def sample_builtins : AdgDressBuiltins :=
  ⟨1, 2, fun _ _ => true⟩

/-- A sample entity: local map `(x, y) ↦ (2x + 5, 3y + 7)`, identity global map
and matrix, extents of origin `(10, 20)` and size `(100, 50)`. -/
def sample_entity : AdgEntity K :=
  ⟨⟨2, 0, 0, 3, 5, 7⟩, ⟨1, 0, 0, 1, 0, 0⟩, ⟨1, 0, 0, 1, 0, 0⟩, ⟨true, ⟨10, 20⟩, ⟨100, 50⟩⟩⟩

/-- A new canvas on `sample_entity`. -/
def sample_canvas : AdgCanvas K :=
  adg_canvas_init sample_builtins sample_entity

/-- A new widget showing `sample_canvas`. -/
def sample_widget : AdgWidgetPrivate K :=
  { (adg_widget_init : AdgWidgetPrivate K) with canvas := some sample_canvas }

/-- A drawing area showing `sample_canvas`, autozoom enabled, never allocated. -/
def sample_area : AdgGtkAreaPrivate K :=
  { canvas := some sample_canvas, factor := 105 / 100, autozoom := true, x_event := 0,
    y_event := 0, src_allocation := ⟨0, 0, 0, 0⟩, src_factor := 0,
    extents := ⟨false, ⟨0, 0⟩, ⟨0, 0⟩⟩ }

end Adg

namespace Cpml

variable {K : Type} [LinearOrderedField K]

/-! ## Auxiliary lemmas -/

theorem IsSqrt.sqrt_mul_self {sqrt : K → K} (hs : IsSqrt sqrt) (a : K) :
    sqrt (a * a) = |a| := by
  obtain ⟨h1, h2⟩ := hs (a * a) (mul_self_nonneg a)
  have h3 : sqrt (a * a) * sqrt (a * a) = |a| * |a| := by
    rw [h2, abs_mul_abs_self]
  exact (mul_self_inj_of_nonneg h1 (abs_nonneg a)).1 h3

theorem IsSqrt.pos_of_ne {sqrt : K → K} (hs : IsSqrt sqrt) (v : CpmlPair K)
    (hv : v ≠ ⟨0, 0⟩) : 0 < sqrt (v.x * v.x + v.y * v.y) := by
  have hnn : 0 ≤ v.x * v.x + v.y * v.y :=
    add_nonneg (mul_self_nonneg _) (mul_self_nonneg _)
  obtain ⟨h1, h2⟩ := hs _ hnn
  rcases h1.lt_or_eq with h | h
  · exact h
  · exfalso
    apply hv
    rw [← h, mul_zero] at h2
    have hx : v.x * v.x = 0 := by
      nlinarith [mul_self_nonneg v.x, mul_self_nonneg v.y]
    have hy : v.y * v.y = 0 := by
      nlinarith [mul_self_nonneg v.x, mul_self_nonneg v.y]
    ext
    · exact mul_self_eq_zero.1 hx
    · exact mul_self_eq_zero.1 hy

/-- The vector `cpml_vector_normal (cpml_vector_set_length sqrt v d)` of a
non-zero `v`: it is `normal (unit v) * d`, it has length `|d|` and it is
perpendicular to `v`. -/
theorem normal_set_length {sqrt : K → K} (hs : IsSqrt sqrt) (v : CpmlPair K) (d : K)
    (hv : v ≠ ⟨0, 0⟩) :
    cpml_vector_normal (cpml_vector_set_length sqrt v d) =
      ⟨-(v.y / sqrt (v.x * v.x + v.y * v.y)) * d, v.x / sqrt (v.x * v.x + v.y * v.y) * d⟩ ∧
    sqrt ((cpml_vector_normal (cpml_vector_set_length sqrt v d)).x
          * (cpml_vector_normal (cpml_vector_set_length sqrt v d)).x
        + (cpml_vector_normal (cpml_vector_set_length sqrt v d)).y
          * (cpml_vector_normal (cpml_vector_set_length sqrt v d)).y) = |d| ∧
    (cpml_vector_normal (cpml_vector_set_length sqrt v d)).x * v.x
      + (cpml_vector_normal (cpml_vector_set_length sqrt v d)).y * v.y = 0 := by
  have hpos := hs.pos_of_ne v hv
  have hne : sqrt (v.x * v.x + v.y * v.y) ≠ 0 := ne_of_gt hpos
  have hsq := (hs (v.x * v.x + v.y * v.y)
    (add_nonneg (mul_self_nonneg _) (mul_self_nonneg _))).2
  refine ⟨?_, ?_, ?_⟩
  · simp only [cpml_vector_normal, cpml_vector_set_length, CpmlPair.mk.injEq]
    constructor <;> field_simp
  · rw [← hs.sqrt_mul_self d]
    congr 1
    simp only [cpml_vector_normal, cpml_vector_set_length]
    field_simp
    nlinarith [hsq]
  · simp only [cpml_vector_normal, cpml_vector_set_length]
    ring

/-- The start point returned by `offset` is the local `p0`, in both branches. -/
theorem offset_org (sqrt : K → K) (curve : CpmlPrimitive K) (d : K) :
    (offset sqrt curve d).org = offset_p0 sqrt curve d := by
  by_cases h : (offset_v0 curve).x * (offset_v3 curve).y
      = (offset_v3 curve).x * (offset_v0 curve).y
  · exact congrArg CpmlPrimitive.org (if_pos h)
  · exact congrArg CpmlPrimitive.org (if_neg h)

/-- The end point returned by `offset` is the local `p3`, in both branches. -/
theorem offset_data3 (sqrt : K → K) (curve : CpmlPrimitive K) (d : K) :
    (offset sqrt curve d).data3 = offset_p3 sqrt curve d := by
  by_cases h : (offset_v0 curve).x * (offset_v3 curve).y
      = (offset_v3 curve).x * (offset_v0 curve).y
  · exact congrArg CpmlPrimitive.data3 (if_pos h)
  · exact congrArg CpmlPrimitive.data3 (if_neg h)

/-- The curve returned by the alternative approach of `offset`. -/
theorem offset_of_inconsistent (sqrt : K → K) (curve : CpmlPrimitive K) (d : K)
    (h : (offset_v0 curve).x * (offset_v3 curve).y
      = (offset_v3 curve).x * (offset_v0 curve).y) :
    offset sqrt curve d =
      ⟨offset_p0 sqrt curve d,
       ⟨(offset_p0 sqrt curve d).x + (offset_v0 curve).x + (offset_vm sqrt curve d).x * 4 / 3,
        (offset_p0 sqrt curve d).y + (offset_v0 curve).y + (offset_vm sqrt curve d).y * 4 / 3⟩,
       ⟨(offset_p3 sqrt curve d).x - (offset_v3 curve).x + (offset_vm sqrt curve d).x * 4 / 3,
        (offset_p3 sqrt curve d).y - (offset_v3 curve).y + (offset_vm sqrt curve d).y * 4 / 3⟩,
       offset_p3 sqrt curve d⟩ :=
  if_pos h

/-- The curve returned by `offset` when the linear system is solved. -/
theorem offset_of_consistent (sqrt : K → K) (curve : CpmlPrimitive K) (d : K)
    (h : (offset_v0 curve).x * (offset_v3 curve).y
      ≠ (offset_v3 curve).x * (offset_v0 curve).y) :
    offset sqrt curve d =
      ⟨offset_p0 sqrt curve d,
       ⟨(offset_p0 sqrt curve d).x
          + (offset_k (offset_pk (offset_pm sqrt curve d) (offset_p0 sqrt curve d)
              (offset_p3 sqrt curve d)) (offset_v0 curve) (offset_v3 curve)).1
            * (offset_v0 curve).x,
        (offset_p0 sqrt curve d).y
          + (offset_k (offset_pk (offset_pm sqrt curve d) (offset_p0 sqrt curve d)
              (offset_p3 sqrt curve d)) (offset_v0 curve) (offset_v3 curve)).1
            * (offset_v0 curve).y⟩,
       ⟨(offset_p3 sqrt curve d).x
          + (offset_k (offset_pk (offset_pm sqrt curve d) (offset_p0 sqrt curve d)
              (offset_p3 sqrt curve d)) (offset_v0 curve) (offset_v3 curve)).2
            * (offset_v3 curve).x,
        (offset_p3 sqrt curve d).y
          + (offset_k (offset_pk (offset_pm sqrt curve d) (offset_p0 sqrt curve d)
              (offset_p3 sqrt curve d)) (offset_v0 curve) (offset_v3 curve)).2
            * (offset_v3 curve).y⟩,
       offset_p3 sqrt curve d⟩ :=
  if_neg h

theorem offset_m_ne_zero : (offset_m : K) ≠ 0 := by
  unfold offset_m
  norm_num

theorem offset_mm_ne_zero : (offset_mm : K) ≠ 0 := by
  unfold offset_mm offset_m
  norm_num

/-- The divisors of lines 384-390 when the equations are consistent. -/
theorem offset_divisors_ne_zero (v0 v3 : CpmlPair K) (h : v0.x * v3.y ≠ v3.x * v0.y) :
    (v0.x ≠ 0 → v3.y - v3.x * v0.y / v0.x ≠ 0) ∧
    (v0.x = 0 → v3.x ≠ 0 ∧ v0.y - v0.x * v3.y / v3.x ≠ 0) := by
  constructor
  · intro hx hz
    apply h
    field_simp at hz
    linarith
  · intro hx
    have h3 : v3.x ≠ 0 := by
      intro h3
      apply h
      rw [hx, h3]
      ring
    refine ⟨h3, ?_⟩
    intro hz
    apply h
    field_simp at hz
    linarith

/-- The values `k0` and `k3` computed by lines 384-390 solve the two equations
`(1-m) k0 v0 + m k3 v3 = pk` when `v0.x*v3.y != v3.x*v0.y`. -/
theorem offset_k_solves (pk v0 v3 : CpmlPair K) (h : v0.x * v3.y ≠ v3.x * v0.y) :
    offset_mm * (offset_k pk v0 v3).1 * v0.x + offset_m * (offset_k pk v0 v3).2 * v3.x = pk.x ∧
    offset_mm * (offset_k pk v0 v3).1 * v0.y + offset_m * (offset_k pk v0 v3).2 * v3.y
      = pk.y := by
  obtain ⟨d1, d2⟩ := offset_divisors_ne_zero v0 v3 h
  have hm : (offset_m : K) ≠ 0 := offset_m_ne_zero
  have hmm : (offset_mm : K) ≠ 0 := offset_mm_ne_zero
  by_cases hx : v0.x ≠ 0
  · have hd := d1 hx
    have hd2 : v3.y * v0.x - v3.x * v0.y ≠ 0 := by
      intro hz
      apply h
      linarith
    simp only [offset_k, if_pos hx]
    constructor <;> field_simp <;> ring
  · have hx0 : v0.x = 0 := not_not.1 hx
    obtain ⟨h3, hd⟩ := d2 hx0
    have hd2 : v0.y * v3.x - v0.x * v3.y ≠ 0 := by
      intro hz
      apply h
      linarith
    simp only [offset_k, if_neg hx]
    constructor <;> field_simp <;> ring

/-- The point at time `m` of the curve returned by `offset` when the linear
system is solved: it is `pm`. -/
theorem pair_at_m_of_consistent (sqrt : K → K) (curve : CpmlPrimitive K) (d : K)
    (h : (offset_v0 curve).x * (offset_v3 curve).y
      ≠ (offset_v3 curve).x * (offset_v0 curve).y) :
    cpml_curve_put_pair_at_time (offset sqrt curve d) offset_m = offset_pm sqrt curve d := by
  obtain ⟨hx, hy⟩ := offset_k_solves
    (offset_pk (offset_pm sqrt curve d) (offset_p0 sqrt curve d) (offset_p3 sqrt curve d))
    (offset_v0 curve) (offset_v3 curve) h
  rw [offset_of_consistent sqrt curve d h]
  generalize (offset_k (offset_pk (offset_pm sqrt curve d) (offset_p0 sqrt curve d)
    (offset_p3 sqrt curve d)) (offset_v0 curve) (offset_v3 curve)) = k at hx hy ⊢
  generalize offset_pm sqrt curve d = pm at hx hy ⊢
  generalize offset_p0 sqrt curve d = p0 at hx hy ⊢
  generalize offset_p3 sqrt curve d = p3 at hx hy ⊢
  generalize offset_v0 curve = v0 at hx hy ⊢
  generalize offset_v3 curve = v3 at hx hy ⊢
  simp only [offset_pk, offset_mm, offset_m] at hx hy
  simp only [cpml_curve_put_pair_at_time, cpml_primitive_get_point, offset_m]
  rw [eq_div_iff (by norm_num)] at hx hy
  ext
  · dsimp only
    linear_combination hx
  · dsimp only
    linear_combination hy

/-- The point at time `m` of the curve returned by the alternative approach of
`offset`: it is `pm` moved by the mean of the displacements of the two end
points. -/
theorem pair_at_m_of_inconsistent (sqrt : K → K) (curve : CpmlPrimitive K) (d : K)
    (h : (offset_v0 curve).x * (offset_v3 curve).y
      = (offset_v3 curve).x * (offset_v0 curve).y) :
    cpml_curve_put_pair_at_time (offset sqrt curve d) offset_m =
      ⟨(offset_pm sqrt curve d).x
        + (((offset_p0 sqrt curve d).x - curve.org.x)
          + ((offset_p3 sqrt curve d).x - curve.data3.x)) / 2,
       (offset_pm sqrt curve d).y
        + (((offset_p0 sqrt curve d).y - curve.org.y)
          + ((offset_p3 sqrt curve d).y - curve.data3.y)) / 2⟩ := by
  rw [offset_of_inconsistent sqrt curve d h]
  simp only [offset_pm]
  generalize offset_vm sqrt curve d = vm
  generalize offset_p0 sqrt curve d = p0
  generalize offset_p3 sqrt curve d = p3
  simp only [cpml_curve_put_pair_at_time, cpml_primitive_get_point, offset_m, offset_v0,
    offset_v3, cpml_pair_from_cairo, CpmlPair.mk.injEq]
  constructor <;> ring

theorem set_length_of_horizontal {sqrt : K → K} (hs : IsSqrt sqrt) (a d : K) (ha : 0 < a) :
    cpml_vector_set_length sqrt ⟨a, 0⟩ d = ⟨d, 0⟩ := by
  have hsq : sqrt (a * a + 0 * 0) = a := by
    rw [mul_zero, add_zero, hs.sqrt_mul_self, abs_of_pos ha]
  simp only [cpml_vector_set_length, hsq, CpmlPair.mk.injEq]
  constructor
  · field_simp
  · ring

/-- The result of `offset` on the curve of scenario 4. -/
theorem offset_scenario4 {sqrt : K → K} (hs : IsSqrt sqrt) (d : K) :
    offset sqrt scenario4_curve d =
      ⟨⟨0, d⟩, ⟨1, 7 * d / 3⟩, ⟨9, 7 * d / 3⟩, ⟨10, d⟩⟩ := by
  have hv0 : offset_v0 (scenario4_curve : CpmlPrimitive K) = ⟨1, 0⟩ := by
    simp [offset_v0, scenario4_curve, cpml_pair_from_cairo]
  have hv3 : offset_v3 (scenario4_curve : CpmlPrimitive K) = ⟨1, 0⟩ := by
    simp only [offset_v3, scenario4_curve, cpml_pair_from_cairo, CpmlPair.mk.injEq]
    constructor <;> norm_num
  have hvec : cpml_curve_put_vector_at_time (scenario4_curve : CpmlPrimitive K) offset_m
      = ⟨27 / 2, 0⟩ := by
    simp only [cpml_curve_put_vector_at_time, cpml_primitive_get_point, scenario4_curve,
      offset_m, CpmlPair.mk.injEq]
    constructor <;> norm_num
  have hvm : offset_vm sqrt (scenario4_curve : CpmlPrimitive K) d = ⟨0, d⟩ := by
    simp only [offset_vm, hvec, set_length_of_horizontal hs (27 / 2) d (by norm_num),
      cpml_vector_normal, neg_zero]
  have hp0 : offset_p0 sqrt (scenario4_curve : CpmlPrimitive K) d = ⟨0, d⟩ := by
    simp only [offset_p0, hv0, cpml_pair_copy, set_length_of_horizontal hs 1 d one_pos,
      cpml_vector_normal, neg_zero, cpml_pair_from_cairo]
    simp [scenario4_curve]
  have hp3 : offset_p3 sqrt (scenario4_curve : CpmlPrimitive K) d = ⟨10, d⟩ := by
    simp only [offset_p3, hv3, cpml_pair_copy, set_length_of_horizontal hs 1 d one_pos,
      cpml_vector_normal, neg_zero, cpml_pair_from_cairo]
    simp [scenario4_curve]
  have hc : (offset_v0 (scenario4_curve : CpmlPrimitive K)).x
        * (offset_v3 (scenario4_curve : CpmlPrimitive K)).y
      = (offset_v3 (scenario4_curve : CpmlPrimitive K)).x
        * (offset_v0 (scenario4_curve : CpmlPrimitive K)).y := by
    rw [hv0, hv3]
  rw [offset_of_inconsistent sqrt _ d hc, hv0, hv3, hvm, hp0, hp3]
  ext <;> dsimp only <;> ring

theorem isSqrt_real : IsSqrt Real.sqrt :=
  fun a ha => ⟨Real.sqrt_nonneg a, Real.mul_self_sqrt ha⟩

theorem sample_v0 : offset_v0 (sample_curve : CpmlPrimitive K) = ⟨3, 4⟩ := by
  simp [offset_v0, sample_curve, cpml_pair_from_cairo]

theorem sample_v3 : offset_v3 (sample_curve : CpmlPrimitive K) = ⟨0, -4⟩ := by
  simp [offset_v3, sample_curve, cpml_pair_from_cairo]

theorem sample_consistent :
    (offset_v0 (sample_curve : CpmlPrimitive K)).x * (offset_v3 (sample_curve : CpmlPrimitive K)).y
      ≠ (offset_v3 (sample_curve : CpmlPrimitive K)).x
        * (offset_v0 (sample_curve : CpmlPrimitive K)).y := by
  rw [sample_v0, sample_v3]
  norm_num

theorem sample_vector_at_m :
    cpml_curve_put_vector_at_time (sample_curve : CpmlPrimitive K) (1 / 2) = ⟨39 / 4, 0⟩ := by
  simp only [cpml_curve_put_vector_at_time, cpml_primitive_get_point, sample_curve,
    CpmlPair.mk.injEq]
  constructor <;> norm_num

theorem scenario4_v0 : offset_v0 (scenario4_curve : CpmlPrimitive K) = ⟨1, 0⟩ := by
  simp [offset_v0, scenario4_curve, cpml_pair_from_cairo]

theorem scenario4_v3 : offset_v3 (scenario4_curve : CpmlPrimitive K) = ⟨1, 0⟩ := by
  simp only [offset_v3, scenario4_curve, cpml_pair_from_cairo, CpmlPair.mk.injEq]
  constructor <;> norm_num

theorem scenario4_vector_at_m :
    cpml_curve_put_vector_at_time (scenario4_curve : CpmlPrimitive K) (1 / 2) = ⟨27 / 2, 0⟩ := by
  simp only [cpml_curve_put_vector_at_time, cpml_primitive_get_point, scenario4_curve,
    CpmlPair.mk.injEq]
  constructor <;> norm_num

theorem pair_ne_zero_of_x {a b : K} (ha : a ≠ 0) : (⟨a, b⟩ : CpmlPair K) ≠ ⟨0, 0⟩ :=
  fun h => ha (congrArg CpmlPair.x h)

theorem pair_ne_zero_of_y {a b : K} (hb : b ≠ 0) : (⟨a, b⟩ : CpmlPair K) ≠ ⟨0, 0⟩ :=
  fun h => hb (congrArg CpmlPair.y h)

/-! ## Theorems -/

/-- C1: for every curve `P0 P1 P2 P3` and every time `t`,
`cpml_curve_put_pair_at_time` stores exactly
`(1-t)^3 P0 + 3 t (1-t)^2 P1 + 3 t^2 (1-t) P2 + t^3 P3`, in `x` and in `y`. -/
theorem pair_at_time_bernstein (curve : CpmlPrimitive K) (t : K) :
    cpml_curve_put_pair_at_time curve t =
      ⟨(1 - t) ^ 3 * curve.org.x + 3 * t * (1 - t) ^ 2 * curve.data1.x
          + 3 * t ^ 2 * (1 - t) * curve.data2.x + t ^ 3 * curve.data3.x,
       (1 - t) ^ 3 * curve.org.y + 3 * t * (1 - t) ^ 2 * curve.data1.y
          + 3 * t ^ 2 * (1 - t) * curve.data2.y + t ^ 3 * curve.data3.y⟩ := by
  simp only [cpml_curve_put_pair_at_time, cpml_primitive_get_point, CpmlPair.mk.injEq]
  constructor <;> ring

/-- C2: for every curve, `cpml_curve_put_pair_at_time` returns exactly `P0` at
`t = 0` and exactly `P3` at `t = 1`. -/
theorem pair_at_time_endpoints (curve : CpmlPrimitive K) :
    cpml_curve_put_pair_at_time curve 0 = curve.org ∧
    cpml_curve_put_pair_at_time curve 1 = curve.data3 := by
  constructor <;> ext <;>
    simp [cpml_curve_put_pair_at_time, cpml_primitive_get_point]

/-- C3: over the reals, for every curve and every `t`, each component of
`cpml_curve_put_vector_at_time` is the derivative with respect to the time of
the same component of `cpml_curve_put_pair_at_time`, and the vector equals
`3 (1-t)^2 (P1-P0) + 6 t (1-t) (P2-P1) + 3 t^2 (P3-P2)`. -/
theorem vector_at_time_is_derivative (curve : CpmlPrimitive ℝ) (t : ℝ) :
    HasDerivAt (fun s : ℝ => (cpml_curve_put_pair_at_time curve s).x)
      (cpml_curve_put_vector_at_time curve t).x t ∧
    HasDerivAt (fun s : ℝ => (cpml_curve_put_pair_at_time curve s).y)
      (cpml_curve_put_vector_at_time curve t).y t ∧
    cpml_curve_put_vector_at_time curve t =
      ⟨3 * (1 - t) ^ 2 * (curve.data1.x - curve.org.x)
          + 6 * t * (1 - t) * (curve.data2.x - curve.data1.x)
          + 3 * t ^ 2 * (curve.data3.x - curve.data2.x),
       3 * (1 - t) ^ 2 * (curve.data1.y - curve.org.y)
          + 6 * t * (1 - t) * (curve.data2.y - curve.data1.y)
          + 3 * t ^ 2 * (curve.data3.y - curve.data2.y)⟩ := by
  have hid : HasDerivAt (fun s : ℝ => s) 1 t := hasDerivAt_id t
  have hu : HasDerivAt (fun s : ℝ => 1 - s) (-1) t := by
    simpa using hid.const_sub (1 : ℝ)
  have key : ∀ a b c d : ℝ,
      HasDerivAt
        (fun s : ℝ => (1 - s) * (1 - s) * (1 - s) * a + 3 * ((1 - s) * (1 - s)) * s * b
          + 3 * (1 - s) * (s * s) * c + s * s * s * d)
        (3 * ((1 - t) * (1 - t)) * (b - a) + 6 * (1 - t) * t * (c - b)
          + 3 * (t * t) * (d - c)) t := by
    intro a b c d
    have h1 := (((hu.mul hu).mul hu).mul_const a)
    have h2 := ((((hu.mul hu).const_mul (3 : ℝ)).mul hid).mul_const b)
    have h3 := (((hu.const_mul (3 : ℝ)).mul (hid.mul hid)).mul_const c)
    have h4 := (((hid.mul hid).mul hid).mul_const d)
    have h := ((h1.add h2).add h3).add h4
    refine h.congr_deriv ?_
    ring
  refine ⟨?_, ?_, ?_⟩
  · exact key curve.org.x curve.data1.x curve.data2.x curve.data3.x
  · exact key curve.org.y curve.data1.y curve.data2.y curve.data3.y
  · simp only [cpml_curve_put_vector_at_time, cpml_primitive_get_point, CpmlPair.mk.injEq]
    constructor <;> ring

/-- C4: for every curve, `cpml_curve_put_vector_at_time` returns `3 (P1 - P0)`
at `t = 0` and `3 (P3 - P2)` at `t = 1`, hence vectors parallel to `P1 - P0` and
to `P3 - P2`. -/
theorem vector_at_time_endpoints (curve : CpmlPrimitive K) :
    cpml_curve_put_vector_at_time curve 0 =
      ⟨3 * (curve.data1.x - curve.org.x), 3 * (curve.data1.y - curve.org.y)⟩ ∧
    cpml_curve_put_vector_at_time curve 1 =
      ⟨3 * (curve.data3.x - curve.data2.x), 3 * (curve.data3.y - curve.data2.y)⟩ := by
  constructor <;>
    simp [cpml_curve_put_vector_at_time, cpml_primitive_get_point]

/-- C5: for every curve with non-zero end tangents `v0 = P1 - P0` and
`v3 = P3 - P2` and every signed distance `d`, the end points returned by
`offset` are `P0 + normal (unit v0) * d` and `P3 + normal (unit v3) * d` with
`normal (x, y) = (-y, x)`; they lie at distance `|d|` from `P0` and `P3`, in the
directions perpendicular to `v0` and `v3`. -/
theorem offset_end_points (sqrt : K → K) (hs : IsSqrt sqrt) (curve : CpmlPrimitive K)
    (d : K) (h0 : offset_v0 curve ≠ ⟨0, 0⟩) (h3 : offset_v3 curve ≠ ⟨0, 0⟩) :
    (offset_v0 curve = ⟨curve.data1.x - curve.org.x, curve.data1.y - curve.org.y⟩ ∧
     offset_v3 curve = ⟨curve.data3.x - curve.data2.x, curve.data3.y - curve.data2.y⟩) ∧
    ((offset sqrt curve d).org =
        ⟨curve.org.x + -((offset_v0 curve).y
            / sqrt ((offset_v0 curve).x * (offset_v0 curve).x
                + (offset_v0 curve).y * (offset_v0 curve).y)) * d,
         curve.org.y + (offset_v0 curve).x
            / sqrt ((offset_v0 curve).x * (offset_v0 curve).x
                + (offset_v0 curve).y * (offset_v0 curve).y) * d⟩ ∧
     (offset sqrt curve d).data3 =
        ⟨curve.data3.x + -((offset_v3 curve).y
            / sqrt ((offset_v3 curve).x * (offset_v3 curve).x
                + (offset_v3 curve).y * (offset_v3 curve).y)) * d,
         curve.data3.y + (offset_v3 curve).x
            / sqrt ((offset_v3 curve).x * (offset_v3 curve).x
                + (offset_v3 curve).y * (offset_v3 curve).y) * d⟩) ∧
    (sqrt (((offset sqrt curve d).org.x - curve.org.x)
            * ((offset sqrt curve d).org.x - curve.org.x)
          + ((offset sqrt curve d).org.y - curve.org.y)
            * ((offset sqrt curve d).org.y - curve.org.y)) = |d| ∧
     sqrt (((offset sqrt curve d).data3.x - curve.data3.x)
            * ((offset sqrt curve d).data3.x - curve.data3.x)
          + ((offset sqrt curve d).data3.y - curve.data3.y)
            * ((offset sqrt curve d).data3.y - curve.data3.y)) = |d|) ∧
    (((offset sqrt curve d).org.x - curve.org.x) * (offset_v0 curve).x
        + ((offset sqrt curve d).org.y - curve.org.y) * (offset_v0 curve).y = 0 ∧
     ((offset sqrt curve d).data3.x - curve.data3.x) * (offset_v3 curve).x
        + ((offset sqrt curve d).data3.y - curve.data3.y) * (offset_v3 curve).y = 0) := by
  obtain ⟨a1, a2, a3⟩ := normal_set_length hs (offset_v0 curve) d h0
  obtain ⟨b1, b2, b3⟩ := normal_set_length hs (offset_v3 curve) d h3
  have e0 := offset_org sqrt curve d
  have e3 := offset_data3 sqrt curve d
  have p0x : (offset_p0 sqrt curve d).x - curve.org.x
      = (cpml_vector_normal (cpml_vector_set_length sqrt (offset_v0 curve) d)).x := by
    simp [offset_p0, cpml_pair_from_cairo, cpml_pair_copy]
  have p0y : (offset_p0 sqrt curve d).y - curve.org.y
      = (cpml_vector_normal (cpml_vector_set_length sqrt (offset_v0 curve) d)).y := by
    simp [offset_p0, cpml_pair_from_cairo, cpml_pair_copy]
  have p3x : (offset_p3 sqrt curve d).x - curve.data3.x
      = (cpml_vector_normal (cpml_vector_set_length sqrt (offset_v3 curve) d)).x := by
    simp [offset_p3, cpml_pair_from_cairo, cpml_pair_copy]
  have p3y : (offset_p3 sqrt curve d).y - curve.data3.y
      = (cpml_vector_normal (cpml_vector_set_length sqrt (offset_v3 curve) d)).y := by
    simp [offset_p3, cpml_pair_from_cairo, cpml_pair_copy]
  rw [e0, e3, p0x, p0y, p3x, p3y]
  refine ⟨⟨rfl, rfl⟩, ⟨?_, ?_⟩, ⟨a2, b2⟩, ⟨a3, b3⟩⟩
  · rw [a1] at p0x p0y
    ext
    · simp only []
      linarith [p0x]
    · simp only []
      linarith [p0y]
  · rw [b1] at p3x p3y
    ext
    · simp only []
      linarith [p3x]
    · simp only []
      linarith [p3y]

/-- C5 instantiated over the reals on `sample_curve` with `d = 5`: the end
points move from `(0, 0)` to `(-4, 3)` and from `(8, 0)` to `(13, 0)`. -/
theorem offset_end_points_witness :
    offset_v0 (sample_curve : CpmlPrimitive ℝ) ≠ ⟨0, 0⟩ ∧
    offset_v3 (sample_curve : CpmlPrimitive ℝ) ≠ ⟨0, 0⟩ ∧
    (offset Real.sqrt sample_curve 5).org = ⟨-4, 3⟩ ∧
    (offset Real.sqrt sample_curve 5).data3 = ⟨13, 0⟩ := by
  have h0 : offset_v0 (sample_curve : CpmlPrimitive ℝ) ≠ ⟨0, 0⟩ := by
    rw [sample_v0]
    exact pair_ne_zero_of_x (by norm_num)
  have h3 : offset_v3 (sample_curve : CpmlPrimitive ℝ) ≠ ⟨0, 0⟩ := by
    rw [sample_v3]
    exact pair_ne_zero_of_y (by norm_num)
  have s0 : Real.sqrt (3 * 3 + 4 * 4) = 5 := by
    rw [show (3 * 3 + 4 * 4 : ℝ) = 5 * 5 by norm_num]
    exact Real.sqrt_mul_self (by norm_num)
  have s3 : Real.sqrt (0 * 0 + -4 * -4) = 4 := by
    rw [show (0 * 0 + -4 * -4 : ℝ) = 4 * 4 by norm_num]
    exact Real.sqrt_mul_self (by norm_num)
  obtain ⟨e0, e3⟩ := (offset_end_points Real.sqrt isSqrt_real sample_curve 5 h0 h3).2.1
  rw [sample_v0, s0] at e0
  rw [sample_v3, s3] at e3
  refine ⟨h0, h3, ?_, ?_⟩
  · rw [e0]
    simp only [sample_curve, CpmlPair.mk.injEq]
    constructor <;> norm_num
  · rw [e3]
    simp only [sample_curve, CpmlPair.mk.injEq]
    constructor <;> norm_num

/-- C6 as stated fails on the curve of scenario 4 offset by `d = 1` (over the
reals): the end tangents and the slope at `t = 0.5` are non-zero, the returned
cubic is at `(5, 2)` at `t = 0.5` while `pm = (5, 1)`. -/
theorem offset_scenario4_misses_pm :
    offset_v0 (scenario4_curve : CpmlPrimitive ℝ) ≠ ⟨0, 0⟩ ∧
    offset_v3 (scenario4_curve : CpmlPrimitive ℝ) ≠ ⟨0, 0⟩ ∧
    cpml_curve_put_vector_at_time (scenario4_curve : CpmlPrimitive ℝ) (1 / 2) ≠ ⟨0, 0⟩ ∧
    cpml_curve_put_pair_at_time (offset Real.sqrt scenario4_curve 1) (1 / 2) = ⟨5, 2⟩ ∧
    offset_pm Real.sqrt scenario4_curve 1 = ⟨5, 1⟩ ∧
    cpml_curve_put_pair_at_time (offset Real.sqrt scenario4_curve 1) (1 / 2)
      ≠ offset_pm Real.sqrt scenario4_curve 1 := by
  have h0 : offset_v0 (scenario4_curve : CpmlPrimitive ℝ) ≠ ⟨0, 0⟩ := by
    rw [scenario4_v0]
    exact pair_ne_zero_of_x (by norm_num)
  have h3 : offset_v3 (scenario4_curve : CpmlPrimitive ℝ) ≠ ⟨0, 0⟩ := by
    rw [scenario4_v3]
    exact pair_ne_zero_of_x (by norm_num)
  have hm : cpml_curve_put_vector_at_time (scenario4_curve : CpmlPrimitive ℝ) (1 / 2)
      ≠ ⟨0, 0⟩ := by
    rw [scenario4_vector_at_m]
    exact pair_ne_zero_of_x (by norm_num)
  have hc : cpml_curve_put_pair_at_time (offset Real.sqrt scenario4_curve 1) (1 / 2)
      = ⟨5, 2⟩ := by
    rw [offset_scenario4 isSqrt_real]
    simp only [cpml_curve_put_pair_at_time, cpml_primitive_get_point, CpmlPair.mk.injEq]
    constructor <;> norm_num
  have hpm : offset_pm Real.sqrt scenario4_curve 1 = ⟨5, 1⟩ := by
    have e : (offset_m : ℝ) = 1 / 2 := rfl
    simp only [offset_pm, offset_vm, e, scenario4_vector_at_m,
      set_length_of_horizontal isSqrt_real (27 / 2) 1 (by norm_num), cpml_vector_normal]
    simp only [cpml_curve_put_pair_at_time, cpml_primitive_get_point, scenario4_curve,
      CpmlPair.mk.injEq]
    constructor <;> norm_num
  refine ⟨h0, h3, hm, hc, hpm, ?_⟩
  rw [hc, hpm]
  intro h
  have := congrArg CpmlPair.y h
  norm_num at this

/-- C6 (amended): for every curve whose slope at `t = 0.5` is non-zero and every
distance `d`, `pm` is the point of the original curve at `t = 0.5` moved by `vm`,
the vector `normal (unit (vector_at 0.5)) * d` of length `|d|`; when
`v0.x*v3.y != v3.x*v0.y` the cubic returned by `offset`, evaluated by
`cpml_curve_put_pair_at_time` at `t = 0.5`, equals `pm`; in the alternative
approach (`v0.x*v3.y == v3.x*v0.y`) it equals `pm` moved by the mean of the
displacements `P0' - P0` and `P3' - P3` of the two end points. -/
theorem offset_curve_at_m (sqrt : K → K) (hs : IsSqrt sqrt) (curve : CpmlPrimitive K) (d : K)
    (hm : cpml_curve_put_vector_at_time curve (1 / 2) ≠ ⟨0, 0⟩) :
    (offset_pm sqrt curve d =
        ⟨(cpml_curve_put_pair_at_time curve (1 / 2)).x + (offset_vm sqrt curve d).x,
         (cpml_curve_put_pair_at_time curve (1 / 2)).y + (offset_vm sqrt curve d).y⟩ ∧
     offset_vm sqrt curve d =
        ⟨-((cpml_curve_put_vector_at_time curve (1 / 2)).y
            / sqrt ((cpml_curve_put_vector_at_time curve (1 / 2)).x
                  * (cpml_curve_put_vector_at_time curve (1 / 2)).x
                + (cpml_curve_put_vector_at_time curve (1 / 2)).y
                  * (cpml_curve_put_vector_at_time curve (1 / 2)).y)) * d,
         (cpml_curve_put_vector_at_time curve (1 / 2)).x
            / sqrt ((cpml_curve_put_vector_at_time curve (1 / 2)).x
                  * (cpml_curve_put_vector_at_time curve (1 / 2)).x
                + (cpml_curve_put_vector_at_time curve (1 / 2)).y
                  * (cpml_curve_put_vector_at_time curve (1 / 2)).y) * d⟩ ∧
     sqrt ((offset_vm sqrt curve d).x * (offset_vm sqrt curve d).x
        + (offset_vm sqrt curve d).y * (offset_vm sqrt curve d).y) = |d|) ∧
    ((offset_v0 curve).x * (offset_v3 curve).y ≠ (offset_v3 curve).x * (offset_v0 curve).y →
      cpml_curve_put_pair_at_time (offset sqrt curve d) (1 / 2) = offset_pm sqrt curve d) ∧
    ((offset_v0 curve).x * (offset_v3 curve).y = (offset_v3 curve).x * (offset_v0 curve).y →
      cpml_curve_put_pair_at_time (offset sqrt curve d) (1 / 2) =
        ⟨(offset_pm sqrt curve d).x
          + (((offset sqrt curve d).org.x - curve.org.x)
            + ((offset sqrt curve d).data3.x - curve.data3.x)) / 2,
         (offset_pm sqrt curve d).y
          + (((offset sqrt curve d).org.y - curve.org.y)
            + ((offset sqrt curve d).data3.y - curve.data3.y)) / 2⟩) := by
  have e : (offset_m : K) = 1 / 2 := rfl
  obtain ⟨a1, a2, _⟩ := normal_set_length hs _ d hm
  refine ⟨⟨rfl, a1, a2⟩, ?_, ?_⟩
  · intro h
    rw [← e]
    exact pair_at_m_of_consistent sqrt curve d h
  · intro h
    rw [← e, offset_org, offset_data3]
    exact pair_at_m_of_inconsistent sqrt curve d h

/-- C6 (amended) instantiated over the reals on `sample_curve` with `d = 5`:
the returned cubic passes through `pm = (41/8, 8)` at `t = 0.5`. -/
theorem offset_curve_at_m_witness :
    cpml_curve_put_vector_at_time (sample_curve : CpmlPrimitive ℝ) (1 / 2) ≠ ⟨0, 0⟩ ∧
    cpml_curve_put_pair_at_time (offset Real.sqrt sample_curve 5) (1 / 2)
      = offset_pm Real.sqrt sample_curve 5 ∧
    Real.sqrt ((offset_vm Real.sqrt sample_curve 5).x * (offset_vm Real.sqrt sample_curve 5).x
      + (offset_vm Real.sqrt sample_curve 5).y * (offset_vm Real.sqrt sample_curve 5).y)
      = |5| := by
  have hm : cpml_curve_put_vector_at_time (sample_curve : CpmlPrimitive ℝ) (1 / 2)
      ≠ ⟨0, 0⟩ := by
    rw [sample_vector_at_m]
    exact pair_ne_zero_of_x (by norm_num)
  have h := offset_curve_at_m Real.sqrt isSqrt_real sample_curve 5 hm
  exact ⟨hm, h.2.1 sample_consistent, h.1.2.2⟩

/-- C7 as stated fails on the curve of scenario 4 offset by `d = 1` (over the
reals): `v0` and `v3` are non-zero, the returned curve has
`P1' - P0' = (1, 4/3)`, and no scalar `k` gives `P1' - P0' = k * v0` since
`v0 = (1, 0)`. -/
theorem offset_scenario4_changes_slope :
    offset_v0 (scenario4_curve : CpmlPrimitive ℝ) ≠ ⟨0, 0⟩ ∧
    offset_v3 (scenario4_curve : CpmlPrimitive ℝ) ≠ ⟨0, 0⟩ ∧
    (offset Real.sqrt scenario4_curve 1).data1.x - (offset Real.sqrt scenario4_curve 1).org.x
      = 1 ∧
    (offset Real.sqrt scenario4_curve 1).data1.y - (offset Real.sqrt scenario4_curve 1).org.y
      = 4 / 3 ∧
    ¬ ∃ k : ℝ,
      (offset Real.sqrt scenario4_curve 1).data1.x - (offset Real.sqrt scenario4_curve 1).org.x
        = k * (offset_v0 (scenario4_curve : CpmlPrimitive ℝ)).x ∧
      (offset Real.sqrt scenario4_curve 1).data1.y - (offset Real.sqrt scenario4_curve 1).org.y
        = k * (offset_v0 (scenario4_curve : CpmlPrimitive ℝ)).y := by
  have h0 : offset_v0 (scenario4_curve : CpmlPrimitive ℝ) ≠ ⟨0, 0⟩ := by
    rw [scenario4_v0]
    exact pair_ne_zero_of_x (by norm_num)
  have h3 : offset_v3 (scenario4_curve : CpmlPrimitive ℝ) ≠ ⟨0, 0⟩ := by
    rw [scenario4_v3]
    exact pair_ne_zero_of_x (by norm_num)
  refine ⟨h0, h3, ?_, ?_, ?_⟩
  · rw [offset_scenario4 isSqrt_real]
    norm_num
  · rw [offset_scenario4 isSqrt_real]
    norm_num
  · rw [offset_scenario4 isSqrt_real, scenario4_v0]
    rintro ⟨k, -, hy⟩
    norm_num at hy

/-- C7 (amended): for every curve with `v0.x*v3.y != v3.x*v0.y` (so `v0` and
`v3` are non-zero and not parallel) and every distance `d`, the curve returned
by `offset` has the slope of the original at both ends: `P1' - P0' = k0 * v0`
and `P2' - P3' = k3 * v3` for some scalars `k0` and `k3`. -/
theorem offset_keeps_end_slopes (sqrt : K → K) (curve : CpmlPrimitive K) (d : K)
    (h : (offset_v0 curve).x * (offset_v3 curve).y
      ≠ (offset_v3 curve).x * (offset_v0 curve).y) :
    (offset_v0 curve ≠ ⟨0, 0⟩ ∧ offset_v3 curve ≠ ⟨0, 0⟩) ∧
    ∃ k0 k3 : K,
      ((offset sqrt curve d).data1.x - (offset sqrt curve d).org.x = k0 * (offset_v0 curve).x ∧
       (offset sqrt curve d).data1.y - (offset sqrt curve d).org.y = k0 * (offset_v0 curve).y) ∧
      ((offset sqrt curve d).data2.x - (offset sqrt curve d).data3.x
          = k3 * (offset_v3 curve).x ∧
       (offset sqrt curve d).data2.y - (offset sqrt curve d).data3.y
          = k3 * (offset_v3 curve).y) := by
  refine ⟨⟨?_, ?_⟩, ?_⟩
  · intro hz
    apply h
    rw [hz]
    ring
  · intro hz
    apply h
    rw [hz]
    ring
  · rw [offset_of_consistent sqrt curve d h]
    refine ⟨(offset_k (offset_pk (offset_pm sqrt curve d) (offset_p0 sqrt curve d)
        (offset_p3 sqrt curve d)) (offset_v0 curve) (offset_v3 curve)).1,
      (offset_k (offset_pk (offset_pm sqrt curve d) (offset_p0 sqrt curve d)
        (offset_p3 sqrt curve d)) (offset_v0 curve) (offset_v3 curve)).2,
      ⟨?_, ?_⟩, ⟨?_, ?_⟩⟩ <;> dsimp only <;> ring

/-- C7 (amended) instantiated over the reals on `sample_curve` with `d = 5`. -/
theorem offset_keeps_end_slopes_witness :
    (offset_v0 (sample_curve : CpmlPrimitive ℝ)).x * (offset_v3 (sample_curve : CpmlPrimitive ℝ)).y
      ≠ (offset_v3 (sample_curve : CpmlPrimitive ℝ)).x
        * (offset_v0 (sample_curve : CpmlPrimitive ℝ)).y ∧
    ∃ k0 k3 : ℝ,
      ((offset Real.sqrt sample_curve 5).data1.x - (offset Real.sqrt sample_curve 5).org.x
          = k0 * (offset_v0 (sample_curve : CpmlPrimitive ℝ)).x ∧
       (offset Real.sqrt sample_curve 5).data1.y - (offset Real.sqrt sample_curve 5).org.y
          = k0 * (offset_v0 (sample_curve : CpmlPrimitive ℝ)).y) ∧
      ((offset Real.sqrt sample_curve 5).data2.x - (offset Real.sqrt sample_curve 5).data3.x
          = k3 * (offset_v3 (sample_curve : CpmlPrimitive ℝ)).x ∧
       (offset Real.sqrt sample_curve 5).data2.y - (offset Real.sqrt sample_curve 5).data3.y
          = k3 * (offset_v3 (sample_curve : CpmlPrimitive ℝ)).y) :=
  ⟨sample_consistent, (offset_keeps_end_slopes Real.sqrt sample_curve 5 sample_consistent).2⟩

/-- C8: `offset` takes the alternative approach exactly when
`v0.x*v3.y = v3.x*v0.y` (exact equality): then it returns
`P1' = P0' + v0 + (4/3) vm` and `P2' = P3' - v3 + (4/3) vm`, otherwise it returns
the control points `P0' + k0 v0` and `P3' + k3 v3` of the linear system.  Here
`vm` is the vector added to the point at `t = 0.5` to build `pm`; it has length
`|d|` and is normal to the slope at `t = 0.5` when that slope is non-zero.  On
`P0 = (0,0)`, `P1 = (1,0)`, `P2 = (9,0)`, `P3 = (10,0)` and every `d` the result
is `P0' = (0,d)`, `P1' = (1,7d/3)`, `P2' = (9,7d/3)`, `P3' = (10,d)`. -/
theorem offset_alternative_approach (sqrt : K → K) (hs : IsSqrt sqrt) (curve : CpmlPrimitive K)
    (d : K) :
    ((offset_v0 curve).x * (offset_v3 curve).y = (offset_v3 curve).x * (offset_v0 curve).y →
      (offset sqrt curve d).data1 =
        ⟨(offset sqrt curve d).org.x + (offset_v0 curve).x + 4 / 3 * (offset_vm sqrt curve d).x,
         (offset sqrt curve d).org.y + (offset_v0 curve).y
            + 4 / 3 * (offset_vm sqrt curve d).y⟩ ∧
      (offset sqrt curve d).data2 =
        ⟨(offset sqrt curve d).data3.x - (offset_v3 curve).x
            + 4 / 3 * (offset_vm sqrt curve d).x,
         (offset sqrt curve d).data3.y - (offset_v3 curve).y
            + 4 / 3 * (offset_vm sqrt curve d).y⟩) ∧
    ((offset_v0 curve).x * (offset_v3 curve).y ≠ (offset_v3 curve).x * (offset_v0 curve).y →
      (offset sqrt curve d).data1 =
        ⟨(offset sqrt curve d).org.x
          + (offset_k (offset_pk (offset_pm sqrt curve d) (offset_p0 sqrt curve d)
              (offset_p3 sqrt curve d)) (offset_v0 curve) (offset_v3 curve)).1
            * (offset_v0 curve).x,
         (offset sqrt curve d).org.y
          + (offset_k (offset_pk (offset_pm sqrt curve d) (offset_p0 sqrt curve d)
              (offset_p3 sqrt curve d)) (offset_v0 curve) (offset_v3 curve)).1
            * (offset_v0 curve).y⟩ ∧
      (offset sqrt curve d).data2 =
        ⟨(offset sqrt curve d).data3.x
          + (offset_k (offset_pk (offset_pm sqrt curve d) (offset_p0 sqrt curve d)
              (offset_p3 sqrt curve d)) (offset_v0 curve) (offset_v3 curve)).2
            * (offset_v3 curve).x,
         (offset sqrt curve d).data3.y
          + (offset_k (offset_pk (offset_pm sqrt curve d) (offset_p0 sqrt curve d)
              (offset_p3 sqrt curve d)) (offset_v0 curve) (offset_v3 curve)).2
            * (offset_v3 curve).y⟩) ∧
    offset_pm sqrt curve d =
      ⟨(cpml_curve_put_pair_at_time curve (1 / 2)).x + (offset_vm sqrt curve d).x,
       (cpml_curve_put_pair_at_time curve (1 / 2)).y + (offset_vm sqrt curve d).y⟩ ∧
    (cpml_curve_put_vector_at_time curve (1 / 2) ≠ ⟨0, 0⟩ →
      sqrt ((offset_vm sqrt curve d).x * (offset_vm sqrt curve d).x
        + (offset_vm sqrt curve d).y * (offset_vm sqrt curve d).y) = |d| ∧
      (offset_vm sqrt curve d).x * (cpml_curve_put_vector_at_time curve (1 / 2)).x
        + (offset_vm sqrt curve d).y * (cpml_curve_put_vector_at_time curve (1 / 2)).y = 0) ∧
    offset sqrt scenario4_curve d = ⟨⟨0, d⟩, ⟨1, 7 * d / 3⟩, ⟨9, 7 * d / 3⟩, ⟨10, d⟩⟩ := by
  refine ⟨?_, ?_, rfl, ?_, offset_scenario4 hs d⟩
  · intro h
    rw [offset_of_inconsistent sqrt curve d h]
    refine ⟨?_, ?_⟩ <;> ext <;> dsimp only <;> ring
  · intro h
    rw [offset_of_consistent sqrt curve d h]
    exact ⟨rfl, rfl⟩
  · intro hm
    obtain ⟨_, a2, a3⟩ := normal_set_length hs _ d hm
    exact ⟨a2, a3⟩

/-- C8 instantiated over the reals: on the curve of scenario 4 with `d = 3` the
alternative approach is taken and gives `(0,3)`, `(1,7)`, `(9,7)`, `(10,3)`; on
`sample_curve` the equality fails and the control points come from the linear
system. -/
theorem offset_alternative_approach_witness :
    ((offset_v0 (scenario4_curve : CpmlPrimitive ℝ)).x
        * (offset_v3 (scenario4_curve : CpmlPrimitive ℝ)).y
      = (offset_v3 (scenario4_curve : CpmlPrimitive ℝ)).x
        * (offset_v0 (scenario4_curve : CpmlPrimitive ℝ)).y ∧
     cpml_curve_put_vector_at_time (scenario4_curve : CpmlPrimitive ℝ) (1 / 2) ≠ ⟨0, 0⟩ ∧
     offset Real.sqrt scenario4_curve 3 = ⟨⟨0, 3⟩, ⟨1, 7⟩, ⟨9, 7⟩, ⟨10, 3⟩⟩ ∧
     (offset Real.sqrt scenario4_curve 3).data1 =
        ⟨(offset Real.sqrt scenario4_curve 3).org.x
            + (offset_v0 (scenario4_curve : CpmlPrimitive ℝ)).x
            + 4 / 3 * (offset_vm Real.sqrt scenario4_curve 3).x,
         (offset Real.sqrt scenario4_curve 3).org.y
            + (offset_v0 (scenario4_curve : CpmlPrimitive ℝ)).y
            + 4 / 3 * (offset_vm Real.sqrt scenario4_curve 3).y⟩ ∧
     Real.sqrt ((offset_vm Real.sqrt scenario4_curve 3).x
          * (offset_vm Real.sqrt scenario4_curve 3).x
        + (offset_vm Real.sqrt scenario4_curve 3).y
          * (offset_vm Real.sqrt scenario4_curve 3).y) = |3|) ∧
    ((offset_v0 (sample_curve : CpmlPrimitive ℝ)).x * (offset_v3 (sample_curve : CpmlPrimitive ℝ)).y
      ≠ (offset_v3 (sample_curve : CpmlPrimitive ℝ)).x
        * (offset_v0 (sample_curve : CpmlPrimitive ℝ)).y ∧
     (offset Real.sqrt sample_curve 5).data1 =
        ⟨(offset Real.sqrt sample_curve 5).org.x
          + (offset_k (offset_pk (offset_pm Real.sqrt sample_curve 5)
              (offset_p0 Real.sqrt sample_curve 5) (offset_p3 Real.sqrt sample_curve 5))
              (offset_v0 sample_curve) (offset_v3 sample_curve)).1
            * (offset_v0 (sample_curve : CpmlPrimitive ℝ)).x,
         (offset Real.sqrt sample_curve 5).org.y
          + (offset_k (offset_pk (offset_pm Real.sqrt sample_curve 5)
              (offset_p0 Real.sqrt sample_curve 5) (offset_p3 Real.sqrt sample_curve 5))
              (offset_v0 sample_curve) (offset_v3 sample_curve)).1
            * (offset_v0 (sample_curve : CpmlPrimitive ℝ)).y⟩) := by
  have hc : (offset_v0 (scenario4_curve : CpmlPrimitive ℝ)).x
        * (offset_v3 (scenario4_curve : CpmlPrimitive ℝ)).y
      = (offset_v3 (scenario4_curve : CpmlPrimitive ℝ)).x
        * (offset_v0 (scenario4_curve : CpmlPrimitive ℝ)).y := by
    rw [scenario4_v0, scenario4_v3]
  have hm : cpml_curve_put_vector_at_time (scenario4_curve : CpmlPrimitive ℝ) (1 / 2)
      ≠ ⟨0, 0⟩ := by
    rw [scenario4_vector_at_m]
    exact pair_ne_zero_of_x (by norm_num)
  have h := offset_alternative_approach Real.sqrt isSqrt_real scenario4_curve 3
  have h' := offset_alternative_approach Real.sqrt isSqrt_real sample_curve 5
  refine ⟨⟨hc, hm, ?_, (h.1 hc).1, (h.2.2.2.1 hm).1⟩, sample_consistent,
    (h'.2.1 sample_consistent).1⟩
  rw [h.2.2.2.2]
  norm_num

/-- C9: for every curve with `v0.x*v3.y != v3.x*v0.y` and every distance `d`,
the scalars `k0` and `k3` computed by `offset` satisfy both component equations
of `(1-m) k0 v0 + m k3 v3 = pk` with `m = 0.5` and
`pk = (pm - (1-m)^2 (1+2m) P0' - m^2 (3-2m) P3') / (3 m (1-m))`, and the returned
control points are `P1' = P0' + k0 v0` and `P2' = P3' + k3 v3`, where `P0'` and
`P3'` are the returned end points. -/
theorem offset_linear_system (sqrt : K → K) (curve : CpmlPrimitive K) (d : K)
    (h : (offset_v0 curve).x * (offset_v3 curve).y
      ≠ (offset_v3 curve).x * (offset_v0 curve).y) :
    ((1 - 1 / 2) * (offset_k (offset_pk (offset_pm sqrt curve d) (offset_p0 sqrt curve d)
            (offset_p3 sqrt curve d)) (offset_v0 curve) (offset_v3 curve)).1 * (offset_v0 curve).x
        + 1 / 2 * (offset_k (offset_pk (offset_pm sqrt curve d) (offset_p0 sqrt curve d)
            (offset_p3 sqrt curve d)) (offset_v0 curve) (offset_v3 curve)).2 * (offset_v3 curve).x
        = (offset_pk (offset_pm sqrt curve d) (offset_p0 sqrt curve d)
            (offset_p3 sqrt curve d)).x ∧
     (1 - 1 / 2) * (offset_k (offset_pk (offset_pm sqrt curve d) (offset_p0 sqrt curve d)
            (offset_p3 sqrt curve d)) (offset_v0 curve) (offset_v3 curve)).1 * (offset_v0 curve).y
        + 1 / 2 * (offset_k (offset_pk (offset_pm sqrt curve d) (offset_p0 sqrt curve d)
            (offset_p3 sqrt curve d)) (offset_v0 curve) (offset_v3 curve)).2 * (offset_v3 curve).y
        = (offset_pk (offset_pm sqrt curve d) (offset_p0 sqrt curve d)
            (offset_p3 sqrt curve d)).y) ∧
    offset_pk (offset_pm sqrt curve d) (offset_p0 sqrt curve d) (offset_p3 sqrt curve d) =
      ⟨((offset_pm sqrt curve d).x
          - (1 - 1 / 2) ^ 2 * (1 + 2 * (1 / 2)) * (offset sqrt curve d).org.x
          - (1 / 2) ^ 2 * (3 - 2 * (1 / 2)) * (offset sqrt curve d).data3.x)
          / (3 * (1 / 2) * (1 - 1 / 2)),
       ((offset_pm sqrt curve d).y
          - (1 - 1 / 2) ^ 2 * (1 + 2 * (1 / 2)) * (offset sqrt curve d).org.y
          - (1 / 2) ^ 2 * (3 - 2 * (1 / 2)) * (offset sqrt curve d).data3.y)
          / (3 * (1 / 2) * (1 - 1 / 2))⟩ ∧
    (offset sqrt curve d).data1 =
      ⟨(offset sqrt curve d).org.x
        + (offset_k (offset_pk (offset_pm sqrt curve d) (offset_p0 sqrt curve d)
            (offset_p3 sqrt curve d)) (offset_v0 curve) (offset_v3 curve)).1
          * (offset_v0 curve).x,
       (offset sqrt curve d).org.y
        + (offset_k (offset_pk (offset_pm sqrt curve d) (offset_p0 sqrt curve d)
            (offset_p3 sqrt curve d)) (offset_v0 curve) (offset_v3 curve)).1
          * (offset_v0 curve).y⟩ ∧
    (offset sqrt curve d).data2 =
      ⟨(offset sqrt curve d).data3.x
        + (offset_k (offset_pk (offset_pm sqrt curve d) (offset_p0 sqrt curve d)
            (offset_p3 sqrt curve d)) (offset_v0 curve) (offset_v3 curve)).2
          * (offset_v3 curve).x,
       (offset sqrt curve d).data3.y
        + (offset_k (offset_pk (offset_pm sqrt curve d) (offset_p0 sqrt curve d)
            (offset_p3 sqrt curve d)) (offset_v0 curve) (offset_v3 curve)).2
          * (offset_v3 curve).y⟩ := by
  refine ⟨?_, ?_, ?_, ?_⟩
  · exact offset_k_solves _ _ _ h
  · rw [offset_org, offset_data3]
    simp only [offset_pk, offset_m, offset_mm, CpmlPair.mk.injEq]
    constructor <;> ring
  · rw [offset_of_consistent sqrt curve d h]
  · rw [offset_of_consistent sqrt curve d h]

/-- C9 instantiated over the reals on `sample_curve` with `d = 5`, where
`pk = (43/6, 26/3)`, `k0 = 5/9` and `k3 = -34/9`. -/
theorem offset_linear_system_witness :
    (offset_v0 (sample_curve : CpmlPrimitive ℝ)).x * (offset_v3 (sample_curve : CpmlPrimitive ℝ)).y
      ≠ (offset_v3 (sample_curve : CpmlPrimitive ℝ)).x
        * (offset_v0 (sample_curve : CpmlPrimitive ℝ)).y ∧
    (1 - 1 / 2) * (offset_k (offset_pk (offset_pm Real.sqrt sample_curve 5)
          (offset_p0 Real.sqrt sample_curve 5) (offset_p3 Real.sqrt sample_curve 5))
          (offset_v0 sample_curve) (offset_v3 sample_curve)).1
        * (offset_v0 (sample_curve : CpmlPrimitive ℝ)).x
      + 1 / 2 * (offset_k (offset_pk (offset_pm Real.sqrt sample_curve 5)
          (offset_p0 Real.sqrt sample_curve 5) (offset_p3 Real.sqrt sample_curve 5))
          (offset_v0 sample_curve) (offset_v3 sample_curve)).2
        * (offset_v3 (sample_curve : CpmlPrimitive ℝ)).x
      = (offset_pk (offset_pm Real.sqrt sample_curve 5)
          (offset_p0 Real.sqrt sample_curve 5) (offset_p3 Real.sqrt sample_curve 5)).x :=
  ⟨sample_consistent, (offset_linear_system Real.sqrt sample_curve 5 sample_consistent).1.1⟩

/-- C10 fails in binary64 arithmetic on `rounding_curve`, whatever the
distance: `offset` computes `v0 = (-14, -5.6)` and `v3 = (10.5, 4.2)`; the
products `v0.x*v3.y` and `v3.x*v0.y` round to two different numbers
(`-58.800000000000004` and `-58.8`), so the condition of line 371 is false and
the linear system is solved; `v0.x` is not zero, so line 385 is run; there
`v3.x*v0.y / v0.x` rounds to `v3.y` itself, so `v3.y - v3.x*v0.y / v0.x` is
zero and `k3` is divided by `m * 0 = 0`. -/
theorem offset_zero_divisor_in_doubles :
    offset_v0_double rounding_curve = ⟨-14, -3152519739159347 / 562949953421312⟩ ∧
    offset_v3_double rounding_curve = ⟨21 / 2, 4728779608739021 / 1125899906842624⟩ ∧
    double_mul (offset_v0_double rounding_curve).x (offset_v3_double rounding_curve).y
      = -8275364315293287 / 140737488355328 ∧
    double_mul (offset_v3_double rounding_curve).x (offset_v0_double rounding_curve).y
      = -4137682157646643 / 70368744177664 ∧
    offset_inconsistent_double (offset_v0_double rounding_curve)
      (offset_v3_double rounding_curve) = false ∧
    (offset_v0_double rounding_curve).x ≠ 0 ∧
    double_sub (offset_v3_double rounding_curve).y
      (double_div
        (double_mul (offset_v3_double rounding_curve).x (offset_v0_double rounding_curve).y)
        (offset_v0_double rounding_curve).x) = 0 ∧
    offset_k3_divisor_double (offset_v0_double rounding_curve)
      (offset_v3_double rounding_curve) = 0 := by
  decide!

/-! ## Extents: auxiliary lemmas -/

theorem pair_add_of_undefined (extents : CpmlExtents K) (src : CpmlPair K)
    (h : extents.is_defined = false) :
    cpml_extents_pair_add extents src = ⟨true, src, ⟨0, 0⟩⟩ := by
  simp [cpml_extents_pair_add, h, cpml_pair_copy]

/-- One more point added to defined extents of non-negative size: the lower
corner is the minimum and the upper corner is the maximum. -/
theorem pair_add_of_defined (extents : CpmlExtents K) (src : CpmlPair K)
    (h : extents.is_defined = true) (hx : 0 ≤ extents.size.x) (hy : 0 ≤ extents.size.y) :
    (cpml_extents_pair_add extents src).is_defined = true ∧
    ((cpml_extents_pair_add extents src).org.x = min extents.org.x src.x ∧
     (cpml_extents_pair_add extents src).org.x + (cpml_extents_pair_add extents src).size.x
        = max (extents.org.x + extents.size.x) src.x ∧
     0 ≤ (cpml_extents_pair_add extents src).size.x) ∧
    ((cpml_extents_pair_add extents src).org.y = min extents.org.y src.y ∧
     (cpml_extents_pair_add extents src).org.y + (cpml_extents_pair_add extents src).size.y
        = max (extents.org.y + extents.size.y) src.y ∧
     0 ≤ (cpml_extents_pair_add extents src).size.y) := by
  have hd : ¬ extents.is_defined = false := by simp [h]
  simp only [cpml_extents_pair_add, if_neg hd]
  refine ⟨trivial, ⟨?_, ?_, ?_⟩, ⟨?_, ?_, ?_⟩⟩
  · split_ifs with h1 h2
    · exact (min_eq_right h1.le).symm
    · exact (min_eq_left (by linarith)).symm
    · exact (min_eq_left (not_lt.1 h1)).symm
  · split_ifs with h1 h2
    · dsimp only
      rw [max_eq_left (by linarith)]
      ring
    · dsimp only
      rw [max_eq_right h2.le]
      ring
    · dsimp only
      rw [max_eq_left (not_lt.1 h2)]
  · split_ifs with h1 h2
    · dsimp only
      linarith
    · dsimp only
      linarith
    · exact hx
  · split_ifs with h1 h2
    · exact (min_eq_right h1.le).symm
    · exact (min_eq_left (by linarith)).symm
    · exact (min_eq_left (not_lt.1 h1)).symm
  · split_ifs with h1 h2
    · dsimp only
      rw [max_eq_left (by linarith)]
      ring
    · dsimp only
      rw [max_eq_right h2.le]
      ring
    · dsimp only
      rw [max_eq_left (not_lt.1 h2)]
  · split_ifs with h1 h2
    · dsimp only
      linarith
    · dsimp only
      linarith
    · exact hy

/-- The extents stored by `put_extents`: corners at the componentwise minimum
and maximum of the four control points. -/
theorem put_extents_corners (curve : CpmlPrimitive K) (extents : CpmlExtents K) :
    (put_extents curve extents).is_defined = true ∧
    ((put_extents curve extents).org.x
        = min (min (min curve.org.x curve.data1.x) curve.data2.x) curve.data3.x ∧
     (put_extents curve extents).org.x + (put_extents curve extents).size.x
        = max (max (max curve.org.x curve.data1.x) curve.data2.x) curve.data3.x) ∧
    ((put_extents curve extents).org.y
        = min (min (min curve.org.y curve.data1.y) curve.data2.y) curve.data3.y ∧
     (put_extents curve extents).org.y + (put_extents curve extents).size.y
        = max (max (max curve.org.y curve.data1.y) curve.data2.y) curve.data3.y) := by
  have e1 := pair_add_of_undefined ({ extents with is_defined := false } : CpmlExtents K)
    (cpml_pair_from_cairo (cpml_primitive_get_point curve 0)) rfl
  have o1x := congrArg (fun e : CpmlExtents K => e.org.x) e1
  have o1y := congrArg (fun e : CpmlExtents K => e.org.y) e1
  have z1x := congrArg (fun e : CpmlExtents K => e.size.x) e1
  have z1y := congrArg (fun e : CpmlExtents K => e.size.y) e1
  have d1 := congrArg (fun e : CpmlExtents K => e.is_defined) e1
  dsimp only at o1x o1y z1x z1y d1
  obtain ⟨d2, ⟨x2, u2, s2⟩, ⟨y2, v2, t2⟩⟩ := pair_add_of_defined _
    (cpml_pair_from_cairo (cpml_primitive_get_point curve 1))
    d1 (le_of_eq z1x.symm) (le_of_eq z1y.symm)
  rw [o1x] at x2 u2
  rw [z1x] at u2
  rw [o1y] at y2 v2
  rw [z1y] at v2
  obtain ⟨d3, ⟨x3, u3, s3⟩, ⟨y3, v3, t3⟩⟩ := pair_add_of_defined _
    (cpml_pair_from_cairo (cpml_primitive_get_point curve 2)) d2 s2 t2
  rw [x2] at x3
  rw [u2] at u3
  rw [y2] at y3
  rw [v2] at v3
  obtain ⟨d4, ⟨x4, u4, _⟩, ⟨y4, v4, _⟩⟩ := pair_add_of_defined _
    (cpml_pair_from_cairo (cpml_primitive_get_point curve 3)) d3 s3 t3
  rw [x3] at x4
  rw [u3] at u4
  rw [y3] at y4
  rw [v3] at v4
  simp only [cpml_pair_from_cairo, cpml_primitive_get_point, add_zero] at x4 u4 y4 v4
  exact ⟨d4, ⟨x4, u4⟩, ⟨y4, v4⟩⟩

/-- A cubic in Bernstein form stays between the minimum and the maximum of its
four coefficients when the time is in `[0, 1]`. -/
theorem bernstein_between (a b c d t : K) (h0 : 0 ≤ t) (h1 : t ≤ 1) :
    min (min (min a b) c) d
      ≤ (1 - t) * (1 - t) * (1 - t) * a + 3 * ((1 - t) * (1 - t)) * t * b
        + 3 * (1 - t) * (t * t) * c + t * t * t * d ∧
    (1 - t) * (1 - t) * (1 - t) * a + 3 * ((1 - t) * (1 - t)) * t * b
        + 3 * (1 - t) * (t * t) * c + t * t * t * d
      ≤ max (max (max a b) c) d := by
  have hu : 0 ≤ 1 - t := by linarith
  have w0 : 0 ≤ (1 - t) * (1 - t) * (1 - t) := mul_nonneg (mul_nonneg hu hu) hu
  have w1 : 0 ≤ 3 * ((1 - t) * (1 - t)) * t :=
    mul_nonneg (mul_nonneg (by norm_num) (mul_nonneg hu hu)) h0
  have w2 : 0 ≤ 3 * (1 - t) * (t * t) :=
    mul_nonneg (mul_nonneg (by norm_num) hu) (mul_nonneg h0 h0)
  have w3 : 0 ≤ t * t * t := mul_nonneg (mul_nonneg h0 h0) h0
  constructor
  · have ha : min (min (min a b) c) d ≤ a :=
      (min_le_left _ _).trans ((min_le_left _ _).trans (min_le_left _ _))
    have hb : min (min (min a b) c) d ≤ b :=
      (min_le_left _ _).trans ((min_le_left _ _).trans (min_le_right _ _))
    have hc : min (min (min a b) c) d ≤ c := (min_le_left _ _).trans (min_le_right _ _)
    have hd : min (min (min a b) c) d ≤ d := min_le_right _ _
    generalize min (min (min a b) c) d = m at ha hb hc hd ⊢
    nlinarith [mul_nonneg w0 (sub_nonneg.2 ha), mul_nonneg w1 (sub_nonneg.2 hb),
      mul_nonneg w2 (sub_nonneg.2 hc), mul_nonneg w3 (sub_nonneg.2 hd)]
  · have ha : a ≤ max (max (max a b) c) d :=
      ((le_max_left _ _).trans (le_max_left _ _)).trans (le_max_left _ _)
    have hb : b ≤ max (max (max a b) c) d :=
      ((le_max_right _ _).trans (le_max_left _ _)).trans (le_max_left _ _)
    have hc : c ≤ max (max (max a b) c) d := (le_max_right _ _).trans (le_max_left _ _)
    have hd : d ≤ max (max (max a b) c) d := le_max_right _ _
    generalize max (max (max a b) c) d = m at ha hb hc hd ⊢
    nlinarith [mul_nonneg w0 (sub_nonneg.2 ha), mul_nonneg w1 (sub_nonneg.2 hb),
      mul_nonneg w2 (sub_nonneg.2 hc), mul_nonneg w3 (sub_nonneg.2 hd)]

/-! ## Extents: theorems -/

/-- C11: for every curve and whatever `extents` held before the call,
`put_extents` leaves defined extents that are the smallest axis-aligned box
holding the four control points: the origin is their componentwise minimum and
the size is their componentwise maximum minus that minimum. -/
theorem put_extents_control_box (curve : CpmlPrimitive K) (extents : CpmlExtents K) :
    (put_extents curve extents).is_defined = true ∧
    (put_extents curve extents).org =
      ⟨min (min (min curve.org.x curve.data1.x) curve.data2.x) curve.data3.x,
       min (min (min curve.org.y curve.data1.y) curve.data2.y) curve.data3.y⟩ ∧
    (put_extents curve extents).size =
      ⟨max (max (max curve.org.x curve.data1.x) curve.data2.x) curve.data3.x
          - min (min (min curve.org.x curve.data1.x) curve.data2.x) curve.data3.x,
       max (max (max curve.org.y curve.data1.y) curve.data2.y) curve.data3.y
          - min (min (min curve.org.y curve.data1.y) curve.data2.y) curve.data3.y⟩ := by
  obtain ⟨hd, ⟨hx, ux⟩, ⟨hy, uy⟩⟩ := put_extents_corners curve extents
  refine ⟨hd, ?_, ?_⟩
  · ext
    · exact hx
    · exact hy
  · ext
    · dsimp only
      rw [← hx, ← ux]
      ring
    · dsimp only
      rw [← hy, ← uy]
      ring

/-- C12: for every curve and every `t` in `[0, 1]`, the point returned by
`cpml_curve_put_pair_at_time` lies inside the box produced by `put_extents`:
between `org` and `org + size` in `x` and in `y`. -/
theorem pair_at_time_in_extents (curve : CpmlPrimitive K) (extents : CpmlExtents K) (t : K)
    (h0 : 0 ≤ t) (h1 : t ≤ 1) :
    (put_extents curve extents).is_defined = true ∧
    ((put_extents curve extents).org.x ≤ (cpml_curve_put_pair_at_time curve t).x ∧
     (cpml_curve_put_pair_at_time curve t).x
        ≤ (put_extents curve extents).org.x + (put_extents curve extents).size.x) ∧
    ((put_extents curve extents).org.y ≤ (cpml_curve_put_pair_at_time curve t).y ∧
     (cpml_curve_put_pair_at_time curve t).y
        ≤ (put_extents curve extents).org.y + (put_extents curve extents).size.y) := by
  obtain ⟨hd, ⟨hx, ux⟩, ⟨hy, uy⟩⟩ := put_extents_corners curve extents
  obtain ⟨bx1, bx2⟩ := bernstein_between curve.org.x curve.data1.x curve.data2.x
    curve.data3.x t h0 h1
  obtain ⟨by1, by2⟩ := bernstein_between curve.org.y curve.data1.y curve.data2.y
    curve.data3.y t h0 h1
  refine ⟨hd, ⟨?_, ?_⟩, ⟨?_, ?_⟩⟩
  · rw [hx]
    exact bx1
  · rw [ux]
    exact bx2
  · rw [hy]
    exact by1
  · rw [uy]
    exact by2

/-- C12 instantiated over the rationals on `sample_curve` at `t = 1/2`: the point
`(41/8, 3)` lies in the box of origin `(0, 0)` and size `(8, 4)`. -/
theorem pair_at_time_in_extents_witness :
    (0 : ℚ) ≤ 1 / 2 ∧ (1 / 2 : ℚ) ≤ 1 ∧
    (put_extents (sample_curve : CpmlPrimitive ℚ) ⟨false, ⟨0, 0⟩, ⟨0, 0⟩⟩).org.x
      ≤ (cpml_curve_put_pair_at_time (sample_curve : CpmlPrimitive ℚ) (1 / 2)).x ∧
    (cpml_curve_put_pair_at_time (sample_curve : CpmlPrimitive ℚ) (1 / 2)).x
      ≤ (put_extents (sample_curve : CpmlPrimitive ℚ) ⟨false, ⟨0, 0⟩, ⟨0, 0⟩⟩).org.x
        + (put_extents (sample_curve : CpmlPrimitive ℚ) ⟨false, ⟨0, 0⟩, ⟨0, 0⟩⟩).size.x :=
  have h := pair_at_time_in_extents (sample_curve : CpmlPrimitive ℚ) ⟨false, ⟨0, 0⟩, ⟨0, 0⟩⟩
    (1 / 2) (by norm_num) (by norm_num)
  ⟨by norm_num, by norm_num, h.2.1.1, h.2.1.2⟩

/-! ## Offset of a curve with a zero-length vector -/

theorem normal_of_zero : cpml_vector_normal (⟨0, 0⟩ : CpmlPair K) = ⟨0, 0⟩ := by
  simp [cpml_vector_normal]

/-- The definition `offset` is `offset_with` at the spec's model of
`cpml_vector_set_length`. -/
theorem offset_eq_offset_with (sqrt : K → K) (curve : CpmlPrimitive K) (d : K) :
    offset sqrt curve d = offset_with (cpml_vector_set_length sqrt) curve d :=
  rfl

/-- The start point returned by `offset_with`, in both branches. -/
theorem offset_with_org (set_length : CpmlPair K → K → CpmlPair K) (curve : CpmlPrimitive K)
    (d : K) :
    (offset_with set_length curve d).org =
      ⟨curve.org.x + (cpml_vector_normal (set_length (offset_v0 curve) d)).x,
       curve.org.y + (cpml_vector_normal (set_length (offset_v0 curve) d)).y⟩ := by
  by_cases h : (offset_v0 curve).x * (offset_v3 curve).y
      = (offset_v3 curve).x * (offset_v0 curve).y
  · exact congrArg CpmlPrimitive.org (if_pos h)
  · exact congrArg CpmlPrimitive.org (if_neg h)

/-- The end point returned by `offset_with`, in both branches. -/
theorem offset_with_data3 (set_length : CpmlPair K → K → CpmlPair K)
    (curve : CpmlPrimitive K) (d : K) :
    (offset_with set_length curve d).data3 =
      ⟨curve.data3.x + (cpml_vector_normal (set_length (offset_v3 curve) d)).x,
       curve.data3.y + (cpml_vector_normal (set_length (offset_v3 curve) d)).y⟩ := by
  by_cases h : (offset_v0 curve).x * (offset_v3 curve).y
      = (offset_v3 curve).x * (offset_v0 curve).y
  · exact congrArg CpmlPrimitive.data3 (if_pos h)
  · exact congrArg CpmlPrimitive.data3 (if_neg h)

/-- The first control point returned by the alternative approach of
`offset_with`. -/
theorem offset_with_data1 (set_length : CpmlPair K → K → CpmlPair K)
    (curve : CpmlPrimitive K) (d : K)
    (h : (offset_v0 curve).x * (offset_v3 curve).y
      = (offset_v3 curve).x * (offset_v0 curve).y) :
    (offset_with set_length curve d).data1 =
      ⟨(offset_with set_length curve d).org.x + (offset_v0 curve).x
          + (cpml_vector_normal
              (set_length (cpml_curve_put_vector_at_time curve offset_m) d)).x * 4 / 3,
       (offset_with set_length curve d).org.y + (offset_v0 curve).y
          + (cpml_vector_normal
              (set_length (cpml_curve_put_vector_at_time curve offset_m) d)).y * 4 / 3⟩ := by
  rw [offset_with_org]
  exact congrArg CpmlPrimitive.data1 (if_pos h)

/-- The second control point returned by the alternative approach of
`offset_with`. -/
theorem offset_with_data2 (set_length : CpmlPair K → K → CpmlPair K)
    (curve : CpmlPrimitive K) (d : K)
    (h : (offset_v0 curve).x * (offset_v3 curve).y
      = (offset_v3 curve).x * (offset_v0 curve).y) :
    (offset_with set_length curve d).data2 =
      ⟨(offset_with set_length curve d).data3.x - (offset_v3 curve).x
          + (cpml_vector_normal
              (set_length (cpml_curve_put_vector_at_time curve offset_m) d)).x * 4 / 3,
       (offset_with set_length curve d).data3.y - (offset_v3 curve).y
          + (cpml_vector_normal
              (set_length (cpml_curve_put_vector_at_time curve offset_m) d)).y * 4 / 3⟩ := by
  rw [offset_with_data3]
  exact congrArg CpmlPrimitive.data2 (if_pos h)

/-- The stand-in `set_length_or` agrees with `cpml_vector_set_length` on every
non-zero vector. -/
theorem set_length_or_of_ne (junk : CpmlPair K) (sqrt : K → K) (v : CpmlPair K) (l : K)
    (hv : v ≠ ⟨0, 0⟩) :
    set_length_or junk sqrt v l = cpml_vector_set_length sqrt v l := by
  have h : ¬ (v.x = 0 ∧ v.y = 0) := by
    rintro ⟨hx, hy⟩
    apply hv
    ext
    · exact hx
    · exact hy
  exact if_neg h

theorem degenerate_v0 : offset_v0 (degenerate_curve : CpmlPrimitive K) = ⟨0, 0⟩ := by
  simp [offset_v0, degenerate_curve, cpml_pair_from_cairo]

theorem degenerate_v3 : offset_v3 (degenerate_curve : CpmlPrimitive K) = ⟨1, 0⟩ := by
  simp only [offset_v3, degenerate_curve, cpml_pair_from_cairo, CpmlPair.mk.injEq]
  constructor <;> norm_num

/-- The control points `P2'` and `P3'` that `offset_with` returns on
`degenerate_curve`, whatever `set_length` leaves in a zero-length vector. -/
theorem offset_with_degenerate {sqrt : K → K} (hs : IsSqrt sqrt)
    (set_length : CpmlPair K → K → CpmlPair K)
    (hl : ∀ (v : CpmlPair K) (l : K), v ≠ ⟨0, 0⟩ →
      set_length v l = cpml_vector_set_length sqrt v l) (d : K) :
    (offset_with set_length degenerate_curve d).data2 = ⟨9, 7 * d / 3⟩ ∧
    (offset_with set_length degenerate_curve d).data3 = ⟨10, d⟩ := by
  have hvec : cpml_curve_put_vector_at_time (degenerate_curve : CpmlPrimitive K) offset_m
      = ⟨57 / 4, 0⟩ := by
    simp only [cpml_curve_put_vector_at_time, cpml_primitive_get_point, degenerate_curve,
      offset_m, CpmlPair.mk.injEq]
    constructor <;> norm_num
  have hc : (offset_v0 (degenerate_curve : CpmlPrimitive K)).x
        * (offset_v3 (degenerate_curve : CpmlPrimitive K)).y
      = (offset_v3 (degenerate_curve : CpmlPrimitive K)).x
        * (offset_v0 (degenerate_curve : CpmlPrimitive K)).y := by
    rw [degenerate_v0, degenerate_v3]
    ring
  have h3 : (offset_with set_length (degenerate_curve : CpmlPrimitive K) d).data3
      = ⟨10, d⟩ := by
    rw [offset_with_data3, degenerate_v3,
      hl ⟨1, 0⟩ d (pair_ne_zero_of_x one_ne_zero),
      set_length_of_horizontal hs 1 d one_pos]
    simp [degenerate_curve, cpml_vector_normal]
  refine ⟨?_, h3⟩
  rw [offset_with_data2 set_length _ d hc, h3, degenerate_v3, hvec,
    hl ⟨57 / 4, 0⟩ d (pair_ne_zero_of_x (by norm_num)),
    set_length_of_horizontal hs (57 / 4) d (by norm_num)]
  simp only [cpml_vector_normal, CpmlPair.mk.injEq]
  constructor <;> ring

/-- C13 as stated fails on `degenerate_curve` (`P1 = P0`, so the vector `v0`
that `offset` brings to length `d` has zero length) with `d = 1` over the reals:
`offset` returns the offset control points `P2' = (9, 7/3)` and `P3' = (10, 1)`,
with the spec's model of `cpml_vector_set_length` and with every helper that
agrees with it on the non-zero vectors, whatever that helper leaves in the
zero-length vector. -/
theorem offset_degenerate_returns_offset_points :
    (degenerate_curve : CpmlPrimitive ℝ).data1 = (degenerate_curve : CpmlPrimitive ℝ).org ∧
    (offset Real.sqrt degenerate_curve 1).data2 = ⟨9, 7 / 3⟩ ∧
    (offset Real.sqrt degenerate_curve 1).data3 = ⟨10, 1⟩ ∧
    ∀ set_length : CpmlPair ℝ → ℝ → CpmlPair ℝ,
      (∀ (v : CpmlPair ℝ) (l : ℝ), v ≠ ⟨0, 0⟩ →
        set_length v l = cpml_vector_set_length Real.sqrt v l) →
      (offset_with set_length degenerate_curve 1).data2 = ⟨9, 7 / 3⟩ ∧
      (offset_with set_length degenerate_curve 1).data3 = ⟨10, 1⟩ := by
  have key : ∀ set_length : CpmlPair ℝ → ℝ → CpmlPair ℝ,
      (∀ (v : CpmlPair ℝ) (l : ℝ), v ≠ ⟨0, 0⟩ →
        set_length v l = cpml_vector_set_length Real.sqrt v l) →
      (offset_with set_length degenerate_curve 1).data2 = ⟨9, 7 / 3⟩ ∧
      (offset_with set_length degenerate_curve 1).data3 = ⟨10, 1⟩ := by
    intro set_length hl
    have h := offset_with_degenerate isSqrt_real set_length hl 1
    rw [mul_one] at h
    exact h
  have hm := key (cpml_vector_set_length Real.sqrt) (fun _ _ _ => rfl)
  rw [← offset_eq_offset_with] at hm
  exact ⟨rfl, hm.1, hm.2, key⟩

/-- C13 (amended): on a curve with a zero-length vector `offset` still returns
offset control points, for every helper `set_length` that scales the non-zero
vectors as `cpml_vector_set_length` does and leaves anything in a zero-length
one.  When `P1 = P0` and `P3 ≠ P2` the alternative approach is taken,
`P3' = P3 + normal (unit v3) * d` and `P2' = P3' - v3 + vm * 4/3`; when
`P3 = P2` and `P1 ≠ P0` the alternative approach is taken,
`P0' = P0 + normal (unit v0) * d` and `P1' = P0' + v0 + vm * 4/3`; when the
slope at `t = 0.5` is the zero vector and `v0`, `v3` are not,
`P0' = P0 + normal (unit v0) * d` and `P3' = P3 + normal (unit v3) * d`.  Here
`vm` is the normal of what `set_length` makes of the slope at `t = 0.5`, and
`offset` is `offset_with` at the spec's model of the helper. -/
theorem offset_with_zero_length_vector (sqrt : K → K) (hs : IsSqrt sqrt)
    (set_length : CpmlPair K → K → CpmlPair K)
    (hl : ∀ (v : CpmlPair K) (l : K), v ≠ ⟨0, 0⟩ →
      set_length v l = cpml_vector_set_length sqrt v l)
    (curve : CpmlPrimitive K) (d : K) :
    (offset_v0 curve = ⟨0, 0⟩ → offset_v3 curve ≠ ⟨0, 0⟩ →
      (offset_with set_length curve d).data3 =
        ⟨curve.data3.x + -((offset_v3 curve).y
            / sqrt ((offset_v3 curve).x * (offset_v3 curve).x
                + (offset_v3 curve).y * (offset_v3 curve).y)) * d,
         curve.data3.y + (offset_v3 curve).x
            / sqrt ((offset_v3 curve).x * (offset_v3 curve).x
                + (offset_v3 curve).y * (offset_v3 curve).y) * d⟩ ∧
      (offset_with set_length curve d).data2 =
        ⟨(offset_with set_length curve d).data3.x - (offset_v3 curve).x
            + (cpml_vector_normal
                (set_length (cpml_curve_put_vector_at_time curve (1 / 2)) d)).x * 4 / 3,
         (offset_with set_length curve d).data3.y - (offset_v3 curve).y
            + (cpml_vector_normal
                (set_length (cpml_curve_put_vector_at_time curve (1 / 2)) d)).y * 4 / 3⟩) ∧
    (offset_v3 curve = ⟨0, 0⟩ → offset_v0 curve ≠ ⟨0, 0⟩ →
      (offset_with set_length curve d).org =
        ⟨curve.org.x + -((offset_v0 curve).y
            / sqrt ((offset_v0 curve).x * (offset_v0 curve).x
                + (offset_v0 curve).y * (offset_v0 curve).y)) * d,
         curve.org.y + (offset_v0 curve).x
            / sqrt ((offset_v0 curve).x * (offset_v0 curve).x
                + (offset_v0 curve).y * (offset_v0 curve).y) * d⟩ ∧
      (offset_with set_length curve d).data1 =
        ⟨(offset_with set_length curve d).org.x + (offset_v0 curve).x
            + (cpml_vector_normal
                (set_length (cpml_curve_put_vector_at_time curve (1 / 2)) d)).x * 4 / 3,
         (offset_with set_length curve d).org.y + (offset_v0 curve).y
            + (cpml_vector_normal
                (set_length (cpml_curve_put_vector_at_time curve (1 / 2)) d)).y * 4 / 3⟩) ∧
    (cpml_curve_put_vector_at_time curve (1 / 2) = ⟨0, 0⟩ →
      offset_v0 curve ≠ ⟨0, 0⟩ → offset_v3 curve ≠ ⟨0, 0⟩ →
      (offset_with set_length curve d).org =
        ⟨curve.org.x + -((offset_v0 curve).y
            / sqrt ((offset_v0 curve).x * (offset_v0 curve).x
                + (offset_v0 curve).y * (offset_v0 curve).y)) * d,
         curve.org.y + (offset_v0 curve).x
            / sqrt ((offset_v0 curve).x * (offset_v0 curve).x
                + (offset_v0 curve).y * (offset_v0 curve).y) * d⟩ ∧
      (offset_with set_length curve d).data3 =
        ⟨curve.data3.x + -((offset_v3 curve).y
            / sqrt ((offset_v3 curve).x * (offset_v3 curve).x
                + (offset_v3 curve).y * (offset_v3 curve).y)) * d,
         curve.data3.y + (offset_v3 curve).x
            / sqrt ((offset_v3 curve).x * (offset_v3 curve).x
                + (offset_v3 curve).y * (offset_v3 curve).y) * d⟩) ∧
    offset sqrt curve d = offset_with (cpml_vector_set_length sqrt) curve d := by
  have e : (offset_m : K) = 1 / 2 := rfl
  have org_eq : offset_v0 curve ≠ ⟨0, 0⟩ →
      (offset_with set_length curve d).org =
        ⟨curve.org.x + -((offset_v0 curve).y
            / sqrt ((offset_v0 curve).x * (offset_v0 curve).x
                + (offset_v0 curve).y * (offset_v0 curve).y)) * d,
         curve.org.y + (offset_v0 curve).x
            / sqrt ((offset_v0 curve).x * (offset_v0 curve).x
                + (offset_v0 curve).y * (offset_v0 curve).y) * d⟩ := by
    intro h0
    rw [offset_with_org, hl _ d h0, (normal_set_length hs (offset_v0 curve) d h0).1]
  have data3_eq : offset_v3 curve ≠ ⟨0, 0⟩ →
      (offset_with set_length curve d).data3 =
        ⟨curve.data3.x + -((offset_v3 curve).y
            / sqrt ((offset_v3 curve).x * (offset_v3 curve).x
                + (offset_v3 curve).y * (offset_v3 curve).y)) * d,
         curve.data3.y + (offset_v3 curve).x
            / sqrt ((offset_v3 curve).x * (offset_v3 curve).x
                + (offset_v3 curve).y * (offset_v3 curve).y) * d⟩ := by
    intro h3
    rw [offset_with_data3, hl _ d h3, (normal_set_length hs (offset_v3 curve) d h3).1]
  refine ⟨?_, ?_, ?_, rfl⟩
  · intro h0 h3
    have hc : (offset_v0 curve).x * (offset_v3 curve).y
        = (offset_v3 curve).x * (offset_v0 curve).y := by
      rw [h0]
      ring
    refine ⟨data3_eq h3, ?_⟩
    rw [← e]
    exact offset_with_data2 set_length curve d hc
  · intro h3 h0
    have hc : (offset_v0 curve).x * (offset_v3 curve).y
        = (offset_v3 curve).x * (offset_v0 curve).y := by
      rw [h3]
      ring
    refine ⟨org_eq h0, ?_⟩
    rw [← e]
    exact offset_with_data1 set_length curve d hc
  · intro _ h0 h3
    exact ⟨org_eq h0, data3_eq h3⟩

/-- C13 (amended) instantiated over the reals with `d = 1` and a helper that
leaves `(7, -3)` in a zero-length vector: on `degenerate_curve` (`v0` is zero)
the end point moves from `(10, 0)` to `(10, 1)`; on `degenerate_end_curve`
(`v3` is zero) the start point moves from `(0, 0)` to `(0, 1)`; on `cusp_curve`
(the slope at `t = 0.5` is zero) the end points move from `(0, 0)` to `(0, 1)`
and from `(1, 1)` to `(0, 1)`. -/
theorem offset_with_zero_length_vector_witness :
    (offset_v0 (degenerate_curve : CpmlPrimitive ℝ) = ⟨0, 0⟩ ∧
      (offset_with (set_length_or ⟨7, -3⟩ Real.sqrt) degenerate_curve 1).data3 = ⟨10, 1⟩) ∧
    (offset_v3 (degenerate_end_curve : CpmlPrimitive ℝ) = ⟨0, 0⟩ ∧
      (offset_with (set_length_or ⟨7, -3⟩ Real.sqrt) degenerate_end_curve 1).org = ⟨0, 1⟩) ∧
    (cpml_curve_put_vector_at_time (cusp_curve : CpmlPrimitive ℝ) (1 / 2) = ⟨0, 0⟩ ∧
      (offset_with (set_length_or ⟨7, -3⟩ Real.sqrt) cusp_curve 1).org = ⟨0, 1⟩ ∧
      (offset_with (set_length_or ⟨7, -3⟩ Real.sqrt) cusp_curve 1).data3 = ⟨0, 1⟩) := by
  have s1 : Real.sqrt (1 * 1 + 0 * 0) = 1 := by
    rw [show (1 * 1 + 0 * 0 : ℝ) = 1 * 1 by norm_num]
    exact Real.sqrt_mul_self (by norm_num)
  have s2 : Real.sqrt (2 * 2 + 0 * 0) = 2 := by
    rw [show (2 * 2 + 0 * 0 : ℝ) = 2 * 2 by norm_num]
    exact Real.sqrt_mul_self (by norm_num)
  have s3 : Real.sqrt (0 * 0 + 2 * 2) = 2 := by
    rw [show (0 * 0 + 2 * 2 : ℝ) = 2 * 2 by norm_num]
    exact Real.sqrt_mul_self (by norm_num)
  have a3 : offset_v3 (degenerate_curve : CpmlPrimitive ℝ) ≠ ⟨0, 0⟩ := by
    rw [degenerate_v3]
    exact pair_ne_zero_of_x one_ne_zero
  have b0e : offset_v0 (degenerate_end_curve : CpmlPrimitive ℝ) = ⟨1, 0⟩ := by
    simp only [offset_v0, degenerate_end_curve, cpml_pair_from_cairo, CpmlPair.mk.injEq]
    constructor <;> norm_num
  have b0 : offset_v0 (degenerate_end_curve : CpmlPrimitive ℝ) ≠ ⟨0, 0⟩ := by
    rw [b0e]
    exact pair_ne_zero_of_x one_ne_zero
  have b3 : offset_v3 (degenerate_end_curve : CpmlPrimitive ℝ) = ⟨0, 0⟩ := by
    simp [offset_v3, degenerate_end_curve, cpml_pair_from_cairo]
  have c0e : offset_v0 (cusp_curve : CpmlPrimitive ℝ) = ⟨2, 0⟩ := by
    simp only [offset_v0, cusp_curve, cpml_pair_from_cairo, CpmlPair.mk.injEq]
    constructor <;> norm_num
  have c3e : offset_v3 (cusp_curve : CpmlPrimitive ℝ) = ⟨0, 2⟩ := by
    simp only [offset_v3, cusp_curve, cpml_pair_from_cairo, CpmlPair.mk.injEq]
    constructor <;> norm_num
  have c0 : offset_v0 (cusp_curve : CpmlPrimitive ℝ) ≠ ⟨0, 0⟩ := by
    rw [c0e]
    exact pair_ne_zero_of_x two_ne_zero
  have c3 : offset_v3 (cusp_curve : CpmlPrimitive ℝ) ≠ ⟨0, 0⟩ := by
    rw [c3e]
    exact pair_ne_zero_of_y two_ne_zero
  have cm : cpml_curve_put_vector_at_time (cusp_curve : CpmlPrimitive ℝ) (1 / 2) = ⟨0, 0⟩ := by
    simp only [cpml_curve_put_vector_at_time, cpml_primitive_get_point, cusp_curve,
      CpmlPair.mk.injEq]
    constructor <;> norm_num
  have ha := ((offset_with_zero_length_vector Real.sqrt isSqrt_real
    (set_length_or ⟨7, -3⟩ Real.sqrt) (set_length_or_of_ne ⟨7, -3⟩ Real.sqrt)
    (degenerate_curve : CpmlPrimitive ℝ) 1).1 degenerate_v0 a3).1
  have hb := ((offset_with_zero_length_vector Real.sqrt isSqrt_real
    (set_length_or ⟨7, -3⟩ Real.sqrt) (set_length_or_of_ne ⟨7, -3⟩ Real.sqrt)
    (degenerate_end_curve : CpmlPrimitive ℝ) 1).2.1 b3 b0).1
  have hc := (offset_with_zero_length_vector Real.sqrt isSqrt_real
    (set_length_or ⟨7, -3⟩ Real.sqrt) (set_length_or_of_ne ⟨7, -3⟩ Real.sqrt)
    (cusp_curve : CpmlPrimitive ℝ) 1).2.2.1 cm c0 c3
  rw [degenerate_v3, s1] at ha
  rw [b0e, s1] at hb
  rw [c0e, c3e, s2, s3] at hc
  refine ⟨⟨degenerate_v0, ?_⟩, ⟨b3, ?_⟩, ⟨cm, ?_, ?_⟩⟩
  · rw [ha]
    simp only [degenerate_curve, CpmlPair.mk.injEq]
    constructor <;> norm_num
  · rw [hb]
    simp only [degenerate_end_curve, CpmlPair.mk.injEq]
    constructor <;> norm_num
  · rw [hc.1]
    simp only [cusp_curve, CpmlPair.mk.injEq]
    constructor <;> norm_num
  · rw [hc.2]
    simp only [cusp_curve, CpmlPair.mk.injEq]
    constructor <;> norm_num

/-! ## Offset by zero -/

theorem set_length_zero (sqrt : K → K) (v : CpmlPair K) :
    cpml_vector_set_length sqrt v 0 = ⟨0, 0⟩ := by
  simp [cpml_vector_set_length]

theorem offset_vm_zero (sqrt : K → K) (curve : CpmlPrimitive K) :
    offset_vm sqrt curve 0 = ⟨0, 0⟩ := by
  simp only [offset_vm, set_length_zero, normal_of_zero]

theorem offset_p0_zero (sqrt : K → K) (curve : CpmlPrimitive K) :
    offset_p0 sqrt curve 0 = curve.org := by
  simp only [offset_p0, set_length_zero, normal_of_zero, cpml_pair_from_cairo, add_zero]

theorem offset_p3_zero (sqrt : K → K) (curve : CpmlPrimitive K) :
    offset_p3 sqrt curve 0 = curve.data3 := by
  simp only [offset_p3, set_length_zero, normal_of_zero, cpml_pair_from_cairo, add_zero]

theorem offset_pm_zero (sqrt : K → K) (curve : CpmlPrimitive K) :
    offset_pm sqrt curve 0 = cpml_curve_put_pair_at_time curve offset_m := by
  simp only [offset_pm, offset_vm_zero, add_zero]

/-- The value of `pk` when the distance is zero: half of `v0 - v3`. -/
theorem offset_pk_zero (sqrt : K → K) (curve : CpmlPrimitive K) :
    offset_pk (offset_pm sqrt curve 0) (offset_p0 sqrt curve 0) (offset_p3 sqrt curve 0) =
      ⟨((offset_v0 curve).x - (offset_v3 curve).x) / 2,
       ((offset_v0 curve).y - (offset_v3 curve).y) / 2⟩ := by
  rw [offset_pm_zero, offset_p0_zero, offset_p3_zero]
  simp only [offset_pk, offset_m, offset_mm, cpml_curve_put_pair_at_time,
    cpml_primitive_get_point, offset_v0, offset_v3, cpml_pair_from_cairo, CpmlPair.mk.injEq]
  constructor <;> field_simp <;> ring

/-- The scalars `k0` and `k3` when the distance is zero and the equations are
consistent. -/
theorem offset_k_zero (sqrt : K → K) (curve : CpmlPrimitive K)
    (h : (offset_v0 curve).x * (offset_v3 curve).y
      ≠ (offset_v3 curve).x * (offset_v0 curve).y) :
    offset_k (offset_pk (offset_pm sqrt curve 0) (offset_p0 sqrt curve 0)
        (offset_p3 sqrt curve 0)) (offset_v0 curve) (offset_v3 curve) = (1, -1) := by
  obtain ⟨hx, hy⟩ := offset_k_solves
    (offset_pk (offset_pm sqrt curve 0) (offset_p0 sqrt curve 0) (offset_p3 sqrt curve 0))
    (offset_v0 curve) (offset_v3 curve) h
  rw [offset_pk_zero] at hx hy ⊢
  generalize offset_v0 curve = v0 at h hx hy ⊢
  generalize offset_v3 curve = v3 at h hx hy ⊢
  generalize offset_k ⟨(v0.x - v3.x) / 2, (v0.y - v3.y) / 2⟩ v0 v3 = k at hx hy ⊢
  simp only [offset_m, offset_mm] at hx hy
  have hc : v0.x * v3.y - v3.x * v0.y ≠ 0 := sub_ne_zero.2 h
  have h0 : (k.1 - 1) * (v0.x * v3.y - v3.x * v0.y) = 0 := by
    linear_combination 2 * v3.y * hx - 2 * v3.x * hy
  have h3 : (k.2 + 1) * (v0.x * v3.y - v3.x * v0.y) = 0 := by
    linear_combination 2 * v0.x * hy - 2 * v0.y * hx
  have e0 : k.1 = 1 := by
    rcases mul_eq_zero.1 h0 with e | e
    · linarith
    · exact absurd e hc
  have e3 : k.2 = -1 := by
    rcases mul_eq_zero.1 h3 with e | e
    · linarith
    · exact absurd e hc
  exact Prod.ext e0 e3

/-- The curve returned by `offset` when the distance is zero. -/
theorem offset_zero_eq (sqrt : K → K) (curve : CpmlPrimitive K) :
    offset sqrt curve 0 = curve := by
  by_cases h : (offset_v0 curve).x * (offset_v3 curve).y
      = (offset_v3 curve).x * (offset_v0 curve).y
  · rw [offset_of_inconsistent sqrt curve 0 h, offset_vm_zero, offset_p0_zero, offset_p3_zero]
    simp only [offset_v0, offset_v3, cpml_pair_from_cairo]
    ext <;> dsimp only <;> ring
  · rw [offset_of_consistent sqrt curve 0 h, offset_k_zero sqrt curve h, offset_p0_zero,
      offset_p3_zero]
    simp only [offset_v0, offset_v3, cpml_pair_from_cairo]
    ext <;> dsimp only <;> ring

/-- C23 as stated fails on `sample_curve` with `d = 0` over the reals: `v0`,
`v3` and the slope at `t = 0.5` are non-zero, the linear system is solved, and
the scalar `k3` it computes is `-1`, not `1`. -/
theorem offset_by_zero_k3_is_minus_one :
    offset_v0 (sample_curve : CpmlPrimitive ℝ) ≠ ⟨0, 0⟩ ∧
    offset_v3 (sample_curve : CpmlPrimitive ℝ) ≠ ⟨0, 0⟩ ∧
    cpml_curve_put_vector_at_time (sample_curve : CpmlPrimitive ℝ) (1 / 2) ≠ ⟨0, 0⟩ ∧
    (offset_v0 (sample_curve : CpmlPrimitive ℝ)).x * (offset_v3 (sample_curve : CpmlPrimitive ℝ)).y
      ≠ (offset_v3 (sample_curve : CpmlPrimitive ℝ)).x
        * (offset_v0 (sample_curve : CpmlPrimitive ℝ)).y ∧
    (offset_k (offset_pk (offset_pm Real.sqrt sample_curve 0)
        (offset_p0 Real.sqrt sample_curve 0) (offset_p3 Real.sqrt sample_curve 0))
        (offset_v0 (sample_curve : CpmlPrimitive ℝ)) (offset_v3 sample_curve)).2 = -1 ∧
    (offset_k (offset_pk (offset_pm Real.sqrt sample_curve 0)
        (offset_p0 Real.sqrt sample_curve 0) (offset_p3 Real.sqrt sample_curve 0))
        (offset_v0 (sample_curve : CpmlPrimitive ℝ)) (offset_v3 sample_curve)).2 ≠ 1 := by
  have h0 : offset_v0 (sample_curve : CpmlPrimitive ℝ) ≠ ⟨0, 0⟩ := by
    rw [sample_v0]
    exact pair_ne_zero_of_x (by norm_num)
  have h3 : offset_v3 (sample_curve : CpmlPrimitive ℝ) ≠ ⟨0, 0⟩ := by
    rw [sample_v3]
    exact pair_ne_zero_of_y (by norm_num)
  have hm : cpml_curve_put_vector_at_time (sample_curve : CpmlPrimitive ℝ) (1 / 2)
      ≠ ⟨0, 0⟩ := by
    rw [sample_vector_at_m]
    exact pair_ne_zero_of_x (by norm_num)
  refine ⟨h0, h3, hm, sample_consistent, ?_, ?_⟩
  · rw [offset_k_zero Real.sqrt sample_curve sample_consistent]
  · rw [offset_k_zero Real.sqrt sample_curve sample_consistent]
    norm_num

/-- C23 (amended): offsetting by zero is the identity: for every curve, `offset`
with `d = 0` returns the original control points `P0`, `P1`, `P2`, `P3`, in the
alternative approach and in the linear-system branch alike; in the latter
(`v0.x*v3.y != v3.x*v0.y`) the scalars are `k0 = 1` and `k3 = -1`. -/
theorem offset_by_zero (sqrt : K → K) (curve : CpmlPrimitive K) :
    offset sqrt curve 0 = curve ∧
    ((offset_v0 curve).x * (offset_v3 curve).y = (offset_v3 curve).x * (offset_v0 curve).y →
      (offset sqrt curve 0).data1 =
        ⟨(offset sqrt curve 0).org.x + (offset_v0 curve).x
            + 4 / 3 * (offset_vm sqrt curve 0).x,
         (offset sqrt curve 0).org.y + (offset_v0 curve).y
            + 4 / 3 * (offset_vm sqrt curve 0).y⟩ ∧
      offset_vm sqrt curve 0 = ⟨0, 0⟩) ∧
    ((offset_v0 curve).x * (offset_v3 curve).y ≠ (offset_v3 curve).x * (offset_v0 curve).y →
      offset_k (offset_pk (offset_pm sqrt curve 0) (offset_p0 sqrt curve 0)
        (offset_p3 sqrt curve 0)) (offset_v0 curve) (offset_v3 curve) = (1, -1)) := by
  refine ⟨offset_zero_eq sqrt curve, ?_, offset_k_zero sqrt curve⟩
  intro h
  refine ⟨?_, offset_vm_zero sqrt curve⟩
  rw [offset_of_inconsistent sqrt curve 0 h]
  ext <;> dsimp only <;> ring

/-- C23 (amended) instantiated over the reals: on the curve of scenario 4 the
alternative approach is taken, on `sample_curve` the linear system is solved
with `k0 = 1` and `k3 = -1`, and both curves come back unchanged. -/
theorem offset_by_zero_witness :
    ((offset_v0 (scenario4_curve : CpmlPrimitive ℝ)).x
        * (offset_v3 (scenario4_curve : CpmlPrimitive ℝ)).y
      = (offset_v3 (scenario4_curve : CpmlPrimitive ℝ)).x
        * (offset_v0 (scenario4_curve : CpmlPrimitive ℝ)).y ∧
     offset Real.sqrt scenario4_curve 0 = ⟨⟨0, 0⟩, ⟨1, 0⟩, ⟨9, 0⟩, ⟨10, 0⟩⟩ ∧
     offset_vm Real.sqrt scenario4_curve 0 = ⟨0, 0⟩) ∧
    ((offset_v0 (sample_curve : CpmlPrimitive ℝ)).x * (offset_v3 (sample_curve : CpmlPrimitive ℝ)).y
      ≠ (offset_v3 (sample_curve : CpmlPrimitive ℝ)).x
        * (offset_v0 (sample_curve : CpmlPrimitive ℝ)).y ∧
     offset Real.sqrt sample_curve 0 = ⟨⟨0, 0⟩, ⟨3, 4⟩, ⟨8, 4⟩, ⟨8, 0⟩⟩ ∧
     offset_k (offset_pk (offset_pm Real.sqrt sample_curve 0)
        (offset_p0 Real.sqrt sample_curve 0) (offset_p3 Real.sqrt sample_curve 0))
        (offset_v0 (sample_curve : CpmlPrimitive ℝ)) (offset_v3 sample_curve) = (1, -1)) := by
  have hc : (offset_v0 (scenario4_curve : CpmlPrimitive ℝ)).x
        * (offset_v3 (scenario4_curve : CpmlPrimitive ℝ)).y
      = (offset_v3 (scenario4_curve : CpmlPrimitive ℝ)).x
        * (offset_v0 (scenario4_curve : CpmlPrimitive ℝ)).y := by
    rw [scenario4_v0, scenario4_v3]
  have h4 := offset_by_zero Real.sqrt (scenario4_curve : CpmlPrimitive ℝ)
  have hs := offset_by_zero Real.sqrt (sample_curve : CpmlPrimitive ℝ)
  exact ⟨⟨hc, h4.1, (h4.2.1 hc).2⟩, ⟨sample_consistent, hs.1, hs.2.2 sample_consistent⟩⟩

end Cpml

namespace Adg

open Cpml

variable {K : Type} [LinearOrderedField K]

/-! ## Widget: auxiliary lemmas -/

theorem invert_of_det_ne_zero (map : AdgMatrix K) (hdet : map.xx * map.yy - map.yx * map.xy ≠ 0) :
    cairo_matrix_invert map =
      some ⟨map.yy * (1 / (map.xx * map.yy - map.yx * map.xy)),
        -map.yx * (1 / (map.xx * map.yy - map.yx * map.xy)),
        -map.xy * (1 / (map.xx * map.yy - map.yx * map.xy)),
        map.xx * (1 / (map.xx * map.yy - map.yx * map.xy)),
        (map.xy * map.y0 - map.yy * map.x0) * (1 / (map.xx * map.yy - map.yx * map.xy)),
        (map.yx * map.x0 - map.xx * map.y0) * (1 / (map.xx * map.yy - map.yx * map.xy))⟩ := by
  simp only [cairo_matrix_invert, if_neg hdet]

/-- The scale and the translation of `scroll_event`, with the pointer brought
back through the inverted map, zoom the map around the pointer. -/
theorem scale_translate_eq_zoomed (map inverted : AdgMatrix K) (factor ex ey : K)
    (hinv : cairo_matrix_invert map = some inverted) (hf : factor ≠ 0) :
    cairo_matrix_translate (cairo_matrix_scale map factor factor)
        ((cairo_matrix_transform_point inverted ex ey).1 / factor
          - (cairo_matrix_transform_point inverted ex ey).1)
        ((cairo_matrix_transform_point inverted ex ey).2 / factor
          - (cairo_matrix_transform_point inverted ex ey).2)
      = zoomed map factor ex ey := by
  by_cases hdet : map.xx * map.yy - map.yx * map.xy = 0
  · simp [cairo_matrix_invert, hdet] at hinv
  · rw [invert_of_det_ne_zero map hdet] at hinv
    have hinv := (Option.some.inj hinv).symm
    subst hinv
    simp only [cairo_matrix_translate, cairo_matrix_scale, cairo_matrix_multiply,
      cairo_matrix_transform_point, zoomed]
    ext <;> dsimp only <;> field_simp <;> ring

theorem zoomed_det (map : AdgMatrix K) (factor ex ey : K) :
    (zoomed map factor ex ey).xx * (zoomed map factor ex ey).yy
      - (zoomed map factor ex ey).yx * (zoomed map factor ex ey).xy
      = factor * factor * (map.xx * map.yy - map.yx * map.xy) := by
  simp only [zoomed]
  ring

theorem zoomed_zoomed (map : AdgMatrix K) (factor ex ey : K) (hf : factor ≠ 0) :
    zoomed (zoomed map factor ex ey) (1 / factor) ex ey = map := by
  simp only [zoomed]
  ext <;> dsimp only <;> field_simp <;> ring

/-- What `scroll_event` does for a wheel rotation on a widget whose canvas has
an invertible local map. -/
theorem scroll_event_eq (widget : AdgWidgetPrivate K) (canvas : AdgCanvas K)
    (event : GdkEventScroll K) (hc : widget.canvas = some canvas)
    (hdir : event.direction = .GDK_SCROLL_UP ∨ event.direction = .GDK_SCROLL_DOWN)
    (hdet : canvas.entity.local_map.xx * canvas.entity.local_map.yy
      - canvas.entity.local_map.yx * canvas.entity.local_map.xy ≠ 0)
    (hf : widget.factor ≠ 0) :
    scroll_event widget event =
      { widget with
        canvas := some { canvas with
          entity := { canvas.entity with
            local_map := zoomed canvas.entity.local_map
              (if event.direction = .GDK_SCROLL_UP then widget.factor else 1 / widget.factor)
              event.x event.y } } } := by
  have hg : (if event.direction = .GDK_SCROLL_UP then widget.factor else 1 / widget.factor)
      ≠ 0 := by
    split_ifs
    · exact hf
    · exact one_div_ne_zero hf
  have hinv := invert_of_det_ne_zero canvas.entity.local_map hdet
  have hz := scale_translate_eq_zoomed canvas.entity.local_map _ _ event.x event.y hinv hg
  have hget : get_local_map widget = some (canvas.entity.local_map,
      ⟨canvas.entity.local_map.yy * (1 / (canvas.entity.local_map.xx
            * canvas.entity.local_map.yy
          - canvas.entity.local_map.yx * canvas.entity.local_map.xy)),
        -canvas.entity.local_map.yx * (1 / (canvas.entity.local_map.xx
            * canvas.entity.local_map.yy
          - canvas.entity.local_map.yx * canvas.entity.local_map.xy)),
        -canvas.entity.local_map.xy * (1 / (canvas.entity.local_map.xx
            * canvas.entity.local_map.yy
          - canvas.entity.local_map.yx * canvas.entity.local_map.xy)),
        canvas.entity.local_map.xx * (1 / (canvas.entity.local_map.xx
            * canvas.entity.local_map.yy
          - canvas.entity.local_map.yx * canvas.entity.local_map.xy)),
        (canvas.entity.local_map.xy * canvas.entity.local_map.y0
            - canvas.entity.local_map.yy * canvas.entity.local_map.x0)
          * (1 / (canvas.entity.local_map.xx * canvas.entity.local_map.yy
          - canvas.entity.local_map.yx * canvas.entity.local_map.xy)),
        (canvas.entity.local_map.yx * canvas.entity.local_map.x0
            - canvas.entity.local_map.xx * canvas.entity.local_map.y0)
          * (1 / (canvas.entity.local_map.xx * canvas.entity.local_map.yy
          - canvas.entity.local_map.yx * canvas.entity.local_map.xy))⟩) := by
    have e : adg_matrix_copy (adg_matrix_copy (adg_entity_get_local_map canvas.entity))
        = canvas.entity.local_map := rfl
    simp only [get_local_map, hc, e, hinv]
    rfl
  simp only [scroll_event, if_pos hdir, hget, hz, set_local_map, hc,
    adg_entity_set_local_map]


/-! ## Widget: theorems -/

/-- C14: the code does not clamp.  For every widget and every factor,
`adg_widget_get_factor` after `adg_widget_set_factor` is the new factor when it
is at least `1` and the old factor otherwise; on a new widget, whose factor is
`1.05`, setting the factor `0.5` leaves `1.05`, not `1`. -/
theorem set_factor_below_one_is_ignored (widget : AdgWidgetPrivate K) (factor : K) :
    adg_widget_get_factor (adg_widget_set_factor widget factor)
      = (if 1 ≤ factor then factor else adg_widget_get_factor widget) ∧
    adg_widget_get_factor (adg_widget_set_factor (adg_widget_init : AdgWidgetPrivate ℚ) (1 / 2))
      = 105 / 100 ∧
    adg_widget_get_factor (adg_widget_set_factor (adg_widget_init : AdgWidgetPrivate ℚ) (1 / 2))
      ≠ 1 := by
  have general : ∀ (F : Type) [LinearOrderedField F] (w : AdgWidgetPrivate F) (f : F),
      adg_widget_get_factor (adg_widget_set_factor w f)
        = (if 1 ≤ f then f else adg_widget_get_factor w) := by
    intro F _ w f
    simp only [adg_widget_get_factor, adg_widget_set_factor, set_factor, ge_iff_le]
    by_cases h1 : 1 ≤ f
    · by_cases h2 : w.factor = f
      · simp [h1, h2]
      · simp [h1, h2]
    · simp [h1]
  refine ⟨general K widget factor, ?_, ?_⟩
  · rw [general]
    norm_num [adg_widget_get_factor, adg_widget_init]
  · rw [general]
    norm_num [adg_widget_get_factor, adg_widget_init]

/-- C18: for every widget whose canvas has an invertible local map, every zoom
factor `f >= 1` and every pointer position `(ex, ey)`, handling a
`GDK_SCROLL_UP` event and then a `GDK_SCROLL_DOWN` event at that position
leaves the widget, hence the local map of its canvas, as before the two
events. -/
theorem scroll_up_then_down (widget : AdgWidgetPrivate K) (canvas : AdgCanvas K) (ex ey : K)
    (hc : widget.canvas = some canvas)
    (hdet : canvas.entity.local_map.xx * canvas.entity.local_map.yy
      - canvas.entity.local_map.yx * canvas.entity.local_map.xy ≠ 0)
    (hf : 1 ≤ widget.factor) :
    scroll_event (scroll_event widget ⟨.GDK_SCROLL_UP, ex, ey⟩) ⟨.GDK_SCROLL_DOWN, ex, ey⟩
      = widget := by
  have hf0 : widget.factor ≠ 0 := by
    intro h
    rw [h] at hf
    exact absurd hf (by norm_num)
  have h1 := scroll_event_eq widget canvas ⟨.GDK_SCROLL_UP, ex, ey⟩ hc (Or.inl rfl) hdet hf0
  simp only [if_true] at h1
  have hdet1 : (zoomed canvas.entity.local_map widget.factor ex ey).xx
        * (zoomed canvas.entity.local_map widget.factor ex ey).yy
      - (zoomed canvas.entity.local_map widget.factor ex ey).yx
        * (zoomed canvas.entity.local_map widget.factor ex ey).xy ≠ 0 := by
    rw [zoomed_det]
    exact mul_ne_zero (mul_ne_zero hf0 hf0) hdet
  have h2 := scroll_event_eq
    ({ widget with
        canvas := some { canvas with
          entity := { canvas.entity with
            local_map := zoomed canvas.entity.local_map widget.factor ex ey } } } :
      AdgWidgetPrivate K)
    { canvas with
      entity := { canvas.entity with
        local_map := zoomed canvas.entity.local_map widget.factor ex ey } }
    ⟨.GDK_SCROLL_DOWN, ex, ey⟩ rfl (Or.inr rfl) hdet1 hf0
  have hne : ¬ (GdkScrollDirection.GDK_SCROLL_DOWN = GdkScrollDirection.GDK_SCROLL_UP) := by
    decide
  simp only [if_neg hne, zoomed_zoomed _ _ _ _ hf0] at h2
  rw [h1, h2]
  cases widget
  cases canvas
  simp only at hc
  simp [hc]

/-- C18 instantiated over the rationals on `sample_widget` (factor `1.05`,
local map `(x, y) ↦ (2x + 5, 3y + 7)`) with the pointer at `(11, 13)`. -/
theorem scroll_up_then_down_witness :
    (sample_widget : AdgWidgetPrivate ℚ).canvas = some sample_canvas ∧
    (1 : ℚ) ≤ (sample_widget : AdgWidgetPrivate ℚ).factor ∧
    scroll_event (scroll_event (sample_widget : AdgWidgetPrivate ℚ) ⟨.GDK_SCROLL_UP, 11, 13⟩)
      ⟨.GDK_SCROLL_DOWN, 11, 13⟩ = sample_widget := by
  have hf : (1 : ℚ) ≤ (sample_widget : AdgWidgetPrivate ℚ).factor := by
    norm_num [sample_widget, adg_widget_init]
  refine ⟨rfl, hf, scroll_up_then_down sample_widget sample_canvas 11 13 rfl ?_ hf⟩
  norm_num [sample_canvas, adg_canvas_init, sample_entity]


/-! ## Canvas and toy text: theorems -/

/-- C15: the code does not store the frame dress.  For every canvas and every
dress, `adg_canvas_get_frame_dress` after `adg_canvas_set_frame_dress` returns
the frame dress the canvas had before; on a new canvas with frame dress `2`,
setting the frame dress `7` leaves the frame dress `2` and makes the background
dress `7`. -/
theorem set_frame_dress_keeps_frame_dress (env : AdgDressBuiltins) (canvas : AdgCanvas K)
    (dress : AdgDress) :
    adg_canvas_get_frame_dress (adg_canvas_set_frame_dress env canvas dress)
      = adg_canvas_get_frame_dress canvas ∧
    adg_canvas_get_frame_dress
        (adg_canvas_set_frame_dress sample_builtins (sample_canvas : AdgCanvas ℚ) 7) = 2 ∧
    adg_canvas_get_background_dress
        (adg_canvas_set_frame_dress sample_builtins (sample_canvas : AdgCanvas ℚ) 7) = 7 := by
  refine ⟨?_, ?_, ?_⟩
  · simp only [adg_canvas_get_frame_dress, adg_canvas_set_frame_dress, g_object_set,
      adg_canvas_class_init]
    split_ifs <;> rfl
  · simp [adg_canvas_get_frame_dress, adg_canvas_set_frame_dress, g_object_set,
      adg_canvas_class_init, g_param_value_valid, sample_builtins, sample_canvas,
      adg_canvas_init, _adg_set_property]
  · simp [adg_canvas_get_background_dress, adg_canvas_set_frame_dress, g_object_set,
      adg_canvas_class_init, g_param_value_valid, sample_builtins, sample_canvas,
      adg_canvas_init, _adg_set_property, g_value_get_int]

/-- C16: the code does not store the label.  For every toy text and every
label, `adg_toy_text_set_label` returns at its guard and leaves the toy text as
it was; on a new toy text, whose label is `NULL`, setting the label "abc"
leaves `NULL`. -/
theorem set_label_is_ignored (toy_text : AdgToyTextPrivate K) (label : Option String) :
    adg_toy_text_set_label toy_text label = toy_text ∧
    adg_toy_text_get_label
        (adg_toy_text_set_label (adg_toy_text_init : AdgToyTextPrivate ℚ) (some "abc"))
      = none := by
  constructor
  · simp [adg_toy_text_set_label, ADG_IS_TOY_TEXT_label]
  · simp [adg_toy_text_set_label, ADG_IS_TOY_TEXT_label, adg_toy_text_get_label,
      adg_toy_text_init]

theorem G_MINDOUBLE_pos : (0 : K) < G_MINDOUBLE := by
  unfold G_MINDOUBLE
  positivity

/-- C17: the code refuses the values below `G_MINDOUBLE`, a positive constant.
For every canvas and every value, `adg_canvas_get_top_margin` after
`adg_canvas_set_top_margin` is the value when it lies in
`[G_MINDOUBLE, G_MAXDOUBLE]` and the old margin otherwise; on a new canvas,
whose top margin is `15`, setting the margin `-1` leaves `15`. -/
theorem set_top_margin_refuses_negative (env : AdgDressBuiltins) (canvas : AdgCanvas K)
    (value : K) :
    (0 : K) < G_MINDOUBLE ∧
    adg_canvas_get_top_margin (adg_canvas_set_top_margin env canvas value)
      = (if G_MINDOUBLE ≤ value ∧ value ≤ G_MAXDOUBLE then value
          else adg_canvas_get_top_margin canvas) ∧
    adg_canvas_get_top_margin
        (adg_canvas_set_top_margin sample_builtins (sample_canvas : AdgCanvas ℚ) (-1)) = 15 := by
  have general : ∀ (F : Type) [LinearOrderedField F] (e : AdgDressBuiltins) (c : AdgCanvas F)
      (v : F), adg_canvas_get_top_margin (adg_canvas_set_top_margin e c v)
        = (if G_MINDOUBLE ≤ v ∧ v ≤ G_MAXDOUBLE then v else adg_canvas_get_top_margin c) := by
    intro F _ e c v
    simp only [adg_canvas_get_top_margin, adg_canvas_set_top_margin, g_object_set,
      adg_canvas_class_init, g_param_value_valid, decide_eq_true_eq]
    split_ifs
    · simp [_adg_set_property, g_value_get_double]
    · rfl
  refine ⟨G_MINDOUBLE_pos, general K env canvas value, ?_⟩
  rw [general]
  have hneg : ¬ ((G_MINDOUBLE : ℚ) ≤ -1 ∧ (-1 : ℚ) ≤ G_MAXDOUBLE) := by
    intro h
    have := (G_MINDOUBLE_pos : (0 : ℚ) < G_MINDOUBLE)
    linarith [h.1]
  rw [if_neg hneg]
  simp [adg_canvas_get_top_margin, sample_canvas, adg_canvas_init]

/-- C19: for every canvas with `has_frame` set, when the extents `E` the canvas
has after the `arrange` of its parent class are defined, the calls issued by
`_adg_render` on the canvas arranged by `_adg_arrange` stroke the rectangle of
origin `E.org - (left_padding, top_padding)` and of size
`E.size + (left_padding + right_padding, top_padding + bottom_padding)`: the
four margins cancel out.  The rectangle filled before is the whole extents. -/
theorem frame_is_extents_less_margins (parent_arrange : Option (AdgEntity K → AdgEntity K))
    (parent_render : List (CairoCall K)) (canvas : AdgCanvas K)
    (hframe : canvas.data.has_frame = true)
    (hdef : (adg_entity_get_extents
      (parent_class_arrange parent_arrange canvas.entity)).is_defined = true) :
    _adg_render parent_render (_adg_arrange parent_arrange canvas) =
      [.cairo_save, .cairo_identity_matrix,
       .cairo_rectangle
          ((adg_entity_get_extents (parent_class_arrange parent_arrange canvas.entity)).org.x
            - (canvas.data.left_margin + canvas.data.left_padding))
          ((adg_entity_get_extents (parent_class_arrange parent_arrange canvas.entity)).org.y
            - (canvas.data.top_margin + canvas.data.top_padding))
          ((adg_entity_get_extents (parent_class_arrange parent_arrange canvas.entity)).size.x
            + (canvas.data.left_margin + canvas.data.left_padding)
            + (canvas.data.right_margin + canvas.data.right_padding))
          ((adg_entity_get_extents (parent_class_arrange parent_arrange canvas.entity)).size.y
            + (canvas.data.top_margin + canvas.data.top_padding)
            + (canvas.data.bottom_margin + canvas.data.bottom_padding)),
       .adg_entity_apply_dress canvas.data.background_dress, .cairo_fill,
       .cairo_rectangle
          ((adg_entity_get_extents (parent_class_arrange parent_arrange canvas.entity)).org.x
            - canvas.data.left_padding)
          ((adg_entity_get_extents (parent_class_arrange parent_arrange canvas.entity)).org.y
            - canvas.data.top_padding)
          ((adg_entity_get_extents (parent_class_arrange parent_arrange canvas.entity)).size.x
            + (canvas.data.left_padding + canvas.data.right_padding))
          ((adg_entity_get_extents (parent_class_arrange parent_arrange canvas.entity)).size.y
            + (canvas.data.top_padding + canvas.data.bottom_padding)),
       .cairo_set_matrix
          (adg_entity_get_global_matrix (parent_class_arrange parent_arrange canvas.entity)),
       .adg_entity_apply_dress canvas.data.frame_dress, .cairo_stroke, .cairo_restore]
      ++ parent_render := by
  have hd : (parent_class_arrange parent_arrange canvas.entity).extents.is_defined = true :=
    hdef
  simp only [_adg_render, _adg_arrange, adg_entity_get_extents, adg_entity_set_extents,
    cpml_extents_copy, adg_entity_get_global_matrix, hd, if_true, hframe,
    List.cons_append, List.nil_append, List.append_assoc]
  congr 6
  congr 1 <;> ring

/-- C19 instantiated over the rationals on `sample_canvas` (extents of origin
`(10, 20)` and size `(100, 50)`, margins and paddings `15`), without parent
methods: the frame rectangle has origin `(-5, 5)` and size `(130, 80)`. -/
theorem frame_is_extents_less_margins_witness :
    (sample_canvas : AdgCanvas ℚ).data.has_frame = true ∧
    (adg_entity_get_extents
      (parent_class_arrange none (sample_canvas : AdgCanvas ℚ).entity)).is_defined = true ∧
    _adg_render [] (_adg_arrange none (sample_canvas : AdgCanvas ℚ)) =
      [.cairo_save, .cairo_identity_matrix, .cairo_rectangle (-20) (-10) 160 110,
       .adg_entity_apply_dress 1, .cairo_fill, .cairo_rectangle (-5) 5 130 80,
       .cairo_set_matrix ⟨1, 0, 0, 1, 0, 0⟩, .adg_entity_apply_dress 2, .cairo_stroke,
       .cairo_restore] := by
  refine ⟨rfl, rfl, ?_⟩
  rw [frame_is_extents_less_margins none [] (sample_canvas : AdgCanvas ℚ) rfl rfl]
  simp only [parent_class_arrange, adg_entity_get_extents, adg_entity_get_global_matrix,
    sample_canvas, adg_canvas_init, sample_entity, sample_builtins, List.append_nil]
  norm_num


/-! ## Drawing area: theorems -/

theorem MIN_eq_min (a b : K) : MIN a b = min a b := by
  unfold MIN
  split_ifs with h
  · exact (min_eq_left h.le).symm
  · exact (min_eq_right (not_lt.1 h)).symm

/-- The canvas after `_adg_get_extents` is the arranged canvas. -/
theorem get_extents_canvas (adg_entity_arrange : AdgCanvas K → AdgCanvas K)
    (area : AdgGtkAreaPrivate K) (canvas : AdgCanvas K) (hc : area.canvas = some canvas) :
    (_adg_get_extents adg_entity_arrange area).canvas = some (adg_entity_arrange canvas) ∧
    (_adg_get_extents adg_entity_arrange area).autozoom = area.autozoom := by
  simp only [_adg_get_extents, hc]
  split_ifs <;> exact ⟨rfl, rfl⟩

/-- C20: with autozoom enabled, a canvas set, `src_factor <= 0`, an allocation
of positive size `(w, h)` and extents (those returned by `_adg_get_extents`)
defined and of positive size `(ex, ey)`, `_adg_size_allocate` sets the scale of
the global map of the canvas to `xx = yy = F` and records `src_factor = F`,
where `F = min (w / ex) (h / ey)`; hence `F * ex <= w` and `F * ey <= h`, with
equality in at least one of the two. -/
theorem size_allocate_first_allocation [FloorRing K]
    (adg_entity_arrange : AdgCanvas K → AdgCanvas K) (area : AdgGtkAreaPrivate K)
    (canvas : AdgCanvas K) (allocation : GtkAllocation)
    (hauto : area.autozoom = true) (hc : area.canvas = some canvas)
    (hsrc : area.src_factor ≤ 0)
    (hw : 0 < allocation.width) (hh : 0 < allocation.height)
    (hdef : (_adg_get_extents adg_entity_arrange area).extents.is_defined = true)
    (hx : 0 < (_adg_get_extents adg_entity_arrange area).extents.size.x)
    (hy : 0 < (_adg_get_extents adg_entity_arrange area).extents.size.y) :
    (∃ shown : AdgCanvas K,
      (_adg_size_allocate adg_entity_arrange area allocation).canvas = some shown ∧
      (adg_entity_get_global_map shown.entity).xx
        = min ((allocation.width : K)
            / (_adg_get_extents adg_entity_arrange area).extents.size.x)
          ((allocation.height : K)
            / (_adg_get_extents adg_entity_arrange area).extents.size.y) ∧
      (adg_entity_get_global_map shown.entity).yy
        = min ((allocation.width : K)
            / (_adg_get_extents adg_entity_arrange area).extents.size.x)
          ((allocation.height : K)
            / (_adg_get_extents adg_entity_arrange area).extents.size.y)) ∧
    (_adg_size_allocate adg_entity_arrange area allocation).src_factor
      = min ((allocation.width : K)
          / (_adg_get_extents adg_entity_arrange area).extents.size.x)
        ((allocation.height : K)
          / (_adg_get_extents adg_entity_arrange area).extents.size.y) ∧
    (min ((allocation.width : K) / (_adg_get_extents adg_entity_arrange area).extents.size.x)
          ((allocation.height : K)
            / (_adg_get_extents adg_entity_arrange area).extents.size.y)
        * (_adg_get_extents adg_entity_arrange area).extents.size.x ≤ (allocation.width : K) ∧
     min ((allocation.width : K) / (_adg_get_extents adg_entity_arrange area).extents.size.x)
          ((allocation.height : K)
            / (_adg_get_extents adg_entity_arrange area).extents.size.y)
        * (_adg_get_extents adg_entity_arrange area).extents.size.y
        ≤ (allocation.height : K)) ∧
    (min ((allocation.width : K) / (_adg_get_extents adg_entity_arrange area).extents.size.x)
          ((allocation.height : K)
            / (_adg_get_extents adg_entity_arrange area).extents.size.y)
        * (_adg_get_extents adg_entity_arrange area).extents.size.x = (allocation.width : K) ∨
     min ((allocation.width : K) / (_adg_get_extents adg_entity_arrange area).extents.size.x)
          ((allocation.height : K)
            / (_adg_get_extents adg_entity_arrange area).extents.size.y)
        * (_adg_get_extents adg_entity_arrange area).extents.size.y
        = (allocation.height : K)) := by
  obtain ⟨hcan, _⟩ := get_extents_canvas adg_entity_arrange area canvas hc
  have hpos : allocation.width > 0 ∧ allocation.height > 0 := ⟨hw, hh⟩
  have hnot : ¬ ((_adg_get_extents adg_entity_arrange area).extents.size.x ≤ 0 ∨
      (_adg_get_extents adg_entity_arrange area).extents.size.y ≤ 0) := by
    rintro (h | h)
    · exact absurd hx (not_lt.2 h)
    · exact absurd hy (not_lt.2 h)
  have hres : _adg_size_allocate adg_entity_arrange area allocation =
      { _adg_get_extents adg_entity_arrange area with
        src_allocation :=
          { allocation with
            x := double_to_gint
              (((allocation.width : K)
                  - (_adg_get_extents adg_entity_arrange area).extents.size.x
                    * MIN ((allocation.width : K)
                        / (_adg_get_extents adg_entity_arrange area).extents.size.x)
                      ((allocation.height : K)
                        / (_adg_get_extents adg_entity_arrange area).extents.size.y)) / 2
                - (_adg_get_extents adg_entity_arrange area).extents.org.x)
            y := double_to_gint
              (((allocation.height : K)
                  - (_adg_get_extents adg_entity_arrange area).extents.size.y
                    * MIN ((allocation.width : K)
                        / (_adg_get_extents adg_entity_arrange area).extents.size.x)
                      ((allocation.height : K)
                        / (_adg_get_extents adg_entity_arrange area).extents.size.y)) / 2
                - (_adg_get_extents adg_entity_arrange area).extents.org.y) }
        src_factor := MIN ((allocation.width : K)
            / (_adg_get_extents adg_entity_arrange area).extents.size.x)
          ((allocation.height : K)
            / (_adg_get_extents adg_entity_arrange area).extents.size.y)
        canvas := some
          { adg_entity_arrange canvas with
            entity := adg_entity_set_global_map (adg_entity_arrange canvas).entity
              { adg_matrix_copy (adg_entity_get_global_map canvas.entity) with
                x0 := ((allocation.width : K)
                    - (_adg_get_extents adg_entity_arrange area).extents.size.x
                      * MIN ((allocation.width : K)
                          / (_adg_get_extents adg_entity_arrange area).extents.size.x)
                        ((allocation.height : K)
                          / (_adg_get_extents adg_entity_arrange area).extents.size.y)) / 2
                  - (_adg_get_extents adg_entity_arrange area).extents.org.x
                y0 := ((allocation.height : K)
                    - (_adg_get_extents adg_entity_arrange area).extents.size.y
                      * MIN ((allocation.width : K)
                          / (_adg_get_extents adg_entity_arrange area).extents.size.x)
                        ((allocation.height : K)
                          / (_adg_get_extents adg_entity_arrange area).extents.size.y)) / 2
                  - (_adg_get_extents adg_entity_arrange area).extents.org.y
                xx := MIN ((allocation.width : K)
                    / (_adg_get_extents adg_entity_arrange area).extents.size.x)
                  ((allocation.height : K)
                    / (_adg_get_extents adg_entity_arrange area).extents.size.y)
                yy := MIN ((allocation.width : K)
                    / (_adg_get_extents adg_entity_arrange area).extents.size.x)
                  ((allocation.height : K)
                    / (_adg_get_extents adg_entity_arrange area).extents.size.y) } } } := by
    unfold _adg_size_allocate
    simp only [hauto, hc, hpos, hsrc, hdef, hnot, hcan, not_true_eq_false, if_false, if_true,
      and_self, Option.map_some', Bool.not_eq_true]
  rw [hres, MIN_eq_min]
  refine ⟨⟨_, rfl, rfl, rfl⟩, rfl, ⟨?_, ?_⟩, ?_⟩
  · calc min _ _ * (_adg_get_extents adg_entity_arrange area).extents.size.x
        ≤ (allocation.width : K) / (_adg_get_extents adg_entity_arrange area).extents.size.x
          * (_adg_get_extents adg_entity_arrange area).extents.size.x :=
          mul_le_mul_of_nonneg_right (min_le_left _ _) hx.le
      _ = (allocation.width : K) := div_mul_cancel₀ _ (ne_of_gt hx)
  · calc min _ _ * (_adg_get_extents adg_entity_arrange area).extents.size.y
        ≤ (allocation.height : K) / (_adg_get_extents adg_entity_arrange area).extents.size.y
          * (_adg_get_extents adg_entity_arrange area).extents.size.y :=
          mul_le_mul_of_nonneg_right (min_le_right _ _) hy.le
      _ = (allocation.height : K) := div_mul_cancel₀ _ (ne_of_gt hy)
  · rcases le_total ((allocation.width : K)
        / (_adg_get_extents adg_entity_arrange area).extents.size.x)
      ((allocation.height : K)
        / (_adg_get_extents adg_entity_arrange area).extents.size.y) with h | h
    · left
      rw [min_eq_left h]
      exact div_mul_cancel₀ _ (ne_of_gt hx)
    · right
      rw [min_eq_right h]
      exact div_mul_cancel₀ _ (ne_of_gt hy)


/-- C20 instantiated over the rationals on `sample_area` with the canvas
arranged by `_adg_arrange` and an allocation of `400 x 300`: the extents have
size `(190, 140)` and the factor is `min (400/190) (300/140) = 40/19`. -/
theorem size_allocate_first_allocation_witness :
    (sample_area : AdgGtkAreaPrivate ℚ).autozoom = true ∧
    (sample_area : AdgGtkAreaPrivate ℚ).canvas = some sample_canvas ∧
    (sample_area : AdgGtkAreaPrivate ℚ).src_factor ≤ 0 ∧
    (_adg_get_extents (_adg_arrange none) (sample_area : AdgGtkAreaPrivate ℚ)).extents
      = ⟨true, ⟨-35, -25⟩, ⟨190, 140⟩⟩ ∧
    (_adg_size_allocate (_adg_arrange none) (sample_area : AdgGtkAreaPrivate ℚ)
      ⟨0, 0, 400, 300⟩).src_factor = 40 / 19 := by
  have hext : (_adg_get_extents (_adg_arrange none)
      (sample_area : AdgGtkAreaPrivate ℚ)).extents = ⟨true, ⟨-35, -25⟩, ⟨190, 140⟩⟩ := by
    simp only [_adg_get_extents, sample_area, sample_canvas, adg_canvas_init, sample_entity,
      sample_builtins, _adg_arrange, parent_class_arrange, cpml_extents_copy,
      adg_entity_get_extents, adg_entity_set_extents, adg_canvas_get_top_margin,
      adg_canvas_get_right_margin, adg_canvas_get_bottom_margin, adg_canvas_get_left_margin,
      if_true]
    norm_num
  have hsrc : (sample_area : AdgGtkAreaPrivate ℚ).src_factor ≤ 0 := le_refl _
  have h := size_allocate_first_allocation (_adg_arrange none)
    (sample_area : AdgGtkAreaPrivate ℚ) sample_canvas ⟨0, 0, 400, 300⟩ rfl rfl hsrc
    (by decide) (by decide) (by rw [hext]) (by rw [hext]; norm_num) (by rw [hext]; norm_num)
  refine ⟨rfl, rfl, hsrc, hext, ?_⟩
  rw [h.2.1, hext]
  norm_num


/-! ## Arrangement of the canvas and entity maps: theorems -/

/-- C21: `_adg_arrange` leaves room for the margins and the paddings on every
side.  When the extents `E` of the canvas (those it has after the `arrange` of
its parent class) are defined, the extents it stores are defined, with origin
`E.org - (left_margin + left_padding, top_margin + top_padding)` and size
`E.size + (left_margin + left_padding + right_margin + right_padding,
top_margin + top_padding + bottom_margin + bottom_padding)`; when `E` is
undefined the extents are left as they are. -/
theorem arrange_adds_margins_and_paddings
    (parent_arrange : Option (AdgEntity K → AdgEntity K)) (canvas : AdgCanvas K) :
    ((adg_entity_get_extents
        (parent_class_arrange parent_arrange canvas.entity)).is_defined = true →
      adg_entity_get_extents (_adg_arrange parent_arrange canvas).entity =
        ⟨true,
         ⟨(adg_entity_get_extents (parent_class_arrange parent_arrange canvas.entity)).org.x
            - (canvas.data.left_margin + canvas.data.left_padding),
          (adg_entity_get_extents (parent_class_arrange parent_arrange canvas.entity)).org.y
            - (canvas.data.top_margin + canvas.data.top_padding)⟩,
         ⟨(adg_entity_get_extents (parent_class_arrange parent_arrange canvas.entity)).size.x
            + (canvas.data.left_margin + canvas.data.left_padding
              + canvas.data.right_margin + canvas.data.right_padding),
          (adg_entity_get_extents (parent_class_arrange parent_arrange canvas.entity)).size.y
            + (canvas.data.top_margin + canvas.data.top_padding
              + canvas.data.bottom_margin + canvas.data.bottom_padding)⟩⟩) ∧
    ((adg_entity_get_extents
        (parent_class_arrange parent_arrange canvas.entity)).is_defined = false →
      adg_entity_get_extents (_adg_arrange parent_arrange canvas).entity =
        adg_entity_get_extents (parent_class_arrange parent_arrange canvas.entity)) ∧
    (_adg_arrange parent_arrange canvas).data = canvas.data := by
  refine ⟨?_, ?_, ?_⟩
  · intro hdef
    have hd : (parent_class_arrange parent_arrange canvas.entity).extents.is_defined = true :=
      hdef
    simp only [_adg_arrange, adg_entity_get_extents, adg_entity_set_extents,
      cpml_extents_copy, hd, if_true]
    ext
    · rfl
    · rfl
    · rfl
    · dsimp only
      ring
    · dsimp only
      ring
  · intro hdef
    have hd : (parent_class_arrange parent_arrange canvas.entity).extents.is_defined = false :=
      hdef
    simp only [_adg_arrange, adg_entity_get_extents, cpml_extents_copy, hd,
      Bool.false_eq_true, if_false]
  · simp only [_adg_arrange]
    split_ifs <;> rfl

/-- C21 instantiated over the rationals, without parent method: on
`sample_canvas` (extents of origin `(10, 20)` and size `(100, 50)`, margins and
paddings `15`) the stored extents have origin `(-20, -10)` and size
`(160, 110)`; on the same canvas with undefined extents they stay as they
are. -/
theorem arrange_adds_margins_and_paddings_witness :
    ((adg_entity_get_extents
        (parent_class_arrange none (sample_canvas : AdgCanvas ℚ).entity)).is_defined = true ∧
      adg_entity_get_extents (_adg_arrange none (sample_canvas : AdgCanvas ℚ)).entity
        = ⟨true, ⟨-20, -10⟩, ⟨160, 110⟩⟩) ∧
    ((adg_entity_get_extents
        (parent_class_arrange none
          ({ (sample_canvas : AdgCanvas ℚ) with
              entity := adg_entity_set_extents sample_entity ⟨false, ⟨1, 2⟩, ⟨3, 4⟩⟩ } :
            AdgCanvas ℚ).entity)).is_defined = false ∧
      adg_entity_get_extents
          (_adg_arrange none
            ({ (sample_canvas : AdgCanvas ℚ) with
                entity := adg_entity_set_extents sample_entity ⟨false, ⟨1, 2⟩, ⟨3, 4⟩⟩ } :
              AdgCanvas ℚ)).entity
        = ⟨false, ⟨1, 2⟩, ⟨3, 4⟩⟩) := by
  have h1 := (arrange_adds_margins_and_paddings none (sample_canvas : AdgCanvas ℚ)).1 rfl
  have h2 := (arrange_adds_margins_and_paddings none
    ({ (sample_canvas : AdgCanvas ℚ) with
        entity := adg_entity_set_extents sample_entity ⟨false, ⟨1, 2⟩, ⟨3, 4⟩⟩ } :
      AdgCanvas ℚ)).2.1 rfl
  refine ⟨⟨rfl, ?_⟩, ⟨rfl, ?_⟩⟩
  · rw [h1]
    simp only [parent_class_arrange, adg_entity_get_extents, sample_canvas, adg_canvas_init,
      sample_entity, sample_builtins]
    norm_num
  · rw [h2]
    rfl

/-- The model of `adg_matrix_transform` passes the other assertion of the test
(lines 90-92 and 148-150 of tests/test-entity.c): the null map transformed
after by `dummy_map = (1, 2, 3, 4, 0, 0)` is still the null map. -/
theorem null_map_transform_after :
    adg_matrix_equal
        (adg_matrix_transform (⟨0, 0, 0, 0, 0, 0⟩ : AdgMatrix ℚ) ⟨1, 2, 3, 4, 0, 0⟩
          .ADG_TRANSFORM_AFTER)
        ⟨0, 0, 0, 0, 0, 0⟩ = true := by
  simp [adg_matrix_equal, adg_matrix_transform, cairo_matrix_multiply]

theorem adg_matrix_equal_iff (matrix1 matrix2 : AdgMatrix K) :
    adg_matrix_equal matrix1 matrix2 = true ↔ matrix1 = matrix2 := by
  simp only [adg_matrix_equal, decide_eq_true_eq]
  constructor
  · rintro ⟨h1, h2, h3, h4, h5, h6⟩
    exact AdgMatrix.ext h1 h2 h3 h4 h5 h6
  · rintro rfl
    exact ⟨rfl, rfl, rfl, rfl, rfl, rfl⟩

theorem transform_identity_before (transformation : AdgMatrix K) :
    adg_matrix_transform (adg_matrix_copy adg_matrix_identity) transformation
      .ADG_TRANSFORM_BEFORE = transformation := by
  simp only [adg_matrix_transform, adg_matrix_copy, adg_matrix_identity, cairo_matrix_multiply]
  ext <;> dsimp only <;> ring

/-- C22: for every matrix `M`, on an entity whose global map is the identity
(in the sense of `adg_matrix_equal`),
`adg_entity_transform_global_map (entity, M, ADG_TRANSFORM_BEFORE)` leaves a
global map that `adg_matrix_equal` finds equal to `M`; the same holds for the
local map with `adg_entity_transform_local_map`. -/
theorem transform_before_on_identity_map (entity : AdgEntity K) (M : AdgMatrix K) :
    (adg_matrix_equal (adg_entity_get_global_map entity) adg_matrix_identity = true →
      adg_matrix_equal
        (adg_entity_get_global_map
          (adg_entity_transform_global_map entity M .ADG_TRANSFORM_BEFORE)) M = true) ∧
    (adg_matrix_equal (adg_entity_get_local_map entity) adg_matrix_identity = true →
      adg_matrix_equal
        (adg_entity_get_local_map
          (adg_entity_transform_local_map entity M .ADG_TRANSFORM_BEFORE)) M = true) := by
  constructor
  · intro h
    rw [adg_matrix_equal_iff] at h ⊢
    simp only [adg_entity_transform_global_map, adg_entity_set_global_map,
      adg_entity_get_global_map] at h ⊢
    rw [h]
    exact transform_identity_before M
  · intro h
    rw [adg_matrix_equal_iff] at h ⊢
    simp only [adg_entity_transform_local_map, adg_entity_set_local_map,
      adg_entity_get_local_map] at h ⊢
    rw [h]
    exact transform_identity_before M

/-- C22 instantiated over the rationals as in the test: on an entity whose maps
are the identity, transforming before by `dummy_map = (1, 2, 3, 4, 0, 0)` leaves
`dummy_map` as global map and as local map. -/
theorem transform_before_on_identity_map_witness :
    adg_matrix_equal
        (adg_entity_get_global_map
          (⟨adg_matrix_identity, adg_matrix_identity, adg_matrix_identity,
            ⟨false, ⟨0, 0⟩, ⟨0, 0⟩⟩⟩ : AdgEntity ℚ))
        adg_matrix_identity = true ∧
    adg_matrix_equal
        (adg_entity_get_global_map
          (adg_entity_transform_global_map
            (⟨adg_matrix_identity, adg_matrix_identity, adg_matrix_identity,
              ⟨false, ⟨0, 0⟩, ⟨0, 0⟩⟩⟩ : AdgEntity ℚ)
            ⟨1, 2, 3, 4, 0, 0⟩ .ADG_TRANSFORM_BEFORE))
        ⟨1, 2, 3, 4, 0, 0⟩ = true ∧
    adg_matrix_equal
        (adg_entity_get_local_map
          (adg_entity_transform_local_map
            (⟨adg_matrix_identity, adg_matrix_identity, adg_matrix_identity,
              ⟨false, ⟨0, 0⟩, ⟨0, 0⟩⟩⟩ : AdgEntity ℚ)
            ⟨1, 2, 3, 4, 0, 0⟩ .ADG_TRANSFORM_BEFORE))
        ⟨1, 2, 3, 4, 0, 0⟩ = true := by
  have hid : adg_matrix_equal (adg_matrix_identity : AdgMatrix ℚ) adg_matrix_identity
      = true := (adg_matrix_equal_iff _ _).2 rfl
  have h := transform_before_on_identity_map
    (⟨adg_matrix_identity, adg_matrix_identity, adg_matrix_identity,
      ⟨false, ⟨0, 0⟩, ⟨0, 0⟩⟩⟩ : AdgEntity ℚ) ⟨1, 2, 3, 4, 0, 0⟩
  exact ⟨hid, h.1 hid, h.2 hid⟩

end Adg
